import Mathlib

/-!
# tip90api: account lifecycle, administration and mail

A shallow embedding of the account code of the tip90api backend
(`src/controllers/auth.js`, `src/controllers/prediction.js`, `src/helpers/email.js`,
`src/config/minio.js`) and theorems about it.

Modelling conventions.

* The account repository is a list of `Account` documents. A document that a
  handler obtained from a query is a snapshot; `save` writes it back under its
  id.
* Every outside collaborator whose call can throw is given by an outcome
  function in `Env`: the id cast of `User.findById`, `user.save()` and the mail
  transport. Exceptions are values of `Except`.
* Timestamps are milliseconds since the epoch, as natural numbers. Every read
  of the system clock is a separate input of the model.
* Numbers of a request body are modelled as integers. The amounts that
  `getRevenueAnalytics` adds are modelled as binary64 values, with the rounding
  of every addition.
* Repository queries and bulk deletions are taken to succeed; what may be
  rejected is the save of a document and the delivery of a mail.
* The `URL` parser, the `Date` functions and `toLowerCase` of the runtime are
  parameters of the code that uses them.
-/

namespace Tip90

/-! ## Data model -/

/-- JavaScript values as they occur in a parsed request body and in documents. -/
inductive JsVal where
  | undefined
  | null
  | bool (b : Bool)
  | num (n : Int)
  | str (s : String)
  | date (ms : Nat)
  | object
  deriving DecidableEq, Repr

/-- JavaScript truthiness, the meaning of `!v` and of `v` in a condition. -/
def JsVal.truthy : JsVal → Bool
  | .undefined => false
  | .null => false
  | .bool b => b
  | .num n => n != 0
  | .str s => s != ""
  | .date _ => true
  | .object => true

/-- The test `typeof v === "boolean"`. -/
def JsVal.isBoolean : JsVal → Bool
  | .bool _ => true
  | _ => false

/-- The fields of a user document that the lifecycle code reads or writes. -/
structure Account where
  id : String
  email : String
  username : String
  emailVerified : Bool
  createdAt : Nat
  profileImage : Option String
  isAdmin : Bool
  isAuthorized : Bool
  isVip : Bool
  vipPlan : JsVal
  activation : Option Nat
  duration : Nat
  expires : Option Nat
  payment : JsVal
  deriving DecidableEq, Repr

/-- The options object handed to `sendTemplatedEmail`; `recipient` is its key `to`. -/
structure Mail where
  recipient : String
  subject : String
  templatePath : String
  replacements : List (String × JsVal)
  deriving DecidableEq, Repr

/-- Outcomes of the calls that leave the process. -/
structure Env where
  /-- Whether `User.findById` accepts the value as an id instead of throwing a cast error. -/
  idOk : JsVal → Bool
  /-- Whether `save()` of this document succeeds. -/
  saveOk : Account → Bool
  /-- Whether reading the template and `transporter.sendMail` succeed for this mail. -/
  sendOk : Mail → Bool
  /-- The message of the error that the template read or `transporter.sendMail` throws for
  this mail when it fails. -/
  sendError : Mail → String

/-- The observable state: the account collection and the mails delivered so far. -/
structure World where
  users : List Account
  outbox : List Mail
  deriving DecidableEq, Repr

/-- The JSON answer of a handler: HTTP status, `message`, and `data.user` when present. -/
structure Response where
  status : Nat
  message : String
  user : Option Account
  deriving DecidableEq, Repr

/-- The destructured body of a `toggleVipStatus` request; a missing key is `undefined`. -/
structure VipBody where
  userId : JsVal
  isVip : JsVal
  vipPlan : JsVal
  payment : JsVal
  deriving DecidableEq, Repr

/-! ## Repository operations -/

/-- Query `User.findById(v)`: a cast error when the value is no id, else the document with that id or null. -/
def findById (env : Env) (users : List Account) (v : JsVal) : Except String (Option Account) :=
  if env.idOk v then
    .ok (users.find? (fun a => decide (JsVal.str a.id = v)))
  else
    .error "Cast to ObjectId failed"

/-- The write of `doc.save()`: the stored document with the id of `doc` is replaced by `doc`. -/
def save (users : List Account) (doc : Account) : List Account :=
  users.map (fun a => if a.id = doc.id then doc else a)

/-! ## src/helpers/email.js -/

/-- A date-valued template replacement. -/
def dateVal : Option Nat → JsVal
  | none => .null
  | some t => .date t

/-- Helper `sendTemplatedEmail(options)`: throws without a recipient or when the template read
or the transport fails, then with the message of that failure appended to its own; a delivered
mail is appended to the outbox. -/
def sendTemplatedEmail (env : Env) (m : Mail) (outbox : List Mail) :
    Except String Unit × List Mail :=
  if m.recipient = "" then
    (.error "Recipient email is required.", outbox)
  else if env.sendOk m then
    (.ok (), outbox ++ [m])
  else
    (.error ("Failed to send email: " ++ env.sendError m), outbox)

/-- Helper `sendVipSubcriptionEmail(email, username, duration, plan, activation, expire)`. -/
def sendVipSubcriptionEmail (env : Env) (email username : String) (duration : Nat) (plan : JsVal)
    (activation expire : Option Nat) (outbox : List Mail) : Except String Unit × List Mail :=
  if email = "" ∨ username = "" then
    (.error "Email and username are required to send a VIP subscription email.", outbox)
  else
    sendTemplatedEmail env
      { recipient := email
        subject := "VIP Activated"
        templatePath := "../client/vipSubcriptionActive.html"
        replacements := [("username", .str username), ("duration", .num duration),
          ("plan", plan), ("activation", dateVal activation), ("expire", dateVal expire)] }
      outbox

/-- Helper `sendVipUnsubcriptionEmail(email, username)`. -/
def sendVipUnsubcriptionEmail (env : Env) (email username : String) (outbox : List Mail) :
    Except String Unit × List Mail :=
  if email = "" ∨ username = "" then
    (.error "Email and username required for VIP unsubscription email", outbox)
  else
    sendTemplatedEmail env
      { recipient := email
        subject := "VIP Unsubscribed"
        templatePath := "../client/vipUnsubscribe.html"
        replacements := [("username", .str username)] }
      outbox

/-- Helper `sendVipExpiration(email, username, expire)`: the mail with subject "VIP Expired". -/
def sendVipExpiration (env : Env) (email username : String) (expire : Option Nat)
    (outbox : List Mail) : Except String Unit × List Mail :=
  if email = "" ∨ username = "" then
    (.error "Email and username are required to send a VIP expiration email.", outbox)
  else
    sendTemplatedEmail env
      { recipient := email
        subject := "VIP Expired"
        templatePath := "../client/vipExpires.html"
        replacements := [("username", .str username), ("expiryDate", dateVal expire)] }
      outbox

/-- Helper `sendVipRemainder(email, username, duration)`: the mail with subject "Your VIP Reminder". -/
def sendVipRemainder (env : Env) (email username : String) (duration : Nat)
    (outbox : List Mail) : Except String Unit × List Mail :=
  if email = "" ∨ username = "" then
    (.error "Email and username are required to send a VIP remainder email.", outbox)
  else
    sendTemplatedEmail env
      { recipient := email
        subject := "Your VIP Reminder"
        templatePath := "../client/remainder.html"
        replacements := [("username", .str username), ("duration", .num duration)] }
      outbox

/-! ## src/controllers/auth.js: toggleVipStatus -/

/-- The number of days of a plan, `vipPlan === "weekly" ? 7 : 30`. -/
def planDays (vipPlan : JsVal) : Nat :=
  if vipPlan = .str "weekly" then 7 else 30

/-- The test `["weekly", "monthly"].includes(vipPlan)`. -/
def planIncluded (vipPlan : JsVal) : Bool :=
  decide (vipPlan = .str "weekly") || decide (vipPlan = .str "monthly")

/-- The object `updateData` assigned onto the document (`Object.assign(user, updateData)`).
`now` is the reading of `new Date()` for `activation`; the later `Date.now()` for `expires`
reads `now + lag`. -/
def updateData (isVip : Bool) (vipPlan payment : JsVal) (now lag : Nat) (user : Account) :
    Account :=
  { user with
    isVip := isVip
    vipPlan := if isVip then vipPlan else .str ""
    activation := if isVip then some now else none
    duration := if isVip then planDays vipPlan else 0
    expires := if isVip then some (now + lag + planDays vipPlan * 24 * 60 * 60 * 1000) else none
    payment := if isVip then payment else .num 0 }

/-- The notification step of `toggleVipStatus`: the subscription mail on activation, the
unsubscription mail on deactivation, both awaited. -/
def notifyVip (env : Env) (isVip : Bool) (user : Account) (vipPlan : JsVal)
    (outbox : List Mail) : Except String Unit × List Mail :=
  if isVip then
    sendVipSubcriptionEmail env user.email user.username user.duration vipPlan
      user.activation user.expires outbox
  else
    sendVipUnsubcriptionEmail env user.email user.username outbox

/-- The handler `toggleVipStatus`. An exception of a repository or mail call is answered by
the `catch` block with status 500. -/
def toggleVipStatus (env : Env) (now lag : Nat) (body : VipBody) (w : World) :
    Response × World :=
  if !body.userId.truthy || !body.isVip.isBoolean
      || (body.isVip.truthy && !body.payment.truthy) then
    ({ status := 400, message := "Invalid request parameters", user := none }, w)
  else if body.isVip.truthy && !planIncluded body.vipPlan then
    ({ status := 400, message := "Invalid VIP plan", user := none }, w)
  else
    match findById env w.users body.userId with
    | .error e => ({ status := 500, message := e, user := none }, w)
    | .ok none => ({ status := 404, message := "User not found", user := none }, w)
    | .ok (some found) =>
      let isVip := body.isVip.truthy
      let user := updateData isVip body.vipPlan body.payment now lag found
      if env.saveOk user then
        let users := save w.users user
        match notifyVip env isVip user body.vipPlan w.outbox with
        | (.ok _, outbox) =>
          ({ status := 200
             message := if isVip then "VIP status activated" else "VIP status deactivated"
             user := some user },
           { users := users, outbox := outbox })
        | (.error e, outbox) =>
          ({ status := 500, message := e, user := none }, { users := users, outbox := outbox })
      else
        ({ status := 500, message := "save failed", user := none }, w)

/-! ## src/controllers/auth.js: checkVipExpirations -/

/-- The query `{ isVip: true, expires: { $lt: currentDate } }`; a null `expires` matches no
date comparison. -/
def isExpiredVip (currentDate : Nat) (a : Account) : Bool :=
  a.isVip && (match a.expires with
    | some e => decide (e < currentDate)
    | none => false)

/-- The query `{ isVip: true, expires: { $gt: currentDate, $lt: sevenDaysFromNow } }`. -/
def isExpiringVip (currentDate : Nat) (a : Account) : Bool :=
  a.isVip && (match a.expires with
    | some e => decide (currentDate < e) && decide (e < currentDate + 7 * 24 * 60 * 60 * 1000)
    | none => false)

/-- The two assignments `user.isVip = false; user.vipPlan = null`. -/
def demote (user : Account) : Account :=
  { user with isVip := false, vipPlan := .null }

/-- The first loop of `checkVipExpirations` over the documents found expired. An exception of
`save` or of the mail helper leaves the loop. -/
def demoteLoop (env : Env) : List Account → World → Except String Unit × World
  | [], w => (.ok (), w)
  | found :: rest, w =>
    let user := demote found
    if env.saveOk user then
      let users := save w.users user
      match sendVipRemainder env user.email user.username user.duration w.outbox with
      | (.ok _, outbox) => demoteLoop env rest { users := users, outbox := outbox }
      | (.error e, outbox) => (.error e, { users := users, outbox := outbox })
    else
      (.error "save failed", w)

/-- The second loop of `checkVipExpirations` over the documents found expiring. -/
def warnLoop (env : Env) : List Account → World → Except String Unit × World
  | [], w => (.ok (), w)
  | user :: rest, w =>
    match sendVipExpiration env user.email user.username user.expires w.outbox with
    | (.ok _, outbox) => warnLoop env rest { w with outbox := outbox }
    | (.error e, outbox) => (.error e, { w with outbox := outbox })

/-- The cron job `checkVipExpirations`, run when `new Date()` reads `currentDate`. The outer
`catch` only logs, so the job ends in the state reached when an exception was thrown. -/
def checkVipExpirations (env : Env) (currentDate : Nat) (w : World) : World :=
  let expiredUsers := w.users.filter (isExpiredVip currentDate)
  match demoteLoop env expiredUsers w with
  | (.error _, w1) => w1
  | (.ok _, w1) =>
    let expiringUsers := w1.users.filter (isExpiringVip currentDate)
    (warnLoop env expiringUsers w1).2

/-! ## Concrete inputs used in examples -/

/-- An environment in which every outside call succeeds. -/
def envOk : Env :=
  { idOk := fun _ => true, saveOk := fun _ => true, sendOk := fun _ => true,
    sendError := fun _ => "" }

/-- An environment in which the mail transport fails and everything else succeeds. -/
def envMailDown : Env :=
  { idOk := fun _ => true, saveOk := fun _ => true, sendOk := fun _ => false,
    sendError := fun _ => "Connection timeout" }

/-- A verified account without a subscription. -/
def alice : Account :=
  { id := "u1", email := "alice@example.com", username := "alice", emailVerified := true,
    createdAt := 0, profileImage := none, isAdmin := false, isAuthorized := false,
    isVip := false, vipPlan := .str "", activation := none, duration := 0, expires := none,
    payment := .num 0 }

/-- Account A of the specification scenario: monthly plan, activated 2024-01-01T00:00Z,
expiring 2024-01-31T00:00Z. -/
def accountA : Account :=
  { id := "a", email := "a@example.com", username := "userA", emailVerified := true,
    createdAt := 0, profileImage := none, isAdmin := false, isAuthorized := false,
    isVip := true, vipPlan := .str "monthly", activation := some 1704067200000, duration := 30,
    expires := some 1706659200000, payment := .num 25 }

/-- A second subscriber whose subscription also ended before February 2024. -/
def accountB : Account :=
  { accountA with id := "b", email := "b@example.com", username := "userB" }

/-- A store holding only `alice`, with no mail delivered yet. -/
def worldAlice : World := { users := [alice], outbox := [] }

/-- A store holding only `accountA`, with no mail delivered yet. -/
def worldA : World := { users := [accountA], outbox := [] }

/-- A store holding `accountA`, `accountB` and `alice`. -/
def worldAB : World := { users := [accountA, accountB, alice], outbox := [] }

/-- The request `{ userId: "u1", isVip: true, vipPlan: "weekly", payment: 10 }`. -/
def weeklyRequest : VipBody :=
  { userId := .str "u1", isVip := .bool true, vipPlan := .str "weekly", payment := .num 10 }

/-- The request `{ userId: "u1", isVip: true, vipPlan: "monthly", payment: 25 }`. -/
def monthlyRequest : VipBody :=
  { userId := .str "u1", isVip := .bool true, vipPlan := .str "monthly", payment := .num 25 }

/-- The request `{ userId: "a", isVip: false, vipPlan: "monthly", payment: 99 }`. -/
def deactivateRequest : VipBody :=
  { userId := .str "a", isVip := .bool false, vipPlan := .str "monthly", payment := .num 99 }

/-- The instant 2024-02-01T00:00:00Z. -/
def feb1 : Nat := 1706745600000

/-! ## Notification mails of the sweep -/

/-- The options object that `sendVipRemainder` builds for a document. -/
def reminderMail (u : Account) : Mail :=
  { recipient := u.email
    subject := "Your VIP Reminder"
    templatePath := "../client/remainder.html"
    replacements := [("username", .str u.username), ("duration", .num u.duration)] }

/-- The options object that `sendVipExpiration` builds for a document. -/
def expirationMail (u : Account) : Mail :=
  { recipient := u.email
    subject := "VIP Expired"
    templatePath := "../client/vipExpires.html"
    replacements := [("username", .str u.username), ("expiryDate", dateVal u.expires)] }

/-- Whether `sendVipRemainder` returns normally for a document: email and username are
non-empty and the transport delivers the mail. -/
def reminderOk (env : Env) (u : Account) : Bool :=
  decide (u.email ≠ "") && decide (u.username ≠ "") && env.sendOk (reminderMail u)

/-- Whether one pass of the demotion loop body returns normally: the save of the demoted
document and the notification both succeed. -/
def demotionOk (env : Env) (u : Account) : Bool :=
  env.saveOk (demote u) && reminderOk env u

/-- Whether `sendVipExpiration` returns normally for a document. -/
def warningOk (env : Env) (u : Account) : Bool :=
  decide (u.email ≠ "") && decide (u.username ≠ "") && env.sendOk (expirationMail u)

/-! ## JavaScript string functions used on URLs

Strings are compared by characters; for text outside the Basic Multilingual Plane the
positions differ from the UTF-16 positions of JavaScript. -/

/-- Position of the first occurrence of `pat` in the characters `s`, counted from `i`, or -1. -/
def indexFrom (pat : List Char) : List Char → Nat → Int
  | [], i => if pat = [] then (i : Int) else -1
  | c :: cs, i => if pat.isPrefixOf (c :: cs) then (i : Int) else indexFrom pat cs (i + 1)

/-- The method `s.indexOf(pat)`. -/
def jsIndexOf (s pat : String) : Int :=
  indexFrom pat.data s.data 0

/-- The method `s.includes(pat)`. -/
def jsIncludes (s pat : String) : Bool :=
  decide (0 ≤ jsIndexOf s pat)

/-- The method `s.substring(start)`: a start below 0 counts as 0, one beyond the end gives the
empty string. -/
def jsSubstring (s : String) (start : Int) : String :=
  String.mk (s.data.drop start.toNat)

/-! ## src/controllers/auth.js: cleanupUnverifiedAccounts -/

/-- The two properties of a parsed `URL` object that the code reads. -/
structure Url where
  hostname : String
  pathname : String
  deriving DecidableEq, Repr

/-- One call `removeObject(bucket, key)` issued to the object store client. -/
structure StoreCall where
  bucket : String
  key : String
  deriving DecidableEq, Repr

/-- The values of the identifiers `bucketName` and `minioClient` where a function body is
evaluated. An identifier that is neither declared nor imported in the module has no value,
and evaluating it throws a ReferenceError. A bound client is given by the outcome of its
`removeObject`. -/
structure Scope where
  bucketName : Option String
  minioClient : Option (String → String → Bool)

/-- The module scope of `auth.js`: lines 1 to 21 bind `User`, `crypto`, `cron`, `minioService`,
the mail helpers, `validateEmail`, `validatePassword` and `ADMIN_EMAIL`; neither `bucketName`
nor `minioClient` is bound. -/
def authScope : Scope :=
  { bucketName := none, minioClient := none }

/-- The calls issued to the object store and, for each profile image whose removal was tried,
the image with the message of the caught exception, if any. -/
structure CleanupLog where
  calls : List StoreCall
  outcomes : List (String × Option String)
  deriving DecidableEq, Repr

/-- The `try` block of the cleanup loop for one profile image: parse the URL, compute the
object key, call `minioClient.removeObject(bucketName, objectKey)`. -/
def removeImageTry (scope : Scope) (parseUrl : String → Option Url) (image : String)
    (calls : List StoreCall) : Except String Unit × List StoreCall :=
  match parseUrl image with
  | none => (.error "TypeError: Invalid URL", calls)
  | some url =>
    match scope.bucketName with
    | none => (.error "ReferenceError: bucketName is not defined", calls)
    | some bucketName =>
      let urlPath := url.pathname
      let objectKey :=
        jsSubstring urlPath (jsIndexOf urlPath bucketName + bucketName.length + 1)
      match scope.minioClient with
      | none => (.error "ReferenceError: minioClient is not defined", calls)
      | some removeObject =>
        if removeObject bucketName objectKey then
          (.ok (), calls ++ [{ bucket := bucketName, key := objectKey }])
        else
          (.error "removeObject failed", calls ++ [{ bucket := bucketName, key := objectKey }])

/-- The loop of `cleanupUnverifiedAccounts` over the documents found; the inner `catch` logs
the exception of one image and the loop goes on. -/
def cleanupImages (scope : Scope) (parseUrl : String → Option Url) :
    List Account → CleanupLog → CleanupLog
  | [], log => log
  | user :: rest, log =>
    match user.profileImage with
    | none => cleanupImages scope parseUrl rest log
    | some image =>
      if image = "" then
        cleanupImages scope parseUrl rest log
      else
        match removeImageTry scope parseUrl image log.calls with
        | (.ok _, calls) =>
          cleanupImages scope parseUrl rest
            { calls := calls, outcomes := log.outcomes ++ [(image, none)] }
        | (.error e, calls) =>
          cleanupImages scope parseUrl rest
            { calls := calls, outcomes := log.outcomes ++ [(image, some e)] }

/-- The profile image of a document when the condition `if (user.profileImage)` holds, that
is, when it is set and not the empty string. -/
def profileImageSet (a : Account) : Option String :=
  match a.profileImage with
  | some s => if s = "" then none else some s
  | none => none

/-- The query `{ emailVerified: false, createdAt: { $lt: sixHoursAgo } }`. -/
def isStaleUnverified (sixHoursAgo : Nat) (a : Account) : Bool :=
  !a.emailVerified && decide (a.createdAt < sixHoursAgo)

/-- The account collection and the log after a run of the cleanup job. -/
structure CleanupResult where
  users : List Account
  log : CleanupLog
  deriving DecidableEq, Repr

/-- The cron job `cleanupUnverifiedAccounts`, run when `Date.now()` reads `now`, with the
identifiers of its body resolved in `scope`. The subtraction stops at 0, which selects the
same documents as a negative bound, timestamps being natural numbers. -/
def cleanupUnverifiedAccounts (scope : Scope) (parseUrl : String → Option Url) (now : Nat)
    (users : List Account) : CleanupResult :=
  let sixHoursAgo := now - 6 * 60 * 60 * 1000
  let unverifiedUsers := users.filter (isStaleUnverified sixHoursAgo)
  let log := cleanupImages scope parseUrl unverifiedUsers { calls := [], outcomes := [] }
  { users := users.filter (fun a => !isStaleUnverified sixHoursAgo a), log := log }

/-! ## src/config/minio.js -/

/-- The `MinioService` instance: its configuration, the `URL` parser of the runtime and the
outcome of `minioClient.removeObject`. -/
structure MinioService where
  /-- The value of `process.env.MINIO_ENDPOINT`. -/
  endpoint : String
  /-- The value of `this.bucketName`. -/
  bucketName : String
  /-- The constructor `new URL(s)`: no value when it throws. -/
  parseUrl : String → Option Url
  /-- Whether `removeObject(bucket, key)` succeeds. -/
  removeOk : String → String → Bool

/-- The method `isMinioUrl(url)`. -/
def isMinioUrl (svc : MinioService) (url : Option String) : Bool :=
  match url with
  | none => false
  | some s =>
    if s = "" then false
    else
      match svc.parseUrl s with
      | none => false
      | some urlObject =>
        decide (urlObject.hostname = svc.endpoint) && jsIncludes urlObject.pathname svc.bucketName

/-- The `try` block of `removeProfileImage(imageUrl)`. -/
def removeProfileImageTry (svc : MinioService) (imageUrl : Option String)
    (calls : List StoreCall) : Except String Bool × List StoreCall :=
  match imageUrl with
  | none => (.ok false, calls)
  | some s =>
    if s = "" then (.ok false, calls)
    else if !isMinioUrl svc imageUrl then (.ok true, calls)
    else
      match svc.parseUrl s with
      | none => (.error "TypeError: Invalid URL", calls)
      | some url =>
        let urlPath := url.pathname
        let objectKey :=
          jsSubstring urlPath (jsIndexOf urlPath svc.bucketName + svc.bucketName.length + 1)
        if svc.removeOk svc.bucketName objectKey then
          (.ok true, calls ++ [{ bucket := svc.bucketName, key := objectKey }])
        else
          (.error "removeObject failed",
            calls ++ [{ bucket := svc.bucketName, key := objectKey }])

/-- The method `removeProfileImage(imageUrl)`: the `catch` block turns every exception of the
`try` block into the result false. -/
def removeProfileImage (svc : MinioService) (imageUrl : Option String)
    (calls : List StoreCall) : Except String Bool × List StoreCall :=
  match removeProfileImageTry svc imageUrl calls with
  | (.ok b, calls2) => (.ok b, calls2)
  | (.error _, calls2) => (.ok false, calls2)

/-! ## src/controllers/prediction.js: checkVIPAccess -/

/-- An `Error` carrying a `statusCode`. -/
structure HttpError where
  statusCode : Nat
  message : String
  deriving DecidableEq, Repr

/-- The function `checkVIPAccess(user)`, with `new Date()` reading `now`; `user` is the account
of the caller, absent when the request is not authenticated. -/
def checkVIPAccess (now : Nat) (user : Option Account) : Except HttpError Bool :=
  match user with
  | none =>
    .error { statusCode := 401, message := "Authentication required for VIP predictions" }
  | some u =>
    if !u.isVip then
      .error { statusCode := 403, message := "VIP subscription required for these predictions" }
    else
      match u.expires with
      | some e =>
        if e < now then
          .error { statusCode := 403,
                   message := "Your VIP subscription has expired. Please renew to access VIP predictions" }
        else
          .ok true
      | none => .ok true

/-! ## Further concrete inputs -/

/-- A subscriber whose subscription ends one day after 2024-02-01. -/
def accountC : Account :=
  { accountA with id := "c", email := "c@example.com", username := "userC",
                  expires := some (1706745600000 + 86400000) }

/-- A subscriber whose subscription ends two days after 2024-02-01. -/
def accountD : Account :=
  { accountA with id := "d", email := "d@example.com", username := "userD",
                  expires := some (1706745600000 + 2 * 86400000) }

/-- An environment in which only mails to the given address fail. -/
def envMailFailsFor (address : String) : Env :=
  { idOk := fun _ => true, saveOk := fun _ => true,
    sendOk := fun m => decide (m.recipient ≠ address),
    sendError := fun _ => "Connection timeout" }

/-- An environment in which the lookup by id throws on the given string, as `findById` does
on a string that cannot be cast to an id, and every other call succeeds. -/
def envIdRejected (bad : String) : Env :=
  { idOk := fun v => decide (v ≠ .str bad), saveOk := fun _ => true, sendOk := fun _ => true,
    sendError := fun _ => "" }

/-- A store with two subscribers about to expire. -/
def worldCD : World := { users := [accountC, accountD], outbox := [] }

/-- A store with two expired subscribers and one about to expire. -/
def worldABC : World := { users := [accountA, accountB, accountC], outbox := [] }

/-- The object store endpoint of the examples. -/
def demoEndpoint : String := "minio.example.com"

/-- A profile image stored in bucket "tips" of the example object store. -/
def storedImage : String := "https://minio.example.com/tips/profile_images/b-1.jpg"

/-- A URL parser that knows the example URLs and rejects every other string. -/
def demoParseUrl (s : String) : Option Url :=
  if s = storedImage then
    some { hostname := "minio.example.com", pathname := "/tips/profile_images/b-1.jpg" }
  else if s = "https://cdn.example.org/avatar.png" then
    some { hostname := "cdn.example.org", pathname := "/avatar.png" }
  else
    none

/-- Eight hours in milliseconds after the epoch, the time of the cleanup examples. -/
def cleanupNow : Nat := 8 * 60 * 60 * 1000

/-- Account B of the specification scenario: created eight hours before `cleanupNow`, not
verified, with a profile image in the object store. -/
def staleB : Account :=
  { alice with id := "sb", email := "sb@example.com", username := "staleB",
               emailVerified := false, createdAt := 0, profileImage := some storedImage }

/-- An unverified account created one hour before `cleanupNow`. -/
def freshE : Account :=
  { staleB with id := "fe", createdAt := 7 * 60 * 60 * 1000 }

/-- A module scope in which both identifiers are bound and the store accepts every removal. -/
def boundScope : Scope :=
  { bucketName := some "tips", minioClient := some (fun _ _ => true) }

/-- The example object store service, accepting every removal. -/
def demoService : MinioService :=
  { endpoint := demoEndpoint, bucketName := "tips", parseUrl := demoParseUrl,
    removeOk := fun _ _ => true }

/-! ## src/controllers/prediction.js: validateFormations -/

/-- An argument of `validateFormations`: an array with its elements, or any other value. -/
inductive JsArg where
  | array (items : List JsVal)
  | other (v : JsVal)
  deriving DecidableEq, Repr

/-- The test `Array.isArray(x) && x.length === 5`. -/
def isFiveArray : JsArg → Bool
  | .array items => decide (items.length = 5)
  | .other _ => false

/-- The function `validateFormations(formationA, formationB)`; an exception is the message of
the thrown `Error`. -/
def validateFormations (formationA formationB : JsArg) : Except String Bool :=
  if !isFiveArray formationA then
    .error "Formation A must contain exactly 5 recent results"
  else if !isFiveArray formationB then
    .error "Formation B must contain exactly 5 recent results"
  else
    .ok true

/-! ## src/controllers/auth.js: account administration -/

/-- The object `req.user` that the authentication layer attaches to a request. -/
structure ReqUser where
  id : String
  email : String
  isAdmin : Bool
  deriving DecidableEq, Repr

/-- The configuration read by `auth.js` and `email.js` and the string function of the runtime
that the handlers use. -/
structure AuthConfig where
  /-- The constant `ADMIN_EMAIL`. -/
  adminEmail : String
  /-- The value of `process.env.EMAIL_FROM`. -/
  emailFrom : String
  /-- The method `toLowerCase()` of strings. -/
  toLowerCase : String → String

/-- The state that the account handlers act on: the account collection, the mails delivered
and the calls issued to the object store. -/
structure Sys where
  users : List Account
  outbox : List Mail
  calls : List StoreCall
  deriving DecidableEq, Repr

/-- The comparison `email.toLowerCase() === ADMIN_EMAIL.toLowerCase()`. -/
def isDefaultAdminEmail (cfg : AuthConfig) (email : String) : Bool :=
  decide (cfg.toLowerCase email = cfg.toLowerCase cfg.adminEmail)

/-- Helper `sendAdminEmail(email, username, makeAdmin)`. -/
def sendAdminEmail (env : Env) (email username : String) (makeAdmin : Bool)
    (outbox : List Mail) : Except String Unit × List Mail :=
  if email = "" ∨ username = "" then
    (.error "Email and username required for admin status email", outbox)
  else
    sendTemplatedEmail env
      { recipient := email
        subject := if makeAdmin then "Admin Access Granted" else "Admin Access Removed"
        templatePath := "../client/adminEmail.html"
        replacements :=
          [("username", .str username),
           ("title", .str (if makeAdmin then "Welcome New Admin" else "Admin Access Removed")),
           ("message", .str (if makeAdmin then
              "You now have admin privileges. Access the admin panel to manage site features."
            else
              "Your admin access has been revoked. You no longer have access to admin features."))] }
      outbox

/-- Helper `deleteAccountEmail(email, username, details)`; `deletionDate` is the text that
`new Date(details.deletionDate).toLocaleString()` yields. -/
def deleteAccountEmail (cfg : AuthConfig) (env : Env) (email username : String)
    (deletedByAdmin bulkDeletion : Bool) (deletionDate : String) (outbox : List Mail) :
    Except String Unit × List Mail :=
  let message :=
    if deletedByAdmin then
      "Your account has been deleted by an administrator (" ++ cfg.emailFrom ++ ") on "
        ++ deletionDate ++ "."
        ++ (if bulkDeletion then "\nThis action was part of a bulk account cleanup process."
            else "")
    else
      "As requested, your account has been successfully deleted on " ++ deletionDate ++ "."
  sendTemplatedEmail env
    { recipient := email
      subject := if deletedByAdmin then "Your Account Has Been Deleted by Administrator"
        else "Account Deletion Successful"
      templatePath := "../client/accountDeleted.html"
      replacements := [("username", .str username), ("message", .str message)] }
    outbox

/-- The removal `User.findByIdAndDelete(v)`: the documents with that id leave the collection. -/
def findByIdAndDelete (users : List Account) (v : JsVal) : List Account :=
  users.filter (fun a => !decide (JsVal.str a.id = v))

/-- The step `if (user.profileImage) await minioService.removeProfileImage(user.profileImage)`;
`removeProfileImage` does not throw, and its result is not used. -/
def removeImageOf (svc : MinioService) (user : Account) (calls : List StoreCall) :
    List StoreCall :=
  match profileImageSet user with
  | some image => (removeProfileImage svc (some image) calls).2
  | none => calls

/-- The destructured body of a `toggleAdmin` request. -/
structure AdminBody where
  userId : JsVal
  makeAdmin : JsVal
  deriving DecidableEq, Repr

/-- The handler `toggleAdmin`. -/
def toggleAdmin (cfg : AuthConfig) (env : Env) (reqUser : ReqUser) (body : AdminBody)
    (w : World) : Response × World :=
  if !body.userId.truthy || !body.makeAdmin.isBoolean then
    ({ status := 400, message := "Invalid request parameters", user := none }, w)
  else
    match findById env w.users (.str reqUser.id) with
    | .error e => ({ status := 500, message := e, user := none }, w)
    | .ok requestingUser =>
      if !(match requestingUser with
          | some r => r.isAdmin
          | none => false) then
        ({ status := 403, message := "Only admins can modify admin privileges", user := none }, w)
      else
        match findById env w.users body.userId with
        | .error e => ({ status := 500, message := e, user := none }, w)
        | .ok none => ({ status := 404, message := "User not found", user := none }, w)
        | .ok (some userToUpdate) =>
          let makeAdmin := body.makeAdmin.truthy
          if isDefaultAdminEmail cfg userToUpdate.email then
            ({ status := 403, message := "Default admin status cannot be modified",
               user := none }, w)
          else if !makeAdmin && !(match requestingUser with
              | some r => r.isAuthorized
              | none => false) then
            ({ status := 403, message := "Only authorized admin can remove admin privileges",
               user := none }, w)
          else
            let updated := { userToUpdate with isAdmin := makeAdmin }
            if env.saveOk updated then
              let users := save w.users updated
              match sendAdminEmail env updated.email updated.username makeAdmin w.outbox with
              | (.ok _, outbox) =>
                ({ status := 200
                   message := if makeAdmin then "Admin privileges granted"
                     else "Admin privileges removed"
                   user := some updated },
                 { users := users, outbox := outbox })
              | (.error e, outbox) =>
                ({ status := 500, message := e, user := none },
                 { users := users, outbox := outbox })
            else
              ({ status := 500, message := "save failed", user := none }, w)

/-- The expression `req.params.userId || req.user.id`; `paramUserId` is `req.params.userId`,
absent when the route has no such parameter. -/
def requestedId (reqUser : ReqUser) (paramUserId : Option String) : String :=
  match paramUserId with
  | some p => if p = "" then reqUser.id else p
  | none => reqUser.id

/-- The handler `deleteAccount`. -/
def deleteAccount (cfg : AuthConfig) (env : Env) (svc : MinioService) (deletionDate : String)
    (reqUser : ReqUser) (paramUserId : Option String) (s : Sys) : Response × Sys :=
  let userId := requestedId reqUser paramUserId
  match findById env s.users (.str userId) with
  | .error _ => ({ status := 500, message := "Failed to delete account", user := none }, s)
  | .ok none => ({ status := 404, message := "User not found", user := none }, s)
  | .ok (some userToDelete) =>
    if decide (reqUser.id ≠ userToDelete.id) && !reqUser.isAdmin then
      ({ status := 403, message := "Unauthorized to delete this account", user := none }, s)
    else
      let deletedByAdmin := decide (reqUser.id ≠ userToDelete.id)
      if isDefaultAdminEmail cfg userToDelete.email then
        ({ status := 403, message := "Default admin account cannot be deleted", user := none },
         s)
      else
        let calls := removeImageOf svc userToDelete s.calls
        let users := findByIdAndDelete s.users (.str userId)
        match deleteAccountEmail cfg env userToDelete.email userToDelete.username
            deletedByAdmin false deletionDate s.outbox with
        | (.ok _, outbox) =>
          ({ status := 200, message := "Account deleted successfully", user := none },
           { users := users, outbox := outbox, calls := calls })
        | (.error _, outbox) =>
          ({ status := 500, message := "Failed to delete account", user := none },
           { users := users, outbox := outbox, calls := calls })

/-- The two arrays that the loop of `bulkDeleteAccounts` fills, with the state. -/
structure BulkState where
  sys : Sys
  deletedUsers : List JsVal
  failedDeletions : List (JsVal × String)
  deriving DecidableEq, Repr

/-- One pass of the loop of `bulkDeleteAccounts`, with its `try` and `catch`. -/
def bulkDeleteOne (cfg : AuthConfig) (env : Env) (svc : MinioService) (deletionDate : String)
    (userId : JsVal) (st : BulkState) : BulkState :=
  match findById env st.sys.users userId with
  | .error e => { st with failedDeletions := st.failedDeletions ++ [(userId, e)] }
  | .ok none => { st with failedDeletions := st.failedDeletions ++ [(userId, "User not found")] }
  | .ok (some user) =>
    let calls := removeImageOf svc user st.sys.calls
    let users := findByIdAndDelete st.sys.users userId
    match deleteAccountEmail cfg env user.email user.username true true deletionDate
        st.sys.outbox with
    | (.ok _, outbox) =>
      { sys := { users := users, outbox := outbox, calls := calls }
        deletedUsers := st.deletedUsers ++ [userId]
        failedDeletions := st.failedDeletions }
    | (.error e, outbox) =>
      { sys := { users := users, outbox := outbox, calls := calls }
        deletedUsers := st.deletedUsers
        failedDeletions := st.failedDeletions ++ [(userId, e)] }

/-- The loop `for (const userId of userIds)` of `bulkDeleteAccounts`. -/
def bulkDeleteLoop (cfg : AuthConfig) (env : Env) (svc : MinioService) (deletionDate : String) :
    List JsVal → BulkState → BulkState
  | [], st => st
  | userId :: rest, st =>
    bulkDeleteLoop cfg env svc deletionDate rest
      (bulkDeleteOne cfg env svc deletionDate userId st)

/-- The `data` object of the answer of `bulkDeleteAccounts`. -/
structure BulkData where
  deletedCount : Nat
  failedCount : Nat
  failedDeletions : Option (List (JsVal × String))
  deriving DecidableEq, Repr

/-- The JSON answer of `bulkDeleteAccounts`. -/
structure BulkResponse where
  status : Nat
  message : String
  data : Option BulkData
  deriving DecidableEq, Repr

/-- The handler `bulkDeleteAccounts`; `userIds` is the array of the body, absent when the body
holds no array under that key. -/
def bulkDeleteAccounts (cfg : AuthConfig) (env : Env) (svc : MinioService)
    (deletionDate : String) (requestingUser : ReqUser) (userIds : Option (List JsVal))
    (s : Sys) : BulkResponse × Sys :=
  match userIds with
  | none =>
    ({ status := 400, message := "Valid array of user IDs is required", data := none }, s)
  | some ids =>
    if ids.length = 0 then
      ({ status := 400, message := "Valid array of user IDs is required", data := none }, s)
    else if !requestingUser.isAdmin then
      ({ status := 403, message := "Only administrators can perform bulk deletions",
         data := none }, s)
    else
      let defaultAdminUser :=
        s.users.find? (fun a => decide (a.email = cfg.toLowerCase cfg.adminEmail))
      if (match defaultAdminUser with
          | some d => decide (JsVal.str d.id ∈ ids)
          | none => false) then
        ({ status := 403,
           message := "Default admin account cannot be included in bulk deletion",
           data := none }, s)
      else
        let st := bulkDeleteLoop cfg env svc deletionDate ids
          { sys := s, deletedUsers := [], failedDeletions := [] }
        ({ status := 200
           message := "Bulk deletion completed"
           data := some
             { deletedCount := st.deletedUsers.length
               failedCount := st.failedDeletions.length
               failedDeletions :=
                 if st.failedDeletions.length > 0 then some st.failedDeletions else none } },
         st.sys)

/-- Lower-casing of the letters A to Z, the `toLowerCase` of the examples. -/
def asciiLower (s : String) : String :=
  String.mk (s.data.map Char.toLower)

/-- The configuration of the examples. -/
def demoConfig : AuthConfig :=
  { adminEmail := "admin@example.com", emailFrom := "noreply@example.com",
    toLowerCase := asciiLower }

/-- The default admin account, registered with capital letters in its address. -/
def rootAdmin : Account :=
  { alice with id := "root", email := "Admin@Example.com", username := "root",
               isAdmin := true, isAuthorized := true }

/-- A second administrator, not authorized to remove admin privileges. -/
def otherAdmin : Account :=
  { alice with id := "adm2", email := "adm2@example.com", username := "adm2", isAdmin := true }

/-- The `req.user` of the second administrator. -/
def otherAdminReq : ReqUser := { id := "adm2", email := "adm2@example.com", isAdmin := true }

/-- The `req.user` of `alice`, who is no administrator. -/
def aliceReq : ReqUser := { id := "u1", email := "alice@example.com", isAdmin := false }

/-- A state holding the default admin, the second administrator and `alice`. -/
def sysAdmins : Sys := { users := [rootAdmin, otherAdmin, alice], outbox := [], calls := [] }

/-! ## src/controllers/prediction.js: getPredictions -/

/-- The `Date` functions of the runtime that `getPredictions` uses. A date is its time value
in milliseconds; an Invalid Date has none. -/
structure DateRuntime where
  /-- The time value of `new Date(s)` for a string. -/
  parse : String → Option Int
  /-- The time value of `new Date(year, month - 1, day)` for the pieces of a split string, a
  missing piece being `undefined`. -/
  ofParts : Option String → Option String → Option String → Option Int
  /-- The time value after `setHours(0, 0, 0, 0)`. -/
  startOfDay : Int → Int
  /-- The time value after `setHours(23, 59, 59, 999)`. -/
  endOfDay : Int → Int

/-- The fields of a prediction document that the query of `getPredictions` reads. -/
structure Prediction where
  category : String
  time : Int
  deriving DecidableEq, Repr

/-- The query object handed to `Prediction.find`. -/
structure PredictionQuery where
  category : String
  startDate : Int
  endDate : Int
  deriving DecidableEq, Repr

/-- The JSON answer of `getPredictions`. -/
structure PredictionResponse where
  status : Nat
  message : String
  data : Option (List Prediction)
  deriving DecidableEq, Repr

/-- The pieces of a character list between the occurrences of a separator; `cur` holds the
piece being read, last character first. -/
def splitChars (sep : Char) : List Char → List Char → List (List Char)
  | [], cur => [cur.reverse]
  | c :: cs, cur =>
    if c = sep then cur.reverse :: splitChars sep cs [] else splitChars sep cs (c :: cur)

/-- The method `s.split(sep)` for a separator of one character. -/
def jsSplit (s : String) (sep : Char) : List String :=
  (splitChars sep s.data []).map String.mk

/-- The function `parseDateString(dateStr)`: the first three pieces of the string are day,
month and year. -/
def parseDateString (rt : DateRuntime) (dateStr : String) : Option Int :=
  let parts := jsSplit dateStr '-'
  rt.ofParts (parts.get? 2) (parts.get? 1) (parts.get? 0)

/-- The variable `parsedDate` of `getPredictions`: it stays `undefined`, here `none`, when the
string holds no hyphen; else it is a date, valid or not. -/
def parsedDate (rt : DateRuntime) (date : String) : Option (Option Int) :=
  if jsIncludes date "-" then
    let parts := jsSplit date '-'
    if (parts.headD "").length = 4 then
      some (rt.parse date)
    else
      some (parseDateString rt date)
  else
    none

/-- The handler `getPredictions`, with `new Date()` reading `now` in `checkVIPAccess`; the
second component lists the queries issued to the prediction collection. A route parameter is
a string or absent. -/
def getPredictions (rt : DateRuntime) (now : Nat) (user : Option Account)
    (category date : Option String) (predictions : List Prediction) :
    PredictionResponse × List PredictionQuery :=
  match category, date with
  | some category, some date =>
    if date = "" ∨ category = "" then
      ({ status := 400, message := "Both date and category parameters are required",
         data := none }, [])
    else
      match (if category = "vip" then checkVIPAccess now user else .ok true) with
      | .error err =>
        ({ status := if err.statusCode = 0 then 500 else err.statusCode,
           message := err.message, data := none }, [])
      | .ok _ =>
        match parsedDate rt date with
        | none =>
          ({ status := 500
             message := "Cannot read properties of undefined (reading 'getTime')"
             data := none }, [])
        | some none =>
          ({ status := 400
             message := "Invalid date format. Please use YYYY-MM-DD or DD-MM-YYYY format"
             data := none }, [])
        | some (some t) =>
          let query : PredictionQuery :=
            { category := category, startDate := rt.startOfDay t, endDate := rt.endOfDay t }
          let found := predictions.filter (fun p =>
            decide (p.category = query.category) && decide (query.startDate ≤ p.time)
              && decide (p.time ≤ query.endDate))
          ({ status := 200
             message := if found.length = 0 then "No predictions found for the given date"
               else "Predictions fetched successfully"
             data := some found }, [query])
  | _, _ =>
    ({ status := 400, message := "Both date and category parameters are required",
       data := none }, [])

/-! ## src/helpers/email.js: sendNewsletterEmails, and sendBulkEmails of auth.js -/

/-- The value `emails` of a bulk mail request. -/
inductive Emails where
  | array (items : List String)
  | single (address : String)
  | other (v : JsVal)
  deriving DecidableEq, Repr

/-- What `sendNewsletterEmails` does, in order: a batch of `sendMail` calls issued together, a
single `sendMail` call, or a pause of so many milliseconds. -/
inductive NewsEvent where
  | batch (mails : List Mail)
  | send (mail : Mail)
  | pause (ms : Nat)
  deriving DecidableEq, Repr

/-- Whether an event is a pause. -/
def NewsEvent.isPause : NewsEvent → Bool
  | .pause _ => true
  | _ => false

/-- The mails of the batches of a trace, in order. -/
def batchMails : List NewsEvent → List Mail
  | [] => []
  | .batch mails :: rest => mails ++ batchMails rest
  | _ :: rest => batchMails rest

/-- The mail options that `sendNewsletterEmails` builds for one address; the username is the
part of the address before the first "@". -/
def newsletterMail (subject message : String) (email : String) : Mail :=
  { recipient := email
    subject := subject
    templatePath := "../client/newsletters.html"
    replacements :=
      [("username", .str ((jsSplit email '@').headD "")), ("message", .str message),
       ("subject", .str subject)] }

/-- The `for` loop of `sendNewsletterEmails` from index `i` on; `fuel` bounds the number of
passes. `accepted` gives `result.accepted[0]` of a delivered mail, when there is one. -/
def newsletterLoop (env : Env) (accepted : Mail → Option String) (emails : List String)
    (subject message : String) :
    Nat → Nat → List String → List NewsEvent → Except String (List String) × List NewsEvent
  | 0, _, successfulEmails, trace => (.ok successfulEmails, trace)
  | fuel + 1, i, successfulEmails, trace =>
    if i < emails.length then
      let batchEmails := (emails.drop i).take 10
      let mails := batchEmails.map (newsletterMail subject message)
      if mails.all env.sendOk then
        let successful := successfulEmails ++ mails.filterMap accepted
        if i + 10 < emails.length then
          newsletterLoop env accepted emails subject message fuel (i + 10) successful
            (trace ++ [.batch mails, .pause 10000])
        else
          newsletterLoop env accepted emails subject message fuel (i + 10) successful
            (trace ++ [.batch mails])
      else
        (.error "Failed to send newsletter emails", trace ++ [.batch mails])
    else
      (.ok successfulEmails, trace)

/-- The function `sendNewsletterEmails(emails, subject, message)`; the template file is taken
to be readable. The loop gets one unit of fuel per address, more than it has passes. -/
def sendNewsletterEmails (env : Env) (accepted : Mail → Option String) (emails : Emails)
    (subject message : String) : Except String (List String) × List NewsEvent :=
  match emails with
  | .array items =>
    newsletterLoop env accepted items subject message items.length 0 [] []
  | .single address =>
    let mail := newsletterMail subject message address
    if env.sendOk mail then
      (.ok (match accepted mail with
        | some a => [a]
        | none => []), [.send mail])
    else
      (.error "Failed to send newsletter emails", [.send mail])
  | .other _ => (.error "Failed to send newsletter emails", [])

/-- The `length` of a string: its number of UTF-16 code units, two for a character outside
the basic plane. -/
def jsLength (s : String) : Nat :=
  (s.data.map (fun c => if c.val.toNat < 65536 then 1 else 2)).sum

/-- The characters that `trim()` removes: the white space and the line terminators of
JavaScript. -/
def isTrimmed (c : Char) : Bool :=
  let n := c.val.toNat
  decide (n = 9 ∨ n = 10 ∨ n = 11 ∨ n = 12 ∨ n = 13 ∨ n = 32 ∨ n = 160 ∨ n = 5760
    ∨ (8192 ≤ n ∧ n ≤ 8202) ∨ n = 8232 ∨ n = 8233 ∨ n = 8239 ∨ n = 8287 ∨ n = 12288
    ∨ n = 65279)

/-- The value `emails.length` that `sendBulkEmails` reports. -/
def Emails.length : Emails → Nat
  | .array items => items.length
  | .single address => jsLength address
  | .other _ => 0

/-- The first guard of `sendBulkEmails`: `emails` is falsy, an empty array, or a string that
`trim()` leaves empty. -/
def emailsMissing : Emails → Bool
  | .array items => decide (items.length = 0)
  | .single address => address.data.all isTrimmed
  | .other v => !v.truthy

/-- The JSON answer of `sendBulkEmails`. -/
structure BulkMailResponse where
  status : Nat
  message : String
  recipientCount : Option Nat
  deriving DecidableEq, Repr

/-- The handler `sendBulkEmails`. -/
def sendBulkEmails (env : Env) (accepted : Mail → Option String) (emails : Emails)
    (subject message : String) : BulkMailResponse × List NewsEvent :=
  if emailsMissing emails then
    ({ status := 400, message := "Invalid or missing recipient email addresses",
       recipientCount := none }, [])
  else if subject = "" ∨ message = "" then
    ({ status := 400, message := "Subject and message are required", recipientCount := none },
     [])
  else
    match sendNewsletterEmails env accepted emails subject message with
    | (.ok _, trace) =>
      ({ status := 200
         message := "Successfully sent emails to " ++ toString emails.length ++ " recipients"
         recipientCount := some emails.length }, trace)
    | (.error _, trace) =>
      ({ status := 500, message := "Failed to send bulk emails", recipientCount := none },
       trace)

/-! ## JavaScript numbers in double precision -/

/-- A JavaScript number in full: an IEEE 754 binary64 value. A finite value is `mag` times
2^(-1074), negated when `neg` is set; every finite binary64 value is such a multiple. -/
inductive JsNumber where
  | finite (neg : Bool) (mag : Nat)
  | infinite (neg : Bool)
  | nan
  deriving DecidableEq, Repr

/-- The number `+0`, the value of the literal `0`. -/
def JsNumber.zero : JsNumber := .finite false 0

/-- The position of the leading binary digit of `n`, found by halving at most `fuel` times. -/
def leadingBitFuel : Nat → Nat → Nat
  | 0, _ => 0
  | fuel + 1, n => if 2 ≤ n then leadingBitFuel fuel (n / 2) + 1 else 0

/-- The position of the leading binary digit of `n`: the greatest `k` with `2^k ≤ n`, and 0
for `n = 0`. -/
def leadingBit (n : Nat) : Nat := leadingBitFuel n n

/-- The rounding of binary64 arithmetic, on magnitudes counted in units of 2^(-1074): the
value with at most 53 significant binary digits nearest to the quotient `num / den`, the one
with an even last digit when two are equally near. Below 2^53 these values are the whole
numbers of units. -/
def roundToGrid (num den : Nat) : Nat :=
  let step := 2 ^ (leadingBit (num / den) - 52)
  let q := num / (den * step)
  let r := num % (den * step)
  if 2 * r < den * step ∨ (2 * r = den * step ∧ q % 2 = 0) then q * step else (q + 1) * step

/-- The binary64 value of the signed quotient `num / den` of units: rounded, and infinite
when the rounded magnitude reaches 2^1024. -/
def JsNumber.ofRatio (neg : Bool) (num den : Nat) : JsNumber :=
  if roundToGrid num den < 2 ^ 2098 then .finite neg (roundToGrid num den) else .infinite neg

/-- The number that a whole amount `n` is in JavaScript. -/
def JsNumber.ofNat (n : Nat) : JsNumber :=
  .ofRatio false (n * 2 ^ 1074) 1

/-- The number that the decimal literal with the given digits and number of decimal places
denotes: 4.99 is `ofDecimal 499 2`. -/
def JsNumber.ofDecimal (digits places : Nat) : JsNumber :=
  .ofRatio false (digits * 2 ^ 1074) (10 ^ places)

/-- The operator `+` on two numbers. -/
def JsNumber.add : JsNumber → JsNumber → JsNumber
  | .nan, _ => .nan
  | _, .nan => .nan
  | .infinite a, .infinite b => if a = b then .infinite a else .nan
  | .infinite a, .finite _ _ => .infinite a
  | .finite _ _, .infinite b => .infinite b
  | .finite s1 m1, .finite s2 m2 =>
    let x : Int := (if s1 then -(m1 : Int) else m1) + (if s2 then -(m2 : Int) else m2)
    if x = 0 then .finite (s1 && s2) 0 else .ofRatio (decide (x < 0)) x.natAbs 1

/-- The operator `/` with a positive whole divisor, as in `totalRevenue / 12`. -/
def JsNumber.divNat (x : JsNumber) (d : Nat) : JsNumber :=
  match x with
  | .finite neg mag => .ofRatio neg mag d
  | .infinite neg => .infinite neg
  | .nan => .nan

/-- Whether a value of the type is a binary64 value: a finite magnitude has at most 53
significant binary digits and lies below 2^1024. -/
def JsNumber.isDouble : JsNumber → Bool
  | .finite _ mag => decide (roundToGrid mag 1 = mag) && decide (mag < 2 ^ 2098)
  | _ => true

/-- The comparison `x > 0`. -/
def JsNumber.isPositive : JsNumber → Bool
  | .finite neg mag => !neg && decide (0 < mag)
  | .infinite neg => !neg
  | .nan => false

/-! ## src/controllers/auth.js: getRevenueAnalytics -/

/-- One entry of `monthlyData`. The three counters are whole numbers that grow by 1 for each
element of an array, and such numbers are exact in JavaScript. -/
structure MonthData where
  revenue : JsNumber
  subscriptions : Nat
  weeklyPlans : Nat
  monthlyPlans : Nat
  deriving DecidableEq, Repr

/-- The fields `activation payment vipPlan` of a user document that the query of
`getRevenueAnalytics` returns. -/
structure PaymentRecord where
  activation : Nat
  payment : JsNumber
  vipPlan : JsVal
  deriving DecidableEq, Repr

/-- The filter `{ activation: { $gte: startOfYear }, payment: { $gt: 0 } }` of the query on
one such document. -/
def vipPaymentQuery (startOfYear : Nat) (r : PaymentRecord) : Bool :=
  decide (startOfYear ≤ r.activation) && r.payment.isPositive

/-- The update of one entry of `monthlyData` by one record. -/
def addPayment (r : PaymentRecord) (d : MonthData) : MonthData :=
  { revenue := d.revenue.add r.payment
    subscriptions := d.subscriptions + 1
    weeklyPlans := if r.vipPlan = .str "weekly" then d.weeklyPlans + 1 else d.weeklyPlans
    monthlyPlans := if r.vipPlan = .str "weekly" then d.monthlyPlans else d.monthlyPlans + 1 }

/-- The assignment to the array element at an index. -/
def updateAt (f : MonthData → MonthData) : Nat → List MonthData → List MonthData
  | _, [] => []
  | 0, d :: ds => f d :: ds
  | m + 1, d :: ds => d :: updateAt f m ds

/-- The array `monthlyData` after the `forEach` over the records; `getMonth` is the method of
the same name of `Date`. -/
def monthlyDataOf (getMonth : Nat → Fin 12) (records : List PaymentRecord) : List MonthData :=
  records.foldl (fun md r => updateAt (addPayment r) (getMonth r.activation).val md)
    (List.replicate 12
      { revenue := .zero, subscriptions := 0, weeklyPlans := 0, monthlyPlans := 0 })

/-- The `data` object of the answer of `getRevenueAnalytics`. -/
structure RevenueData where
  totalRevenue : JsNumber
  totalSubscriptions : Nat
  monthlyData : List (String × MonthData)
  totalWeeklyPlans : Nat
  totalMonthlyPlans : Nat
  averageRevenuePerMonth : JsNumber
  deriving DecidableEq, Repr

/-- The handler `getRevenueAnalytics` on the documents `vipPayments` that its query
returned. -/
def getRevenueAnalytics (getMonth : Nat → Fin 12) (vipPayments : List PaymentRecord) :
    RevenueData :=
  let monthlyData := monthlyDataOf getMonth vipPayments
  let totalRevenue := monthlyData.foldl (fun acc curr => acc.add curr.revenue) .zero
  let totalSubscriptions := monthlyData.foldl (fun acc curr => acc + curr.subscriptions) 0
  let months := ["Jan", "Feb", "Mar", "Apr", "May", "Jun", "Jul", "Aug", "Sep", "Oct", "Nov",
    "Dec"]
  { totalRevenue := totalRevenue
    totalSubscriptions := totalSubscriptions
    monthlyData := months.zip monthlyData
    totalWeeklyPlans := monthlyData.foldl (fun acc curr => acc + curr.weeklyPlans) 0
    totalMonthlyPlans := monthlyData.foldl (fun acc curr => acc + curr.monthlyPlans) 0
    averageRevenuePerMonth := totalRevenue.divNat 12 }

/-- A `Date` runtime for the examples that knows two strings: "2024-02-01" parses to
2024-02-01T00:00Z, and day "45", month "13", year "2024" give 2025-02-14T00:00Z, as the
constructor of JavaScript does by carrying the excess over. -/
def demoDates : DateRuntime :=
  { parse := fun s => if s = "2024-02-01" then some 1706745600000 else none
    ofParts := fun year month day =>
      if year = some "2024" ∧ month = some "13" ∧ day = some "45" then some 1739491200000
      else none
    startOfDay := fun t => t
    endOfDay := fun t => t + 86399999 }

/-- A month function for the examples: thirty-day months counted from the epoch. -/
def demoMonth (t : Nat) : Fin 12 :=
  ⟨(t / 2592000000) % 12, Nat.mod_lt _ (by decide)⟩

/-- Three payment records of the examples: 4.99 in the first month, 9.99 and 10 in the
second. -/
def demoPayments : List PaymentRecord :=
  [{ activation := 0, payment := .ofDecimal 499 2, vipPlan := .str "weekly" },
   { activation := 2592000000, payment := .ofDecimal 999 2, vipPlan := .str "monthly" },
   { activation := 2678400000, payment := .ofNat 10, vipPlan := .str "monthly" }]

/-- Two payment records of 25 each, both in the first month and on the monthly plan. -/
def wholePayments : List PaymentRecord :=
  [{ activation := 0, payment := .ofNat 25, vipPlan := .str "monthly" },
   { activation := 86400000, payment := .ofNat 25, vipPlan := .str "monthly" }]

/-! ## Lemmas on the repository and on the validation guards -/

theorem find_save (users : List Account) (v : JsVal) (u doc : Account)
    (h : users.find? (fun a => decide (JsVal.str a.id = v)) = some u) (hid : doc.id = u.id) :
    (save users doc).find? (fun a => decide (JsVal.str a.id = v)) = some doc := by
  have hv : JsVal.str u.id = v := by
    have := List.find?_some h
    simpa using this
  induction users with
  | nil => simp at h
  | cons a rest ih =>
    by_cases ha : JsVal.str a.id = v
    · have hau : a.id = doc.id := by
        rw [hid]; rw [← hv] at ha; exact JsVal.str.inj ha
      have hd : JsVal.str doc.id = v := by rw [← hau]; exact ha
      simp [save, hau, hd]
    · have hne : a.id ≠ doc.id := by
        intro hc; apply ha; rw [hc, hid]; exact hv
      have h2 : rest.find? (fun a => decide (JsVal.str a.id = v)) = some u := by
        simpa [List.find?_cons, ha] using h
      have := ih h2
      simp only [save] at this
      simp [save, hne, ha, this]

theorem truthy_bool (b : Bool) : (JsVal.bool b).truthy = b := rfl

theorem isBoolean_bool (b : Bool) : (JsVal.bool b).isBoolean = true := rfl

/-- A request that passes both validation guards reaches the repository lookup. -/
theorem toggleVipStatus_valid (env : Env) (now lag : Nat) (body : VipBody) (w : World) (b : Bool)
    (huid : body.userId.truthy = true) (hb : body.isVip = .bool b)
    (hact : b = true → body.payment.truthy = true ∧ planIncluded body.vipPlan = true) :
    toggleVipStatus env now lag body w =
      match findById env w.users body.userId with
      | .error e => ({ status := 500, message := e, user := none }, w)
      | .ok none => ({ status := 404, message := "User not found", user := none }, w)
      | .ok (some found) =>
        let user := updateData b body.vipPlan body.payment now lag found
        if env.saveOk user then
          match notifyVip env b user body.vipPlan w.outbox with
          | (.ok _, outbox) =>
            ({ status := 200
               message := if b then "VIP status activated" else "VIP status deactivated"
               user := some user },
             { users := save w.users user, outbox := outbox })
          | (.error e, outbox) =>
            ({ status := 500, message := e, user := none },
             { users := save w.users user, outbox := outbox })
        else
          ({ status := 500, message := "save failed", user := none }, w) := by
  unfold toggleVipStatus
  cases b with
  | false => simp [huid, hb, isBoolean_bool, truthy_bool]
  | true =>
    obtain ⟨hp, hpl⟩ := hact rfl
    simp [huid, hb, isBoolean_bool, truthy_bool, hp, hpl]

/-- A request that fails a validation guard is answered 400 and changes nothing. -/
theorem toggleVipStatus_invalid (env : Env) (now lag : Nat) (body : VipBody) (w : World)
    (h : body.userId.truthy = false ∨ body.isVip.isBoolean = false
      ∨ (body.isVip.truthy = true ∧ body.payment.truthy = false)
      ∨ (body.isVip.truthy = true ∧ planIncluded body.vipPlan = false)) :
    (toggleVipStatus env now lag body w).1.status = 400
      ∧ (toggleVipStatus env now lag body w).2 = w := by
  unfold toggleVipStatus
  split
  · simp
  · split
    · simp
    · rename_i h1 h2
      exfalso
      rcases h with h | h | h | h
      · simp [h] at h1
      · simp [h] at h1
      · simp [h.1, h.2] at h1
      · simp [h.1, h.2] at h2

theorem toggleVipStatus_ok_inv (env : Env) (now lag : Nat) (body : VipBody) (w : World)
    (hok : (toggleVipStatus env now lag body w).1.status = 200) :
    ∃ b found, body.isVip = .bool b
      ∧ body.userId.truthy = true
      ∧ (b = true → body.payment.truthy = true ∧ planIncluded body.vipPlan = true)
      ∧ findById env w.users body.userId = .ok (some found)
      ∧ (toggleVipStatus env now lag body w).1.user
          = some (updateData b body.vipPlan body.payment now lag found)
      ∧ (toggleVipStatus env now lag body w).2.users
          = save w.users (updateData b body.vipPlan body.payment now lag found) := by
  by_cases hinv : body.userId.truthy = false ∨ body.isVip.isBoolean = false
      ∨ (body.isVip.truthy = true ∧ body.payment.truthy = false)
      ∨ (body.isVip.truthy = true ∧ planIncluded body.vipPlan = false)
  · have := (toggleVipStatus_invalid env now lag body w hinv).1
    omega
  · simp only [not_or, not_and, Bool.not_eq_false] at hinv
    obtain ⟨huid, hbool, hpay, hplan⟩ := hinv
    cases hb : body.isVip <;> simp [hb, JsVal.isBoolean] at hbool
    rename_i b
    have hact : b = true → body.payment.truthy = true ∧ planIncluded body.vipPlan = true := by
      intro hbt
      have ht : body.isVip.truthy = true := by simp [hb, truthy_bool, hbt]
      exact ⟨hpay ht, hplan ht⟩
    have heq := toggleVipStatus_valid env now lag body w b huid hb hact
    rw [heq] at hok ⊢
    cases hf : findById env w.users body.userId with
    | error e => simp [hf] at hok
    | ok o =>
      cases o with
      | none => simp [hf] at hok
      | some found =>
        refine ⟨b, found, rfl, huid, hact, rfl, ?_⟩
        simp only [hf] at hok ⊢
        by_cases hs : env.saveOk (updateData b body.vipPlan body.payment now lag found) = true
        · simp only [hs, if_true] at hok ⊢
          rcases hn : notifyVip env b (updateData b body.vipPlan body.payment now lag found)
            body.vipPlan w.outbox with ⟨r, out⟩
          cases r with
          | error e => simp [hn] at hok
          | ok u => simp [hn]
        · simp [hs] at hok

theorem findById_ok (env : Env) (users : List Account) (v : JsVal) (o : Option Account)
    (h : findById env users v = .ok o) :
    env.idOk v = true ∧ users.find? (fun a => decide (JsVal.str a.id = v)) = o := by
  unfold findById at h
  by_cases hid : env.idOk v = true
  · simp [hid] at h
    exact ⟨hid, h⟩
  · simp [hid] at h

theorem findById_save (env : Env) (users : List Account) (v : JsVal) (u doc : Account)
    (h : findById env users v = .ok (some u)) (hid : doc.id = u.id) :
    findById env (save users doc) v = .ok (some doc) := by
  obtain ⟨h1, h2⟩ := findById_ok env users v _ h
  unfold findById
  simp only [h1, if_true]
  rw [find_save users v u doc h2 hid]

theorem updateData_id (b : Bool) (p q : JsVal) (now lag : Nat) (u : Account) :
    (updateData b p q now lag u).id = u.id := rfl

/-- After an answer 200 the document found under the requested id has been replaced in the
store by its `updateData` version, which is also the document of the answer. -/
theorem toggleVipStatus_stored (env : Env) (now lag : Nat) (body : VipBody) (w : World)
    (hok : (toggleVipStatus env now lag body w).1.status = 200) :
    ∃ b old, body.isVip = .bool b
      ∧ (b = true → body.payment.truthy = true ∧ planIncluded body.vipPlan = true)
      ∧ findById env w.users body.userId = .ok (some old)
      ∧ findById env (toggleVipStatus env now lag body w).2.users body.userId
          = .ok (some (updateData b body.vipPlan body.payment now lag old))
      ∧ (toggleVipStatus env now lag body w).1.user
          = some (updateData b body.vipPlan body.payment now lag old) := by
  obtain ⟨b, found, hb, _, hact, hf, hu, hus⟩ := toggleVipStatus_ok_inv env now lag body w hok
  refine ⟨b, found, hb, hact, hf, ?_, hu⟩
  rw [hus]
  exact findById_save env w.users body.userId found _ hf (updateData_id _ _ _ _ _ _)

/-! ## Claims on toggleVipStatus -/

/-- C1: a weekly activation answered 200 while the clock advances by one millisecond between
the two clock reads stores duration 7 and an expiry 604800001 ms after the activation, not
exactly seven days. -/
theorem toggleVipStatus_weekly_clock_tick :
    (toggleVipStatus envOk 1704067200999 1 weeklyRequest worldAlice).1.status = 200
      ∧ (toggleVipStatus envOk 1704067200999 1 weeklyRequest worldAlice).2.users.map
          (fun a => (a.duration, a.activation, a.expires))
        = [(7, some 1704067200999, some (1704067200999 + 604800001))] := by
  decide

/-- C2: after a deactivation answered 200, whatever the VIP fields of the account were and
whatever plan and payment the request carried, the stored account is the former one with
isVip false, vipPlan the empty string, activation null, duration 0, expires null and
payment 0. -/
theorem toggleVipStatus_deactivate_resets (env : Env) (now lag : Nat) (body : VipBody)
    (w : World) (hvip : body.isVip = .bool false)
    (hok : (toggleVipStatus env now lag body w).1.status = 200) :
    ∃ old, findById env w.users body.userId = .ok (some old)
      ∧ findById env (toggleVipStatus env now lag body w).2.users body.userId
          = .ok (some { old with
              isVip := false, vipPlan := .str "", activation := none, duration := 0,
              expires := none, payment := .num 0 }) := by
  obtain ⟨b, old, hb, _, hf, hs, _⟩ := toggleVipStatus_stored env now lag body w hok
  rw [hvip] at hb
  cases hb
  exact ⟨old, hf, hs⟩

/-- Instance of the deactivation theorem: revoking the monthly subscription of `accountA`. -/
theorem toggleVipStatus_deactivate_resets_witness :
    deactivateRequest.isVip = .bool false
      ∧ (toggleVipStatus envOk feb1 0 deactivateRequest worldA).1.status = 200
      ∧ ∃ old, findById envOk worldA.users deactivateRequest.userId = .ok (some old)
        ∧ findById envOk (toggleVipStatus envOk feb1 0 deactivateRequest worldA).2.users
            deactivateRequest.userId
          = .ok (some { old with
              isVip := false, vipPlan := .str "", activation := none, duration := 0,
              expires := none, payment := .num 0 }) :=
  ⟨rfl, by decide,
    toggleVipStatus_deactivate_resets envOk feb1 0 deactivateRequest worldA rfl (by decide)⟩

/-- C3: a request with isVip true and no payment is answered 400 "Invalid request
parameters"; the store and the outbox are unchanged, so no account field is changed and no
notification is sent. -/
theorem toggleVipStatus_missing_payment (env : Env) (now lag : Nat) (body : VipBody)
    (w : World) (hvip : body.isVip = .bool true) (hpay : body.payment = .undefined) :
    toggleVipStatus env now lag body w
      = ({ status := 400, message := "Invalid request parameters", user := none }, w) := by
  unfold toggleVipStatus
  simp [hvip, hpay, truthy_bool, isBoolean_bool, JsVal.truthy]

/-- Instance of the missing-payment theorem: the weekly request without its payment. -/
theorem toggleVipStatus_missing_payment_witness :
    toggleVipStatus envOk 1000 0 { weeklyRequest with payment := .undefined } worldAlice
      = ({ status := 400, message := "Invalid request parameters", user := none }, worldAlice) :=
  toggleVipStatus_missing_payment envOk 1000 0 { weeklyRequest with payment := .undefined }
    worldAlice rfl rfl

/-- The store after a request is the old store, or the old store with the found document
replaced by its `updateData` version for a request that passed validation. -/
theorem toggleVipStatus_users (env : Env) (now lag : Nat) (body : VipBody) (w : World) :
    (toggleVipStatus env now lag body w).2.users = w.users
      ∨ ∃ b found, body.isVip = .bool b
          ∧ (b = true → body.payment.truthy = true ∧ planIncluded body.vipPlan = true)
          ∧ (toggleVipStatus env now lag body w).2.users
              = save w.users (updateData b body.vipPlan body.payment now lag found) := by
  by_cases hinv : body.userId.truthy = false ∨ body.isVip.isBoolean = false
      ∨ (body.isVip.truthy = true ∧ body.payment.truthy = false)
      ∨ (body.isVip.truthy = true ∧ planIncluded body.vipPlan = false)
  · left
    rw [(toggleVipStatus_invalid env now lag body w hinv).2]
  · simp only [not_or, not_and, Bool.not_eq_false] at hinv
    obtain ⟨huid, hbool, hpay, hplan⟩ := hinv
    cases hb : body.isVip <;> simp [hb, JsVal.isBoolean] at hbool
    rename_i b
    have hact : b = true → body.payment.truthy = true ∧ planIncluded body.vipPlan = true := by
      intro hbt
      have ht : body.isVip.truthy = true := by simp [hb, truthy_bool, hbt]
      exact ⟨hpay ht, hplan ht⟩
    rw [toggleVipStatus_valid env now lag body w b huid hb hact]
    cases hf : findById env w.users body.userId with
    | error e => left; rfl
    | ok o =>
      cases o with
      | none => left; rfl
      | some found =>
        by_cases hs : env.saveOk (updateData b body.vipPlan body.payment now lag found) = true
        · right
          refine ⟨b, found, rfl, hact, ?_⟩
          simp only [hs, if_true]
          rcases hn : notifyVip env b (updateData b body.vipPlan body.payment now lag found)
            body.vipPlan w.outbox with ⟨r, out⟩
          cases r <;> rfl
        · left
          simp [hs]

theorem mem_save (users : List Account) (doc a : Account) (h : a ∈ save users doc) :
    a ∈ users ∨ a = doc := by
  unfold save at h
  obtain ⟨x, hx, rfl⟩ := List.mem_map.mp h
  by_cases hid : x.id = doc.id
  · right; simp [hid]
  · left; simpa [hid] using hx

theorem planIncluded_iff (p : JsVal) :
    planIncluded p = true ↔ p = .str "weekly" ∨ p = .str "monthly" := by
  simp [planIncluded]

theorem sendTemplatedEmail_error (env : Env) (m : Mail) (outbox out : List Mail) (e : String)
    (h : sendTemplatedEmail env m outbox = (.error e, out)) : out = outbox := by
  unfold sendTemplatedEmail at h
  split at h
  · simp at h; exact h.2.symm
  · split at h
    · simp at h
    · simp at h; exact h.2.symm

/-- A notification that throws delivers nothing. -/
theorem notifyVip_error (env : Env) (b : Bool) (user : Account) (p : JsVal)
    (outbox out : List Mail) (e : String)
    (h : notifyVip env b user p outbox = (.error e, out)) : out = outbox := by
  unfold notifyVip sendVipSubcriptionEmail sendVipUnsubcriptionEmail at h
  split at h
  · split at h
    · simp at h; exact h.2.symm
    · exact sendTemplatedEmail_error _ _ _ _ _ h
  · split at h
    · simp at h; exact h.2.symm
    · exact sendTemplatedEmail_error _ _ _ _ _ h

/-- C4 (as stated, refuted): a request with isVip true and payment -5 for an existing account
is answered 200 and the account is stored as VIP with payment -5. -/
theorem toggleVipStatus_negative_payment_accepted :
    (toggleVipStatus envOk 1000 0 { weeklyRequest with payment := .num (-5) } worldAlice).1.status
        = 200
      ∧ (toggleVipStatus envOk 1000 0 { weeklyRequest with payment := .num (-5) }
          worldAlice).2.users.map (fun a => (a.isVip, a.payment)) = [(true, .num (-5))] := by
  decide

/-- C4 (amended): a request with isVip true and payment 0 is answered 400 "Invalid request
parameters" and leaves the store and the outbox unchanged. -/
theorem toggleVipStatus_zero_payment (env : Env) (now lag : Nat) (body : VipBody)
    (w : World) (hvip : body.isVip = .bool true) (hpay : body.payment = .num 0) :
    toggleVipStatus env now lag body w
      = ({ status := 400, message := "Invalid request parameters", user := none }, w) := by
  unfold toggleVipStatus
  simp [hvip, hpay, truthy_bool, isBoolean_bool, JsVal.truthy]

/-- Instance of the zero-payment theorem: the weekly request with payment 0. -/
theorem toggleVipStatus_zero_payment_witness :
    toggleVipStatus envOk 1000 0 { weeklyRequest with payment := .num 0 } worldAlice
      = ({ status := 400, message := "Invalid request parameters", user := none }, worldAlice) :=
  toggleVipStatus_zero_payment envOk 1000 0 { weeklyRequest with payment := .num 0 }
    worldAlice rfl rfl

/-- C5: a request with isVip true whose vipPlan is neither the string weekly nor the string
monthly (a missing plan included) is answered 400 and leaves the store and the outbox
unchanged; and after any request with isVip true every stored account either was already in
the store or carries the plan weekly or monthly. -/
theorem toggleVipStatus_plan_checked (env : Env) (now lag : Nat) (body : VipBody)
    (w : World) (hvip : body.isVip = .bool true) :
    ((body.vipPlan ≠ .str "weekly" ∧ body.vipPlan ≠ .str "monthly") →
        (toggleVipStatus env now lag body w).1.status = 400
          ∧ (toggleVipStatus env now lag body w).2 = w)
      ∧ ∀ a ∈ (toggleVipStatus env now lag body w).2.users,
          a ∈ w.users ∨ a.vipPlan = .str "weekly" ∨ a.vipPlan = .str "monthly" := by
  constructor
  · intro hplan
    apply toggleVipStatus_invalid
    right; right; right
    refine ⟨by simp [hvip, truthy_bool], ?_⟩
    have := planIncluded_iff body.vipPlan
    cases hp : planIncluded body.vipPlan
    · rfl
    · exact absurd (this.mp hp) (by simp [hplan.1, hplan.2])
  · intro a ha
    rcases toggleVipStatus_users env now lag body w with h | ⟨b, found, hb, hact, hus⟩
    · left; rw [h] at ha; exact ha
    · rw [hvip] at hb
      cases hb
      rw [hus] at ha
      rcases mem_save _ _ _ ha with h | h
      · left; exact h
      · right
        subst h
        exact (planIncluded_iff body.vipPlan).mp (hact rfl).2

/-- Instance of the plan theorem: the plan "yearly" is rejected, and the weekly request stores a
weekly plan. -/
theorem toggleVipStatus_plan_checked_witness :
    (toggleVipStatus envOk 1000 0 { weeklyRequest with vipPlan := .str "yearly" }
        worldAlice).1.status = 400
      ∧ (toggleVipStatus envOk 1000 0 { weeklyRequest with vipPlan := .str "yearly" }
        worldAlice).2 = worldAlice
      ∧ ∀ a ∈ (toggleVipStatus envOk 1000 0 weeklyRequest worldAlice).2.users,
          a ∈ worldAlice.users ∨ a.vipPlan = .str "weekly" ∨ a.vipPlan = .str "monthly" :=
  ⟨((toggleVipStatus_plan_checked envOk 1000 0 { weeklyRequest with vipPlan := .str "yearly" }
      worldAlice rfl).1 ⟨by decide, by decide⟩).1,
    ((toggleVipStatus_plan_checked envOk 1000 0 { weeklyRequest with vipPlan := .str "yearly" }
      worldAlice rfl).1 ⟨by decide, by decide⟩).2,
    (toggleVipStatus_plan_checked envOk 1000 0 weeklyRequest worldAlice rfl).2⟩

/-- A request that passes validation and whose lookup returns null is answered 404 "User not
found"; the store and the outbox are unchanged. -/
theorem toggleVipStatus_not_found (env : Env) (now lag : Nat) (body : VipBody) (w : World)
    (b : Bool) (huid : body.userId.truthy = true) (hb : body.isVip = .bool b)
    (hact : b = true → body.payment.truthy = true ∧ planIncluded body.vipPlan = true)
    (hnone : findById env w.users body.userId = .ok none) :
    toggleVipStatus env now lag body w
      = ({ status := 404, message := "User not found", user := none }, w) := by
  rw [toggleVipStatus_valid env now lag body w b huid hb hact, hnone]

/-- Instance of the not-found theorem: the weekly request for the unknown id "nobody". -/
theorem toggleVipStatus_not_found_witness :
    toggleVipStatus envOk 1000 0 { weeklyRequest with userId := .str "nobody" } worldAlice
      = ({ status := 404, message := "User not found", user := none }, worldAlice) :=
  toggleVipStatus_not_found envOk 1000 0 { weeklyRequest with userId := .str "nobody" }
    worldAlice true rfl rfl (fun _ => ⟨rfl, rfl⟩) rfl

/-- C6 (as stated, refuted): the weekly request for the userId "nobody", which no account
carries and which the lookup cannot cast to an id, is answered 500 and not 404; the store and
the outbox are unchanged. -/
theorem toggleVipStatus_unknown_id_is_500 :
    (∀ a ∈ worldAlice.users, JsVal.str a.id ≠ .str "nobody")
      ∧ (toggleVipStatus (envIdRejected "nobody") 1000 0
          { weeklyRequest with userId := .str "nobody" } worldAlice).1.status = 500
      ∧ (toggleVipStatus (envIdRejected "nobody") 1000 0
          { weeklyRequest with userId := .str "nobody" } worldAlice).2 = worldAlice := by
  decide

/-- C6 (amended): a request that passes validation and whose userId is carried by no account
is answered 404 "User not found" when the lookup accepts the userId as an id, and 500
without an account when the lookup throws on it; in both cases the store and the outbox are
unchanged, so no account is modified and no notification is sent. -/
theorem toggleVipStatus_no_match (env : Env) (now lag : Nat) (body : VipBody) (w : World)
    (b : Bool) (huid : body.userId.truthy = true) (hb : body.isVip = .bool b)
    (hact : b = true → body.payment.truthy = true ∧ planIncluded body.vipPlan = true)
    (hno : ∀ a ∈ w.users, JsVal.str a.id ≠ body.userId) :
    (env.idOk body.userId = true →
        toggleVipStatus env now lag body w
          = ({ status := 404, message := "User not found", user := none }, w))
      ∧ (env.idOk body.userId = false →
          (toggleVipStatus env now lag body w).1.status = 500
            ∧ (toggleVipStatus env now lag body w).1.user = none
            ∧ (toggleVipStatus env now lag body w).2 = w) := by
  have hfind : w.users.find? (fun a => decide (JsVal.str a.id = body.userId)) = none := by
    rw [List.find?_eq_none]
    intro a ha
    simpa using hno a ha
  constructor
  · intro hid
    rw [toggleVipStatus_valid env now lag body w b huid hb hact]
    simp [findById, hid, hfind]
  · intro hid
    rw [toggleVipStatus_valid env now lag body w b huid hb hact]
    simp [findById, hid]

/-- Instance of the theorem on unmatched ids: the weekly request for the unknown id "nobody",
once with a lookup that accepts it and once with a lookup that throws on it. -/
theorem toggleVipStatus_no_match_witness :
    toggleVipStatus envOk 1000 0 { weeklyRequest with userId := .str "nobody" } worldAlice
        = ({ status := 404, message := "User not found", user := none }, worldAlice)
      ∧ ((toggleVipStatus (envIdRejected "nobody") 1000 0
            { weeklyRequest with userId := .str "nobody" } worldAlice).1.status = 500
        ∧ (toggleVipStatus (envIdRejected "nobody") 1000 0
            { weeklyRequest with userId := .str "nobody" } worldAlice).1.user = none
        ∧ (toggleVipStatus (envIdRejected "nobody") 1000 0
            { weeklyRequest with userId := .str "nobody" } worldAlice).2 = worldAlice) :=
  ⟨(toggleVipStatus_no_match envOk 1000 0 { weeklyRequest with userId := .str "nobody" }
      worldAlice true rfl rfl (fun _ => ⟨rfl, rfl⟩) (by decide)).1 rfl,
    (toggleVipStatus_no_match (envIdRejected "nobody") 1000 0
      { weeklyRequest with userId := .str "nobody" }
      worldAlice true rfl rfl (fun _ => ⟨rfl, rfl⟩) (by decide)).2 rfl⟩

/-- C7 (as stated, refuted): with the mail transport failing, a valid weekly activation of an
existing account is answered 500 without the account, although the account is stored as
VIP. -/
theorem toggleVipStatus_mail_failure_is_500 :
    (toggleVipStatus envMailDown 1000 0 weeklyRequest worldAlice).1
        = { status := 500, message := "Failed to send email: Connection timeout",
            user := none }
      ∧ (toggleVipStatus envMailDown 1000 0 weeklyRequest worldAlice).2.users.map
          (fun a => (a.id, a.isVip)) = [("u1", true)] := by
  decide

/-- C7 (amended): for a request that passes validation on an existing account whose save
succeeds, if sending the notification throws, the updated account stays stored and nothing is
delivered, and the caller receives status 500 with the message of the exception and no
account. -/
theorem toggleVipStatus_notification_failure (env : Env) (now lag : Nat) (body : VipBody)
    (w : World) (b : Bool) (found : Account) (e : String) (out : List Mail)
    (huid : body.userId.truthy = true) (hb : body.isVip = .bool b)
    (hact : b = true → body.payment.truthy = true ∧ planIncluded body.vipPlan = true)
    (hfound : findById env w.users body.userId = .ok (some found))
    (hsave : env.saveOk (updateData b body.vipPlan body.payment now lag found) = true)
    (hfail : notifyVip env b (updateData b body.vipPlan body.payment now lag found)
      body.vipPlan w.outbox = (.error e, out)) :
    toggleVipStatus env now lag body w
        = ({ status := 500, message := e, user := none },
           { users := save w.users (updateData b body.vipPlan body.payment now lag found),
             outbox := w.outbox })
      ∧ findById env (toggleVipStatus env now lag body w).2.users body.userId
        = .ok (some (updateData b body.vipPlan body.payment now lag found)) := by
  have hout := notifyVip_error _ _ _ _ _ _ _ hfail
  subst hout
  have heq : toggleVipStatus env now lag body w
        = ({ status := 500, message := e, user := none },
           { users := save w.users (updateData b body.vipPlan body.payment now lag found),
             outbox := w.outbox }) := by
    rw [toggleVipStatus_valid env now lag body w b huid hb hact, hfound]
    simp [hsave, hfail]
  refine ⟨heq, ?_⟩
  rw [heq]
  exact findById_save env w.users body.userId found _ hfound (updateData_id _ _ _ _ _ _)

/-- Instance of the notification-failure theorem: the weekly request with the transport down. -/
theorem toggleVipStatus_notification_failure_witness :
    toggleVipStatus envMailDown 1000 0 weeklyRequest worldAlice
        = ({ status := 500, message := "Failed to send email: Connection timeout",
             user := none },
           { users := save worldAlice.users
               (updateData true weeklyRequest.vipPlan weeklyRequest.payment 1000 0 alice),
             outbox := worldAlice.outbox })
      ∧ findById envMailDown (toggleVipStatus envMailDown 1000 0 weeklyRequest worldAlice).2.users
          weeklyRequest.userId
        = .ok (some (updateData true weeklyRequest.vipPlan weeklyRequest.payment 1000 0 alice)) :=
  toggleVipStatus_notification_failure envMailDown 1000 0 weeklyRequest worldAlice true alice
    "Failed to send email: Connection timeout" [] rfl rfl (fun _ => ⟨rfl, rfl⟩) rfl rfl rfl

/-- After an activation answered 200 the stored account is VIP with the requested plan, which
is weekly or monthly, the matching duration, the requested payment, the activation instant
`now` and the expiry `now + lag + duration` days, which is later than the activation. -/
theorem toggleVipStatus_activate_stored (env : Env) (now lag : Nat) (body : VipBody)
    (w : World) (hvip : body.isVip = .bool true)
    (hok : (toggleVipStatus env now lag body w).1.status = 200) :
    ∃ u, findById env (toggleVipStatus env now lag body w).2.users body.userId = .ok (some u)
      ∧ u.isVip = true
      ∧ u.vipPlan = body.vipPlan
      ∧ (u.vipPlan = .str "weekly" ∨ u.vipPlan = .str "monthly")
      ∧ (u.vipPlan = .str "weekly" → u.duration = 7)
      ∧ (u.vipPlan = .str "monthly" → u.duration = 30)
      ∧ u.payment = body.payment
      ∧ u.activation = some now
      ∧ u.expires = some (now + lag + u.duration * 86400000)
      ∧ now < now + lag + u.duration * 86400000 := by
  obtain ⟨b, old, hb, hact, _, hs, _⟩ := toggleVipStatus_stored env now lag body w hok
  rw [hvip] at hb
  cases hb
  have hplan := (planIncluded_iff body.vipPlan).mp (hact rfl).2
  refine ⟨_, hs, rfl, rfl, hplan, ?_, ?_, rfl, rfl, ?_, ?_⟩
  · intro h
    simp only [updateData, if_true] at h ⊢
    simp [planDays, h]
  · intro h
    simp only [updateData, if_true] at h ⊢
    simp [planDays, h]
  · simp only [updateData, if_true]
    apply congrArg
    omega
  · simp only [updateData, if_true]
    have : 0 < planDays body.vipPlan := by unfold planDays; split <;> decide
    omega

/-- C8: a monthly activation answered 200 while the clock advances by one millisecond between
the two clock reads stores the plan monthly, duration 30, the requested payment and an expiry
later than the activation, but the expiry is 2592000001 ms after the activation, one
millisecond more than 30 days. -/
theorem toggleVipStatus_monthly_clock_tick :
    (toggleVipStatus envOk 1704067200999 1 monthlyRequest worldAlice).1.status = 200
      ∧ (toggleVipStatus envOk 1704067200999 1 monthlyRequest worldAlice).2.users.map
          (fun a => (a.isVip, a.vipPlan, a.duration, a.payment, a.activation, a.expires))
        = [(true, .str "monthly", 30, .num 25, some 1704067200999,
            some (1704067200999 + 30 * 86400000 + 1))] :=
  ⟨by decide, by rfl⟩

/-! ## Lemmas on checkVipExpirations -/

/-- The demotion query selects the VIP accounts whose expiry is set and earlier than the
current date. -/
theorem isExpiredVip_iff (T : Nat) (a : Account) :
    isExpiredVip T a = true ↔ a.isVip = true ∧ ∃ e, a.expires = some e ∧ e < T := by
  unfold isExpiredVip
  cases a.expires <;> simp

theorem save_ids (users : List Account) (doc : Account) :
    (save users doc).map Account.id = users.map Account.id := by
  unfold save
  rw [List.map_map]
  apply List.map_congr_left
  intro a _
  by_cases h : a.id = doc.id <;> simp [h]

/-- With unique ids, saving the demoted version of a stored document changes that document
only. -/
theorem save_demote (users : List Account) (u : Account)
    (hnd : (users.map Account.id).Nodup) (hu : u ∈ users) :
    save users (demote u) = users.map (fun a => if a = u then demote a else a) := by
  unfold save
  apply List.map_congr_left
  intro a ha
  have hid : (demote u).id = u.id := rfl
  by_cases h : a = u
  · subst h; simp [hid]
  · have : a.id ≠ u.id := fun hc => h (List.inj_on_of_nodup_map hnd ha hu hc)
    simp [h, hid, this]

theorem sendTemplatedEmail_ok_or_error (env : Env) (m : Mail) (outbox : List Mail) :
    (∃ out, sendTemplatedEmail env m outbox = (.ok (), out))
      ∨ ∃ e, sendTemplatedEmail env m outbox = (.error e, outbox) := by
  unfold sendTemplatedEmail
  split
  · right; exact ⟨_, rfl⟩
  · split
    · left; exact ⟨_, rfl⟩
    · right; exact ⟨_, rfl⟩

theorem sendVipRemainder_ok_or_error (env : Env) (email username : String) (d : Nat)
    (outbox : List Mail) :
    (∃ out, sendVipRemainder env email username d outbox = (.ok (), out))
      ∨ ∃ e, sendVipRemainder env email username d outbox = (.error e, outbox) := by
  unfold sendVipRemainder
  split
  · right; exact ⟨_, rfl⟩
  · exact sendTemplatedEmail_ok_or_error _ _ _

theorem sendVipExpiration_ok_or_error (env : Env) (email username : String) (x : Option Nat)
    (outbox : List Mail) :
    (∃ out, sendVipExpiration env email username x outbox = (.ok (), out))
      ∨ ∃ e, sendVipExpiration env email username x outbox = (.error e, outbox) := by
  unfold sendVipExpiration
  split
  · right; exact ⟨_, rfl⟩
  · exact sendTemplatedEmail_ok_or_error _ _ _

/-- The warning loop never writes to the account collection. -/
theorem warnLoop_users (env : Env) : ∀ (l : List Account) (w : World),
    (warnLoop env l w).2.users = w.users
  | [], w => rfl
  | u :: rest, w => by
    unfold warnLoop
    rcases sendVipExpiration_ok_or_error env u.email u.username u.expires w.outbox with
      ⟨out, h⟩ | ⟨e, h⟩
    · rw [h]
      simp only
      rw [warnLoop_users env rest]
    · rw [h]

/-- The demotion loop demotes a leading part `done` of the selected documents and changes
nothing else; when every save and every notification of the selection succeeds, `done` is the
whole selection. -/
theorem demoteLoop_users (env : Env) : ∀ (sel : List Account) (w : World),
    (w.users.map Account.id).Nodup → (sel.map Account.id).Nodup → (∀ u ∈ sel, u ∈ w.users) →
    ∃ done, done <+: sel
      ∧ ((∀ u ∈ sel, env.saveOk (demote u) = true
            ∧ ∀ out, ∃ out2, sendVipRemainder env u.email u.username u.duration out
                = (.ok (), out2)) → done = sel)
      ∧ (demoteLoop env sel w).2.users
          = w.users.map (fun a => if a ∈ done then demote a else a)
  | [], w, _, _, _ => ⟨[], List.prefix_rfl, fun _ => rfl, by simp [demoteLoop]⟩
  | u :: rest, w, hnd, hsel, hmem => by
    have hu : u ∈ w.users := hmem u (List.mem_cons_self _ _)
    have hsel2 : u.id ∉ rest.map Account.id ∧ (rest.map Account.id).Nodup := by
      simpa [List.nodup_cons] using hsel
    unfold demoteLoop
    by_cases hs : env.saveOk (demote u) = true
    · simp only [hs, if_true]
      have hsave := save_demote w.users u hnd hu
      have hstep : ∀ done2, done2 <+: rest →
          (save w.users (demote u)).map (fun a => if a ∈ done2 then demote a else a)
            = w.users.map (fun a => if a ∈ u :: done2 then demote a else a) := by
        intro done2 hpre
        rw [hsave, List.map_map]
        apply List.map_congr_left
        intro a ha
        by_cases hau : a = u
        · subst hau
          have hnot : demote a ∉ done2 := by
            intro hc
            have : (demote a).id ∈ rest.map Account.id :=
              List.mem_map_of_mem _ (hpre.subset hc)
            exact hsel2.1 this
          simp [hnot]
        · simp [hau]
      rcases sendVipRemainder_ok_or_error env (demote u).email (demote u).username
          (demote u).duration w.outbox with ⟨out, h⟩ | ⟨e, h⟩
      · rw [h]
        simp only
        have hnd2 : (List.map Account.id
            ({ users := save w.users (demote u), outbox := out } : World).users).Nodup := by
          simpa [save_ids] using hnd
        have hmem2 : ∀ r ∈ rest,
            r ∈ ({ users := save w.users (demote u), outbox := out } : World).users := by
          intro r hr
          have hrw : r ∈ w.users := hmem r (List.mem_cons_of_mem _ hr)
          have hne : r ≠ u := by
            intro hc
            subst hc
            exact hsel2.1 (List.mem_map_of_mem _ hr)
          simp only [hsave]
          exact List.mem_map.mpr ⟨r, hrw, by simp [hne]⟩
        obtain ⟨done2, hpre, hall, hres⟩ :=
          demoteLoop_users env rest { users := save w.users (demote u), outbox := out }
            hnd2 hsel2.2 hmem2
        refine ⟨u :: done2, ?_, ?_, ?_⟩
        · exact (List.prefix_cons_inj u).mpr hpre
        · intro hok
          rw [hall (fun r hr => hok r (List.mem_cons_of_mem _ hr))]
        · rw [hres]
          exact hstep done2 hpre
      · rw [h]
        refine ⟨[u], ?_, ?_, ?_⟩
        · simp
        · intro hok
          obtain ⟨out2, h2⟩ := (hok u (List.mem_cons_self _ _)).2 w.outbox
          have h3 : sendVipRemainder env (demote u).email (demote u).username
              (demote u).duration w.outbox = (.ok (), out2) := h2
          rw [h] at h3
          simp at h3
        · have := hstep [] (List.nil_prefix)
          simpa using this
    · refine ⟨[], List.nil_prefix, ?_, ?_⟩
      · intro hok
        exact absurd (hok u (List.mem_cons_self _ _)).1 hs
      · simp [hs]

/-! ## Claims on checkVipExpirations -/

/-- C9 (as stated, refuted): with the mail transport failing, a run at 2024-02-01 over a
store in which `accountA` and `accountB` are both VIP and expired demotes `accountA` and then
stops; `accountB` is still VIP after the run. -/
theorem checkVipExpirations_stops_at_failure :
    isExpiredVip feb1 accountB = true
      ∧ accountB ∈ worldAB.users
      ∧ (checkVipExpirations envMailDown feb1 worldAB).users.map (fun a => (a.id, a.isVip))
        = [("a", false), ("b", true), ("u1", false)] := by
  decide

/-- C9 (amended): in a store with unique ids, a run at time T leaves every account either
unchanged or, if it was VIP with expires earlier than T, replaced by its demoted version
(isVip false, vipPlan null); and when the save and the notification of every such account
succeed, the run demotes exactly those accounts: the store after the run is the store before
with every account that was VIP with expires earlier than T demoted and all others, among
them the accounts with a later or unset expires and the non-VIP accounts, unchanged. -/
theorem checkVipExpirations_demotes (env : Env) (T : Nat) (w : World)
    (hnd : (w.users.map Account.id).Nodup) :
    List.Forall₂ (fun a b => b = a ∨ (isExpiredVip T a = true ∧ b = demote a))
        w.users (checkVipExpirations env T w).users
      ∧ ((∀ u ∈ w.users, isExpiredVip T u = true →
            env.saveOk (demote u) = true
              ∧ ∀ out, ∃ out2, sendVipRemainder env u.email u.username u.duration out
                  = (.ok (), out2)) →
          (checkVipExpirations env T w).users
            = w.users.map (fun a => if isExpiredVip T a then demote a else a)) := by
  have hsub : (w.users.filter (isExpiredVip T)).Sublist w.users := List.filter_sublist _
  have hnd2 : ((w.users.filter (isExpiredVip T)).map Account.id).Nodup :=
    List.Nodup.sublist (hsub.map _) hnd
  obtain ⟨done, hpre, hall, hres⟩ :=
    demoteLoop_users env (w.users.filter (isExpiredVip T)) w hnd hnd2
      (fun u hu => (List.mem_filter.mp hu).1)
  have husers : (checkVipExpirations env T w).users
      = w.users.map (fun a => if a ∈ done then demote a else a) := by
    unfold checkVipExpirations
    simp only
    rcases hd : demoteLoop env (w.users.filter (isExpiredVip T)) w with ⟨r, w1⟩
    rw [hd] at hres
    cases r with
    | error e => exact hres
    | ok v =>
      simp only
      rw [warnLoop_users]
      exact hres
  constructor
  · rw [husers, List.forall₂_map_right_iff, List.forall₂_same]
    intro a _
    by_cases hin : a ∈ done
    · right
      have := (List.mem_filter.mp (hpre.subset hin)).2
      simp [hin, this]
    · left
      simp [hin]
  · intro hok
    have hdone : done = w.users.filter (isExpiredVip T) :=
      hall (fun u hu => hok u (List.mem_filter.mp hu).1 (List.mem_filter.mp hu).2)
    rw [husers, hdone]
    apply List.map_congr_left
    intro a ha
    by_cases hp : isExpiredVip T a = true
    · have : a ∈ w.users.filter (isExpiredVip T) := List.mem_filter.mpr ⟨ha, hp⟩
      simp [this, hp]
    · have : a ∉ w.users.filter (isExpiredVip T) := fun hc => hp (List.mem_filter.mp hc).2
      simp [this, hp]

/-- Instance of the demotion theorem: the sweep of 2024-02-01 over `worldAB` with every call
succeeding. -/
theorem checkVipExpirations_demotes_witness :
    (worldAB.users.map Account.id).Nodup
      ∧ List.Forall₂ (fun a b => b = a ∨ (isExpiredVip feb1 a = true ∧ b = demote a))
          worldAB.users (checkVipExpirations envOk feb1 worldAB).users
      ∧ (checkVipExpirations envOk feb1 worldAB).users
          = worldAB.users.map (fun a => if isExpiredVip feb1 a then demote a else a) :=
  ⟨by decide,
    (checkVipExpirations_demotes envOk feb1 worldAB (by decide)).1,
    (checkVipExpirations_demotes envOk feb1 worldAB (by decide)).2 (by
      intro u hu _
      refine ⟨rfl, fun out => ?_⟩
      simp only [worldAB, List.mem_cons, List.mem_singleton, List.not_mem_nil, or_false] at hu
      rcases hu with rfl | rfl | rfl <;> exact ⟨_, rfl⟩)⟩

/-- C10: run at 2024-02-01 on account A of the scenario (monthly plan, expired 2024-01-31),
the sweep demotes A and delivers exactly one mail to A, and that mail is the reminder of
`sendVipRemainder` (subject "Your VIP Reminder", template remainder.html), not the
"VIP Expired" mail of `sendVipExpiration`. -/
theorem checkVipExpirations_sends_reminder :
    (checkVipExpirations envOk feb1 worldA).users.map (fun a => (a.isVip, a.vipPlan))
        = [(false, .null)]
      ∧ (checkVipExpirations envOk feb1 worldA).outbox
        = [{ recipient := "a@example.com"
             subject := "Your VIP Reminder"
             templatePath := "../client/remainder.html"
             replacements := [("username", .str "userA"), ("duration", .num 30)] }] :=
  ⟨by rfl, by rfl⟩

/-! ## Lemmas on the loops of checkVipExpirations -/

theorem sendTemplatedEmail_sent (env : Env) (m : Mail) (out : List Mail)
    (h1 : m.recipient ≠ "") (h2 : env.sendOk m = true) :
    sendTemplatedEmail env m out = (.ok (), out ++ [m]) := by
  simp [sendTemplatedEmail, h1, h2]

theorem sendTemplatedEmail_failed (env : Env) (m : Mail) (out : List Mail)
    (h : m.recipient = "" ∨ env.sendOk m = false) :
    ∃ e, sendTemplatedEmail env m out = (.error e, out) := by
  unfold sendTemplatedEmail
  by_cases h1 : m.recipient = ""
  · rw [if_pos h1]
    exact ⟨_, rfl⟩
  · rcases h with h | h
    · exact absurd h h1
    · rw [if_neg h1]
      simp only [h, Bool.false_eq_true, if_false]
      exact ⟨_, rfl⟩

/-- A reminder that goes through appends exactly the reminder mail of the document. -/
theorem sendVipRemainder_sent (env : Env) (u : Account) (out : List Mail)
    (h : reminderOk env u = true) :
    sendVipRemainder env u.email u.username u.duration out = (.ok (), out ++ [reminderMail u]) := by
  simp only [reminderOk, Bool.and_eq_true, decide_eq_true_eq] at h
  obtain ⟨⟨he, hn⟩, hs⟩ := h
  unfold sendVipRemainder
  simp only [he, hn, or_self, if_false]
  exact sendTemplatedEmail_sent env (reminderMail u) out he hs

/-- A reminder that does not go through throws and delivers nothing. -/
theorem sendVipRemainder_failed (env : Env) (u : Account) (out : List Mail)
    (h : reminderOk env u = false) :
    ∃ e, sendVipRemainder env u.email u.username u.duration out = (.error e, out) := by
  unfold sendVipRemainder
  by_cases hen : u.email = "" ∨ u.username = ""
  · rw [if_pos hen]
    exact ⟨_, rfl⟩
  · rw [if_neg hen]
    apply sendTemplatedEmail_failed env (reminderMail u) out
    right
    have hen2 := not_or.mp hen
    simpa [reminderOk, hen2.1, hen2.2] using h

/-- A warning that goes through appends exactly the expiration mail of the document. -/
theorem sendVipExpiration_sent (env : Env) (u : Account) (out : List Mail)
    (h : warningOk env u = true) :
    sendVipExpiration env u.email u.username u.expires out
      = (.ok (), out ++ [expirationMail u]) := by
  simp only [warningOk, Bool.and_eq_true, decide_eq_true_eq] at h
  obtain ⟨⟨he, hn⟩, hs⟩ := h
  unfold sendVipExpiration
  simp only [he, hn, or_self, if_false]
  exact sendTemplatedEmail_sent env (expirationMail u) out he hs

/-- A warning that does not go through throws and delivers nothing. -/
theorem sendVipExpiration_failed (env : Env) (u : Account) (out : List Mail)
    (h : warningOk env u = false) :
    ∃ e, sendVipExpiration env u.email u.username u.expires out = (.error e, out) := by
  unfold sendVipExpiration
  by_cases hen : u.email = "" ∨ u.username = ""
  · rw [if_pos hen]
    exact ⟨_, rfl⟩
  · rw [if_neg hen]
    apply sendTemplatedEmail_failed env (expirationMail u) out
    right
    have hen2 := not_or.mp hen
    simpa [warningOk, hen2.1, hen2.2] using h

/-- One pass of the demotion loop body that goes through. -/
theorem demoteLoop_cons_ok (env : Env) (u : Account) (rest : List Account) (w : World)
    (h : demotionOk env u = true) :
    demoteLoop env (u :: rest) w
      = demoteLoop env rest
          { users := save w.users (demote u), outbox := w.outbox ++ [reminderMail u] } := by
  simp only [demotionOk, Bool.and_eq_true] at h
  have hs := sendVipRemainder_sent env u w.outbox h.2
  have hs2 : sendVipRemainder env (demote u).email (demote u).username (demote u).duration
      w.outbox = (.ok (), w.outbox ++ [reminderMail u]) := hs
  rw [demoteLoop]
  simp only [h.1, if_true, hs2]

/-- One pass of the demotion loop body that fails ends the loop: the demoted document is
stored when its save went through, and nothing is delivered. -/
theorem demoteLoop_cons_fail (env : Env) (u : Account) (rest : List Account) (w : World)
    (h : demotionOk env u = false) :
    ∃ e, demoteLoop env (u :: rest) w
      = (.error e,
         { users := if env.saveOk (demote u) = true then save w.users (demote u) else w.users,
           outbox := w.outbox }) := by
  rw [demoteLoop]
  by_cases hs : env.saveOk (demote u) = true
  · have hr : reminderOk env u = false := by simpa [demotionOk, hs] using h
    obtain ⟨e, he⟩ := sendVipRemainder_failed env u w.outbox hr
    have he2 : sendVipRemainder env (demote u).email (demote u).username (demote u).duration
        w.outbox = (.error e, w.outbox) := he
    exact ⟨e, by simp only [hs, if_true, he2]⟩
  · exact ⟨_, by simp only [hs, if_false]; rfl⟩

/-- A loop over documents whose passes all go through returns normally, having saved every
demoted document in turn and delivered one reminder to each. -/
theorem demoteLoop_all_ok (env : Env) : ∀ (sel : List Account) (w : World),
    (∀ u ∈ sel, demotionOk env u = true) →
    demoteLoop env sel w
      = (.ok (), { users := sel.foldl (fun us u => save us (demote u)) w.users,
                   outbox := w.outbox ++ sel.map reminderMail })
  | [], w, _ => by simp [demoteLoop]
  | u :: rest, w, h => by
    rw [demoteLoop_cons_ok env u rest w (h u (List.mem_cons_self _ _)),
      demoteLoop_all_ok env rest _ (fun r hr => h r (List.mem_cons_of_mem _ hr))]
    simp

/-- Passes that go through in front of the selection leave the rest of the loop to run on the
state they produce. -/
theorem demoteLoop_append (env : Env) (pre rest : List Account) (w : World)
    (h : ∀ u ∈ pre, demotionOk env u = true) :
    demoteLoop env (pre ++ rest) w
      = demoteLoop env rest
          { users := pre.foldl (fun us u => save us (demote u)) w.users,
            outbox := w.outbox ++ pre.map reminderMail } := by
  induction pre generalizing w with
  | nil => simp
  | cons u pre ih =>
    rw [List.cons_append, demoteLoop_cons_ok env u _ w (h u (List.mem_cons_self _ _)),
      ih _ (fun r hr => h r (List.mem_cons_of_mem _ hr))]
    simp

/-- With unique ids, saving the demoted versions of stored documents one after the other
demotes exactly these documents. -/
theorem foldl_save_demote : ∀ (sel : List Account) (users : List Account),
    (users.map Account.id).Nodup → (sel.map Account.id).Nodup → (∀ u ∈ sel, u ∈ users) →
    sel.foldl (fun us u => save us (demote u)) users
      = users.map (fun a => if a ∈ sel then demote a else a)
  | [], users, _, _, _ => by simp
  | u :: rest, users, hnd, hsel, hmem => by
    have hu : u ∈ users := hmem u (List.mem_cons_self _ _)
    have hsel2 : u.id ∉ rest.map Account.id ∧ (rest.map Account.id).Nodup := by
      simpa [List.nodup_cons] using hsel
    have hsave := save_demote users u hnd hu
    have hnd2 : ((save users (demote u)).map Account.id).Nodup := by
      simpa [save_ids] using hnd
    have hmem2 : ∀ r ∈ rest, r ∈ save users (demote u) := by
      intro r hr
      have hrw : r ∈ users := hmem r (List.mem_cons_of_mem _ hr)
      have hne : r ≠ u := by
        intro hc
        subst hc
        exact hsel2.1 (List.mem_map_of_mem _ hr)
      rw [hsave]
      exact List.mem_map.mpr ⟨r, hrw, by simp [hne]⟩
    rw [List.foldl_cons, foldl_save_demote rest _ hnd2 hsel2.2 hmem2, hsave, List.map_map]
    apply List.map_congr_left
    intro a _
    by_cases hau : a = u
    · subst hau
      have hnot : demote a ∉ rest := by
        intro hc
        have : (demote a).id ∈ rest.map Account.id := List.mem_map_of_mem _ hc
        exact hsel2.1 this
      simp [hnot]
    · simp [hau]

theorem expired_ids_nodup (T : Nat) (users : List Account)
    (hnd : (users.map Account.id).Nodup) :
    ((users.filter (isExpiredVip T)).map Account.id).Nodup :=
  List.Nodup.sublist ((List.filter_sublist _).map _) hnd

/-- An expired subscription is not about to expire, before and after its demotion. -/
theorem filter_expiring_demoted (T : Nat) (users : List Account) :
    (users.map (fun a => if isExpiredVip T a then demote a else a)).filter (isExpiringVip T)
      = users.filter (isExpiringVip T) := by
  induction users with
  | nil => rfl
  | cons a rest ih =>
    simp only [List.map_cons, List.filter_cons, ih]
    by_cases hx : isExpiredVip T a = true
    · have h1 : isExpiringVip T (demote a) = false := by simp [isExpiringVip, demote]
      have h2 : isExpiringVip T a = false := by
        obtain ⟨_, e, he, hlt⟩ := (isExpiredVip_iff T a).mp hx
        simp only [isExpiringVip, he, Bool.and_eq_false_imp]
        intro _
        simp
        omega
      simp [hx, h1, h2]
    · simp [hx]

/-- A warning loop whose notifications all go through delivers one expiration mail to each
document, in order. -/
theorem warnLoop_all_ok (env : Env) : ∀ (l : List Account) (w : World),
    (∀ u ∈ l, warningOk env u = true) →
    warnLoop env l w = (.ok (), { w with outbox := w.outbox ++ l.map expirationMail })
  | [], w, _ => by simp [warnLoop]
  | u :: rest, w, h => by
    rw [warnLoop, sendVipExpiration_sent env u w.outbox (h u (List.mem_cons_self _ _))]
    simp only
    rw [warnLoop_all_ok env rest _ (fun r hr => h r (List.mem_cons_of_mem _ hr))]
    simp

/-- The demotion step of a run in which every selected pass goes through. -/
theorem demotion_step_ok (env : Env) (T : Nat) (w : World)
    (hnd : (w.users.map Account.id).Nodup)
    (hdem : ∀ u ∈ w.users, isExpiredVip T u = true → demotionOk env u = true) :
    demoteLoop env (w.users.filter (isExpiredVip T)) w
      = (.ok (),
         { users := w.users.map (fun a => if isExpiredVip T a then demote a else a),
           outbox := w.outbox ++ (w.users.filter (isExpiredVip T)).map reminderMail }) := by
  rw [demoteLoop_all_ok env _ w
    (fun u hu => hdem u (List.mem_filter.mp hu).1 (List.mem_filter.mp hu).2),
    foldl_save_demote _ _ hnd (expired_ids_nodup T _ hnd) (fun u hu => (List.mem_filter.mp hu).1)]
  congr 2
  apply List.map_congr_left
  intro a ha
  by_cases hp : isExpiredVip T a = true
  · have : a ∈ w.users.filter (isExpiredVip T) := List.mem_filter.mpr ⟨ha, hp⟩
    simp [this, hp]
  · have : a ∉ w.users.filter (isExpiredVip T) := fun hc => hp (List.mem_filter.mp hc).2
    simp [this, hp]

/-- The warning step never changes the account collection: the store after a run is the store
after its demotion step. -/
theorem checkVipExpirations_users (env : Env) (T : Nat) (w : World) :
    (checkVipExpirations env T w).users
      = (demoteLoop env (w.users.filter (isExpiredVip T)) w).2.users := by
  unfold checkVipExpirations
  simp only
  rcases demoteLoop env (w.users.filter (isExpiredVip T)) w with ⟨r, w1⟩
  cases r with
  | error e => rfl
  | ok v => simp only; rw [warnLoop_users]

/-- Every document in the store after the demotion loop was there before or is the demoted
version of a selected document. -/
theorem demoteLoop_mem (env : Env) : ∀ (sel : List Account) (w : World) (b : Account),
    b ∈ (demoteLoop env sel w).2.users → b ∈ w.users ∨ ∃ u ∈ sel, b = demote u
  | [], w, b, h => by
    left
    simpa [demoteLoop] using h
  | u :: rest, w, b, h => by
    by_cases hok : demotionOk env u = true
    · rw [demoteLoop_cons_ok env u rest w hok] at h
      rcases demoteLoop_mem env rest _ b h with h1 | ⟨x, hx, hb⟩
      · rcases mem_save _ _ _ h1 with h2 | h2
        · left; exact h2
        · right; exact ⟨u, List.mem_cons_self _ _, h2⟩
      · right; exact ⟨x, List.mem_cons_of_mem _ hx, hb⟩
    · obtain ⟨e, he⟩ := demoteLoop_cons_fail env u rest w (by simpa using hok)
      rw [he] at h
      by_cases hs : env.saveOk (demote u) = true
      · simp only [hs, if_true] at h
        rcases mem_save _ _ _ h with h2 | h2
        · left; exact h2
        · right; exact ⟨u, List.mem_cons_self _ _, h2⟩
      · simp only [hs] at h
        left
        simpa using h

/-- With unique ids, the store after a run is the store before with a leading part of the
expired selection demoted. -/
theorem checkVipExpirations_done (env : Env) (T : Nat) (w : World)
    (hnd : (w.users.map Account.id).Nodup) :
    ∃ done, done <+: w.users.filter (isExpiredVip T)
      ∧ (checkVipExpirations env T w).users
          = w.users.map (fun a => if a ∈ done then demote a else a) := by
  obtain ⟨done, hpre, _, hres⟩ :=
    demoteLoop_users env (w.users.filter (isExpiredVip T)) w hnd (expired_ids_nodup T _ hnd)
      (fun u hu => (List.mem_filter.mp hu).1)
  exact ⟨done, hpre, by rw [checkVipExpirations_users, hres]⟩

/-! ## Further claims on checkVipExpirations -/

/-- C11 (as stated, refuted): in a run at 2024-02-01 over two subscribers that both expire
within seven days, with the mail to the first one failing, the second one gets no warning
although a mail to it would be delivered; the run delivers nothing. -/
theorem checkVipExpirations_warning_skipped :
    isExpiringVip feb1 accountD = true
      ∧ accountD ∈ worldCD.users
      ∧ warningOk (envMailFailsFor "c@example.com") accountD = true
      ∧ (checkVipExpirations (envMailFailsFor "c@example.com") feb1 worldCD).outbox = [] :=
  ⟨by decide, by decide, by decide, by rfl⟩

/-- C11 (amended): the warning step changes no account in any run, the store after the run
being the store after the demotion step; and in a store with unique ids, when the demotion of
every expired account and the notification of every account with isVip and T < expires <
T + 7 days go through, the run delivers, after one reminder per demoted account, exactly one
mail of the warning step to each account with isVip and T < expires < T + 7 days, in store
order, and none to any other account. -/
theorem checkVipExpirations_warns (env : Env) (T : Nat) (w : World) :
    (checkVipExpirations env T w).users
        = (demoteLoop env (w.users.filter (isExpiredVip T)) w).2.users
      ∧ ((w.users.map Account.id).Nodup →
          (∀ u ∈ w.users, isExpiredVip T u = true → demotionOk env u = true) →
          (∀ u ∈ w.users, isExpiringVip T u = true → warningOk env u = true) →
          (checkVipExpirations env T w).outbox
            = w.outbox ++ (w.users.filter (isExpiredVip T)).map reminderMail
                ++ (w.users.filter (isExpiringVip T)).map expirationMail) := by
  refine ⟨checkVipExpirations_users env T w, ?_⟩
  intro hnd hdem hwarn
  unfold checkVipExpirations
  simp only [demotion_step_ok env T w hnd hdem, filter_expiring_demoted]
  rw [warnLoop_all_ok env _ _
    (fun u hu => hwarn u (List.mem_filter.mp hu).1 (List.mem_filter.mp hu).2)]

/-- Instance of the warning theorem: the sweep of 2024-02-01 over two expired subscribers and
one about to expire, every call succeeding. -/
theorem checkVipExpirations_warns_witness :
    (checkVipExpirations envOk feb1 worldABC).users
        = (demoteLoop envOk (worldABC.users.filter (isExpiredVip feb1)) worldABC).2.users
      ∧ (checkVipExpirations envOk feb1 worldABC).outbox
          = worldABC.outbox ++ (worldABC.users.filter (isExpiredVip feb1)).map reminderMail
              ++ (worldABC.users.filter (isExpiringVip feb1)).map expirationMail :=
  ⟨(checkVipExpirations_warns envOk feb1 worldABC).1,
    (checkVipExpirations_warns envOk feb1 worldABC).2 (by decide)
      (by
        intro u hu _
        simp only [worldABC, List.mem_cons, List.mem_singleton, List.not_mem_nil, or_false] at hu
        rcases hu with rfl | rfl | rfl <;> rfl)
      (by
        intro u hu _
        simp only [worldABC, List.mem_cons, List.mem_singleton, List.not_mem_nil, or_false] at hu
        rcases hu with rfl | rfl | rfl <;> rfl)⟩

/-- Warnings that go through in front of the selection leave the rest of the loop to run on
the outbox they produce. -/
theorem warnLoop_append (env : Env) (pre rest : List Account) (w : World)
    (h : ∀ u ∈ pre, warningOk env u = true) :
    warnLoop env (pre ++ rest) w
      = warnLoop env rest { w with outbox := w.outbox ++ pre.map expirationMail } := by
  induction pre generalizing w with
  | nil => simp
  | cons u pre ih =>
    rw [List.cons_append, warnLoop,
      sendVipExpiration_sent env u w.outbox (h u (List.mem_cons_self _ _))]
    simp only
    rw [ih _ (fun r hr => h r (List.mem_cons_of_mem _ hr))]
    simp

/-- A warning that fails ends the warning loop. -/
theorem warnLoop_cons_fail (env : Env) (u : Account) (rest : List Account) (w : World)
    (h : warningOk env u = false) :
    ∃ e, warnLoop env (u :: rest) w = (.error e, w) := by
  obtain ⟨e, he⟩ := sendVipExpiration_failed env u w.outbox h
  exact ⟨e, by rw [warnLoop, he]⟩

/-- C12 (as stated, refuted): in a run at 2024-02-01 over the expired subscribers `accountA`
and `accountB` and the soon expiring `accountC`, with only mails to `accountA` failing,
`accountA` is demoted and the run ends: `accountB` stays VIP and `accountC` gets no warning,
although the demotion of `accountB` and the warning of `accountC` would go through. -/
theorem checkVipExpirations_no_isolation :
    isExpiredVip feb1 accountB = true
      ∧ demotionOk (envMailFailsFor "a@example.com") accountB = true
      ∧ isExpiringVip feb1 accountC = true
      ∧ warningOk (envMailFailsFor "a@example.com") accountC = true
      ∧ (checkVipExpirations (envMailFailsFor "a@example.com") feb1 worldABC).users.map
          (fun a => (a.id, a.isVip)) = [("a", false), ("b", true), ("c", true)]
      ∧ (checkVipExpirations (envMailFailsFor "a@example.com") feb1 worldABC).outbox = [] :=
  ⟨by decide, by decide, by decide, by decide, by rfl, by rfl⟩

/-- C12 (amended): in a store with unique ids, a failure ends the run where it occurs. If the
expired selection is `pre`, then `u`, then `post`, the passes for `pre` go through and the
save or the notification of `u` fails, then exactly the accounts of `pre`, and `u` when its
save went through, are demoted, the accounts of `post` and all others are unchanged, and the
run delivers the reminders of `pre` and nothing else, so no warning. If every demotion goes
through and the soon expiring selection is `pre`, then `u`, then `post`, with the warnings of
`pre` delivered and the warning of `u` failing, then the run delivers the reminders of the
demoted accounts and the warnings of `pre` only. -/
theorem checkVipExpirations_failure_ends_run (env : Env) (T : Nat) (w : World)
    (hnd : (w.users.map Account.id).Nodup) (pre post : List Account) (u : Account) :
    (w.users.filter (isExpiredVip T) = pre ++ u :: post →
        (∀ p ∈ pre, demotionOk env p = true) → demotionOk env u = false →
        (checkVipExpirations env T w).users
            = w.users.map (fun a =>
                if a ∈ pre ∨ (a = u ∧ env.saveOk (demote u) = true) then demote a else a)
          ∧ (checkVipExpirations env T w).outbox = w.outbox ++ pre.map reminderMail)
      ∧ ((∀ x ∈ w.users, isExpiredVip T x = true → demotionOk env x = true) →
        w.users.filter (isExpiringVip T) = pre ++ u :: post →
        (∀ p ∈ pre, warningOk env p = true) → warningOk env u = false →
        (checkVipExpirations env T w).users
            = w.users.map (fun a => if isExpiredVip T a then demote a else a)
          ∧ (checkVipExpirations env T w).outbox
            = w.outbox ++ (w.users.filter (isExpiredVip T)).map reminderMail
                ++ pre.map expirationMail) := by
  constructor
  · intro hsel hpre hu
    have hids := expired_ids_nodup T _ hnd
    rw [hsel] at hids
    have hmem : ∀ x ∈ pre ++ u :: post, x ∈ w.users := by
      intro x hx
      rw [← hsel] at hx
      exact (List.mem_filter.mp hx).1
    obtain ⟨e, he⟩ := demoteLoop_cons_fail env u post
      { users := pre.foldl (fun us p => save us (demote p)) w.users,
        outbox := w.outbox ++ pre.map reminderMail } hu
    have hrun : checkVipExpirations env T w
        = { users := if env.saveOk (demote u) = true then
              save (pre.foldl (fun us p => save us (demote p)) w.users) (demote u)
            else pre.foldl (fun us p => save us (demote p)) w.users,
            outbox := w.outbox ++ pre.map reminderMail } := by
      unfold checkVipExpirations
      simp only [hsel, demoteLoop_append env pre (u :: post) w hpre, he]
    rw [hrun]
    refine ⟨?_, rfl⟩
    simp only
    by_cases hs : env.saveOk (demote u) = true
    · have hsub : (pre ++ [u]).Sublist (pre ++ u :: post) :=
        (List.Sublist.refl pre).append (List.Sublist.cons₂ u (List.nil_sublist post))
      have hfold := foldl_save_demote (pre ++ [u]) w.users hnd
        (List.Nodup.sublist (hsub.map _) hids) (fun x hx => hmem x (hsub.subset hx))
      rw [List.foldl_append] at hfold
      simp only [List.foldl_cons, List.foldl_nil] at hfold
      simp only [hs, if_true, hfold]
      apply List.map_congr_left
      intro a _
      simp [List.mem_append]
    · have hsub : pre.Sublist (pre ++ u :: post) := List.sublist_append_left _ _
      have hfold := foldl_save_demote pre w.users hnd
        (List.Nodup.sublist (hsub.map _) hids) (fun x hx => hmem x (hsub.subset hx))
      simp only [hs, hfold]
      apply List.map_congr_left
      intro a _
      simp
  · intro hdem hsel hpre hu
    obtain ⟨e, he⟩ := warnLoop_cons_fail env u post
      { users := w.users.map (fun a => if isExpiredVip T a then demote a else a),
        outbox := w.outbox ++ (w.users.filter (isExpiredVip T)).map reminderMail
          ++ pre.map expirationMail } hu
    have hrun : checkVipExpirations env T w
        = { users := w.users.map (fun a => if isExpiredVip T a then demote a else a),
            outbox := w.outbox ++ (w.users.filter (isExpiredVip T)).map reminderMail
              ++ pre.map expirationMail } := by
      unfold checkVipExpirations
      simp only [demotion_step_ok env T w hnd hdem, filter_expiring_demoted, hsel,
        warnLoop_append env pre (u :: post) _ hpre, he]
    rw [hrun]
    exact ⟨rfl, rfl⟩

/-- Instance of the failure theorem: the mail to `accountA` failing in `worldABC`, and the
mail to `accountC` failing in `worldCD`. -/
theorem checkVipExpirations_failure_ends_run_witness :
    ((checkVipExpirations (envMailFailsFor "a@example.com") feb1 worldABC).users
          = worldABC.users.map (fun a =>
              if a ∈ ([] : List Account)
                  ∨ (a = accountA
                    ∧ (envMailFailsFor "a@example.com").saveOk (demote accountA) = true)
              then demote a else a)
        ∧ (checkVipExpirations (envMailFailsFor "a@example.com") feb1 worldABC).outbox
          = worldABC.outbox ++ ([] : List Account).map reminderMail)
      ∧ ((checkVipExpirations (envMailFailsFor "c@example.com") feb1 worldCD).users
          = worldCD.users.map (fun a => if isExpiredVip feb1 a then demote a else a)
        ∧ (checkVipExpirations (envMailFailsFor "c@example.com") feb1 worldCD).outbox
          = worldCD.outbox ++ (worldCD.users.filter (isExpiredVip feb1)).map reminderMail
              ++ ([] : List Account).map expirationMail) :=
  ⟨(checkVipExpirations_failure_ends_run (envMailFailsFor "a@example.com") feb1 worldABC
      (by decide) [] [accountB] accountA).1 (by decide) (by simp) (by decide),
    (checkVipExpirations_failure_ends_run (envMailFailsFor "c@example.com") feb1 worldCD
      (by decide) [] [accountD] accountC).2
      (by
        intro x hx hexp
        simp only [worldCD, List.mem_cons, List.mem_singleton, List.not_mem_nil, or_false] at hx
        rcases hx with rfl | rfl <;> exact absurd hexp (by decide))
      (by decide) (by simp) (by decide)⟩

/-! ## Claims on the fields of a demoted account -/

/-- C13 (as stated, refuted): the sweep of 2024-02-01 leaves `accountA` with isVip false but
still with its expiry date, duration 30 and payment 25. -/
theorem checkVipExpirations_keeps_metadata :
    (checkVipExpirations envOk feb1 worldA).users.map
        (fun a => (a.isVip, a.expires, a.duration, a.payment))
      = [(false, some 1706659200000, 30, .num 25)] := by
  rfl

/-- C13 (amended): every account that a toggleVipStatus request leaves in the store was there
before or is VIP or has vipPlan empty, activation null, expires null, duration 0 and
payment 0; and every account that a run of the sweep leaves in the store was there before
or is an account that was VIP with expires earlier than T, now with isVip false and vipPlan
null and with the expires, duration and payment it had before. -/
theorem lifecycle_inactive_fields (env : Env) (now lag T : Nat) (body : VipBody) (w : World) :
    (∀ a ∈ (toggleVipStatus env now lag body w).2.users,
        a ∈ w.users ∨ a.isVip = true
          ∨ (a.vipPlan = .str "" ∧ a.activation = none ∧ a.expires = none ∧ a.duration = 0
              ∧ a.payment = .num 0))
      ∧ ∀ a ∈ (checkVipExpirations env T w).users,
          a ∈ w.users ∨ ∃ u ∈ w.users, isExpiredVip T u = true ∧ a.id = u.id
            ∧ a.isVip = false ∧ a.vipPlan = .null
            ∧ a.expires = u.expires ∧ a.duration = u.duration ∧ a.payment = u.payment := by
  constructor
  · intro a ha
    rcases toggleVipStatus_users env now lag body w with h | ⟨b, found, _, _, hus⟩
    · left; rw [h] at ha; exact ha
    · rw [hus] at ha
      rcases mem_save _ _ _ ha with h | h
      · left; exact h
      · right
        subst h
        cases b
        · right; exact ⟨rfl, rfl, rfl, rfl, rfl⟩
        · left; rfl
  · intro a ha
    rw [checkVipExpirations_users] at ha
    rcases demoteLoop_mem env _ w a ha with h | ⟨u, hsel, hu⟩
    · left; exact h
    · right
      subst hu
      exact ⟨u, (List.mem_filter.mp hsel).1, (List.mem_filter.mp hsel).2,
        rfl, rfl, rfl, rfl, rfl, rfl⟩

/-- C14: in a store with unique ids, every account is after a run of the sweep either
unchanged or, having been VIP with expires earlier than T, changed in isVip, now false, and
vipPlan, now null, only: duration, expires, payment, activation and every other field are
as before. -/
theorem checkVipExpirations_frame (env : Env) (T : Nat) (w : World)
    (hnd : (w.users.map Account.id).Nodup) :
    List.Forall₂ (fun a b => b = a ∨ (isExpiredVip T a = true
        ∧ b.isVip = false ∧ b.vipPlan = .null
        ∧ b.duration = a.duration ∧ b.expires = a.expires ∧ b.payment = a.payment
        ∧ b.activation = a.activation ∧ b.id = a.id ∧ b.email = a.email
        ∧ b.username = a.username ∧ b.emailVerified = a.emailVerified
        ∧ b.createdAt = a.createdAt ∧ b.profileImage = a.profileImage
        ∧ b.isAdmin = a.isAdmin ∧ b.isAuthorized = a.isAuthorized))
      w.users (checkVipExpirations env T w).users := by
  obtain ⟨done, hpre, hres⟩ := checkVipExpirations_done env T w hnd
  rw [hres, List.forall₂_map_right_iff, List.forall₂_same]
  intro a _
  by_cases hin : a ∈ done
  · right
    have := (List.mem_filter.mp (hpre.subset hin)).2
    simp [hin, this, demote]
  · left
    simp [hin]

/-- Instance of the frame theorem: the sweep of 2024-02-01 over `worldAB`. -/
theorem checkVipExpirations_frame_witness :
    List.Forall₂ (fun a b => b = a ∨ (isExpiredVip feb1 a = true
        ∧ b.isVip = false ∧ b.vipPlan = .null
        ∧ b.duration = a.duration ∧ b.expires = a.expires ∧ b.payment = a.payment
        ∧ b.activation = a.activation ∧ b.id = a.id ∧ b.email = a.email
        ∧ b.username = a.username ∧ b.emailVerified = a.emailVerified
        ∧ b.createdAt = a.createdAt ∧ b.profileImage = a.profileImage
        ∧ b.isAdmin = a.isAdmin ∧ b.isAuthorized = a.isAuthorized))
      worldAB.users (checkVipExpirations envOk feb1 worldAB).users :=
  checkVipExpirations_frame envOk feb1 worldAB (by decide)

/-! ## Claims on repeated runs -/

/-- A run over a store without expired VIP accounts consists of the warning step alone. -/
theorem checkVipExpirations_no_expired (env : Env) (T : Nat) (w : World)
    (h : w.users.filter (isExpiredVip T) = []) :
    checkVipExpirations env T w
      = (warnLoop env (w.users.filter (isExpiringVip T)) w).2 := by
  unfold checkVipExpirations
  simp only [h, demoteLoop]

/-- C15 (as stated, refuted): with the mail transport failing, the first run at 2024-02-01
over `worldAB` demotes `accountA` only, and a second run at the same time demotes
`accountB`: two runs do not leave the store as one run does. -/
theorem checkVipExpirations_second_run_demotes :
    (checkVipExpirations envMailDown feb1 worldAB).users.map (fun a => (a.id, a.isVip))
        = [("a", false), ("b", true), ("u1", false)]
      ∧ (checkVipExpirations envMailDown feb1
          (checkVipExpirations envMailDown feb1 worldAB)).users.map (fun a => (a.id, a.isVip))
        = [("a", false), ("b", false), ("u1", false)] :=
  ⟨by rfl, by rfl⟩

/-- C15 (amended): in a store with unique ids, when the demotion of every expired account goes
through in the first run, a second run at the same time T finds no expired VIP account,
consists of the warning step alone, so that it demotes no account and sends no demotion
notice, and leaves every account as the first run left it. -/
theorem checkVipExpirations_idempotent (env : Env) (T : Nat) (w : World)
    (hnd : (w.users.map Account.id).Nodup)
    (hdem : ∀ u ∈ w.users, isExpiredVip T u = true → demotionOk env u = true) :
    (checkVipExpirations env T w).users.filter (isExpiredVip T) = []
      ∧ checkVipExpirations env T (checkVipExpirations env T w)
          = (warnLoop env ((checkVipExpirations env T w).users.filter (isExpiringVip T))
              (checkVipExpirations env T w)).2
      ∧ (checkVipExpirations env T (checkVipExpirations env T w)).users
          = (checkVipExpirations env T w).users := by
  have hus : (checkVipExpirations env T w).users
      = w.users.map (fun a => if isExpiredVip T a then demote a else a) := by
    rw [checkVipExpirations_users, demotion_step_ok env T w hnd hdem]
  have hnone : (checkVipExpirations env T w).users.filter (isExpiredVip T) = [] := by
    rw [hus, List.filter_eq_nil_iff]
    intro b hb
    obtain ⟨a, _, rfl⟩ := List.mem_map.mp hb
    by_cases hx : isExpiredVip T a = true
    · rw [if_pos hx]
      simp [isExpiredVip, demote]
    · rw [if_neg hx]
      exact hx
  have hrun := checkVipExpirations_no_expired env T (checkVipExpirations env T w) hnone
  refine ⟨hnone, hrun, ?_⟩
  rw [hrun, warnLoop_users]

/-- Instance of the idempotence theorem: two sweeps of 2024-02-01 over `worldABC`, every call
succeeding. -/
theorem checkVipExpirations_idempotent_witness :
    (checkVipExpirations envOk feb1 worldABC).users.filter (isExpiredVip feb1) = []
      ∧ checkVipExpirations envOk feb1 (checkVipExpirations envOk feb1 worldABC)
          = (warnLoop envOk
              ((checkVipExpirations envOk feb1 worldABC).users.filter (isExpiringVip feb1))
              (checkVipExpirations envOk feb1 worldABC)).2
      ∧ (checkVipExpirations envOk feb1 (checkVipExpirations envOk feb1 worldABC)).users
          = (checkVipExpirations envOk feb1 worldABC).users :=
  checkVipExpirations_idempotent envOk feb1 worldABC (by decide) (by
    intro u hu _
    simp only [worldABC, List.mem_cons, List.mem_singleton, List.not_mem_nil, or_false] at hu
    rcases hu with rfl | rfl | rfl <;> rfl)

/-- Instance of the inactive-fields theorem: the deactivation of `accountA` and the sweep of
2024-02-01 over `worldA`. -/
theorem lifecycle_inactive_fields_witness :
    (∀ a ∈ (toggleVipStatus envOk feb1 0 deactivateRequest worldA).2.users,
        a ∈ worldA.users ∨ a.isVip = true
          ∨ (a.vipPlan = .str "" ∧ a.activation = none ∧ a.expires = none ∧ a.duration = 0
              ∧ a.payment = .num 0))
      ∧ ∀ a ∈ (checkVipExpirations envOk feb1 worldA).users,
          a ∈ worldA.users ∨ ∃ u ∈ worldA.users, isExpiredVip feb1 u = true ∧ a.id = u.id
            ∧ a.isVip = false ∧ a.vipPlan = .null
            ∧ a.expires = u.expires ∧ a.duration = u.duration ∧ a.payment = u.payment :=
  lifecycle_inactive_fields envOk feb1 0 feb1 deactivateRequest worldA

/-! ## Claims on cleanupUnverifiedAccounts -/

theorem filterMap_profileImageSet_skip (user : Account) (rest : List Account)
    (h : profileImageSet user = none) :
    (user :: rest).filterMap profileImageSet = rest.filterMap profileImageSet := by
  rw [List.filterMap_cons, h]

theorem filterMap_profileImageSet_take (user : Account) (rest : List Account) (image : String)
    (h : profileImageSet user = some image) :
    (user :: rest).filterMap profileImageSet = image :: rest.filterMap profileImageSet := by
  rw [List.filterMap_cons, h]

/-- The cleanup loop records one outcome for every document with a non-empty profile image,
in order, whatever the outcomes are. -/
theorem cleanupImages_outcomes (scope : Scope) (parseUrl : String → Option Url) :
    ∀ (sel : List Account) (log : CleanupLog),
      (cleanupImages scope parseUrl sel log).outcomes.map Prod.fst
        = log.outcomes.map Prod.fst ++ sel.filterMap profileImageSet
  | [], log => by simp [cleanupImages]
  | user :: rest, log => by
    rw [cleanupImages]
    cases himg : user.profileImage with
    | none =>
      have hset : profileImageSet user = none := by simp [profileImageSet, himg]
      rw [filterMap_profileImageSet_skip user rest hset]
      exact cleanupImages_outcomes scope parseUrl rest log
    | some image =>
      by_cases hempty : image = ""
      · have hset : profileImageSet user = none := by simp [profileImageSet, himg, hempty]
        rw [filterMap_profileImageSet_skip user rest hset]
        simp only [hempty, if_true]
        exact cleanupImages_outcomes scope parseUrl rest log
      · have hset : profileImageSet user = some image := by
          simp [profileImageSet, himg, hempty]
        rw [filterMap_profileImageSet_take user rest image hset]
        simp only [hempty, if_false]
        rcases removeImageTry scope parseUrl image log.calls with ⟨r, calls⟩
        cases r with
        | error e =>
          simp only
          rw [cleanupImages_outcomes scope parseUrl rest]
          simp
        | ok v =>
          simp only
          rw [cleanupImages_outcomes scope parseUrl rest]
          simp

/-- In the module scope of `auth.js` the `try` block never reaches `removeObject`. -/
theorem removeImageTry_authScope (parseUrl : String → Option Url) (image : String)
    (calls : List StoreCall) :
    ∃ e, removeImageTry authScope parseUrl image calls = (.error e, calls) := by
  unfold removeImageTry
  cases parseUrl image with
  | none => exact ⟨_, rfl⟩
  | some url => exact ⟨_, rfl⟩

/-- In the module scope of `auth.js` the cleanup loop issues no call to the object store. -/
theorem cleanupImages_authScope (parseUrl : String → Option Url) :
    ∀ (sel : List Account) (log : CleanupLog),
      (cleanupImages authScope parseUrl sel log).calls = log.calls
  | [], log => by simp [cleanupImages]
  | user :: rest, log => by
    rw [cleanupImages]
    cases user.profileImage with
    | none => exact cleanupImages_authScope parseUrl rest log
    | some image =>
      by_cases hempty : image = ""
      · simp only [hempty, if_true]
        exact cleanupImages_authScope parseUrl rest log
      · simp only [hempty, if_false]
        obtain ⟨e, he⟩ := removeImageTry_authScope parseUrl image log.calls
        rw [he]
        simp only
        rw [cleanupImages_authScope parseUrl rest]

/-- C16: a run at time `now` keeps, in order and unmodified, exactly the accounts that are
verified or were created no earlier than six hours before `now`, and deletes the others: an
unverified account created seven hours ago is deleted, an unverified account created one hour
ago or exactly six hours ago is kept, and every verified account is kept whatever its age. -/
theorem cleanupUnverifiedAccounts_deletes (scope : Scope) (parseUrl : String → Option Url)
    (now : Nat) (users : List Account) :
    (cleanupUnverifiedAccounts scope parseUrl now users).users
        = users.filter (fun a => a.emailVerified || decide (now ≤ a.createdAt + 21600000))
      ∧ (∀ a ∈ users, a.emailVerified = false → a.createdAt + 7 * 3600000 = now →
          a ∉ (cleanupUnverifiedAccounts scope parseUrl now users).users)
      ∧ (∀ a ∈ users, a.createdAt + 3600000 = now ∨ a.createdAt + 6 * 3600000 = now →
          a ∈ (cleanupUnverifiedAccounts scope parseUrl now users).users)
      ∧ (∀ a ∈ users, a.emailVerified = true →
          a ∈ (cleanupUnverifiedAccounts scope parseUrl now users).users) := by
  have hfilter : (cleanupUnverifiedAccounts scope parseUrl now users).users
      = users.filter (fun a => a.emailVerified || decide (now ≤ a.createdAt + 21600000)) := by
    unfold cleanupUnverifiedAccounts
    simp only
    apply List.filter_congr
    intro a _
    cases hv : a.emailVerified
    · simp only [isStaleUnverified, hv, Bool.not_false, Bool.true_and, Bool.false_or]
      by_cases hlt : a.createdAt < now - 6 * 60 * 60 * 1000
      · have : ¬ now ≤ a.createdAt + 21600000 := by omega
        simp [hlt, this]
      · have : now ≤ a.createdAt + 21600000 := by omega
        simp [hlt, this]
    · simp [isStaleUnverified, hv]
  refine ⟨hfilter, ?_, ?_, ?_⟩
  · intro a _ hv hage
    rw [hfilter, List.mem_filter]
    intro hc
    have : ¬ now ≤ a.createdAt + 21600000 := by omega
    simp [hv, this] at hc
  · intro a ha hage
    rw [hfilter, List.mem_filter]
    have : now ≤ a.createdAt + 21600000 := by omega
    exact ⟨ha, by simp [this]⟩
  · intro a ha hv
    rw [hfilter, List.mem_filter]
    exact ⟨ha, by simp [hv]⟩

/-- Instance of the deletion theorem: the stale `staleB` is deleted, the fresh `freshE` and
the verified `alice` are kept. -/
theorem cleanupUnverifiedAccounts_deletes_witness :
    staleB ∉ (cleanupUnverifiedAccounts authScope demoParseUrl (7 * 3600000)
        [staleB, freshE, alice]).users
      ∧ alice ∈ (cleanupUnverifiedAccounts authScope demoParseUrl (7 * 3600000)
        [staleB, freshE, alice]).users :=
  ⟨(cleanupUnverifiedAccounts_deletes authScope demoParseUrl (7 * 3600000)
      [staleB, freshE, alice]).2.1 staleB (by decide) rfl (by decide),
    (cleanupUnverifiedAccounts_deletes authScope demoParseUrl (7 * 3600000)
      [staleB, freshE, alice]).2.2.2 alice (by decide) rfl⟩

/-- C17: run eight hours after the creation of the unverified account B of the scenario,
whose profile image lies in the object store, the job deletes the record of B but issues no
delete call to the object store: resolving `bucketName` throws a ReferenceError that the
inner `catch` logs. -/
theorem cleanupUnverifiedAccounts_no_store_call :
    isMinioUrl demoService staleB.profileImage = true
      ∧ (cleanupUnverifiedAccounts authScope demoParseUrl cleanupNow [staleB]).users = []
      ∧ (cleanupUnverifiedAccounts authScope demoParseUrl cleanupNow [staleB]).log
        = { calls := []
            outcomes := [(storedImage, some "ReferenceError: bucketName is not defined")] } :=
  ⟨by rfl, by rfl, by rfl⟩

/-- With `bucketName` and `minioClient` bound, the same run issues the one delete call for the
object key of the image. -/
theorem cleanupUnverifiedAccounts_bound_scope_call :
    (cleanupUnverifiedAccounts boundScope demoParseUrl cleanupNow [staleB]).log
      = { calls := [{ bucket := "tips", key := "profile_images/b-1.jpg" }]
          outcomes := [(storedImage, none)] } := by
  rfl

/-- As the code stands, no run of the cleanup job issues a call to the object store. -/
theorem cleanupUnverifiedAccounts_authScope_calls (parseUrl : String → Option Url) (now : Nat)
    (users : List Account) :
    (cleanupUnverifiedAccounts authScope parseUrl now users).log.calls = [] := by
  unfold cleanupUnverifiedAccounts
  simp only
  rw [cleanupImages_authScope]

/-- C18: whatever the URL parser, the bindings and the object store do for each image, a run
removes the record of every selected account, and the removal of the image of every selected
account with a non-empty profile image is tried exactly once, in order. -/
theorem cleanupUnverifiedAccounts_best_effort (scope : Scope)
    (parseUrl : String → Option Url) (now : Nat) (users : List Account) :
    (∀ a ∈ users, isStaleUnverified (now - 6 * 60 * 60 * 1000) a = true →
        a ∉ (cleanupUnverifiedAccounts scope parseUrl now users).users)
      ∧ (cleanupUnverifiedAccounts scope parseUrl now users).log.outcomes.map Prod.fst
        = (users.filter (isStaleUnverified (now - 6 * 60 * 60 * 1000))).filterMap
            profileImageSet := by
  constructor
  · intro a _ hsel hc
    unfold cleanupUnverifiedAccounts at hc
    simp only [List.mem_filter] at hc
    simp [hsel] at hc
  · unfold cleanupUnverifiedAccounts
    simp only
    rw [cleanupImages_outcomes]
    simp

/-- Instance of the best-effort theorem: two stale accounts whose image removals both fail in
the module scope of `auth.js`. -/
theorem cleanupUnverifiedAccounts_best_effort_witness :
    staleB ∉ (cleanupUnverifiedAccounts authScope demoParseUrl cleanupNow
        [staleB, { staleB with id := "sb2", profileImage := some "junk" }]).users
      ∧ (cleanupUnverifiedAccounts authScope demoParseUrl cleanupNow
          [staleB, { staleB with id := "sb2", profileImage := some "junk" }]).log.outcomes.map
            Prod.fst
        = ([staleB, { staleB with id := "sb2", profileImage := some "junk" }].filter
            (isStaleUnverified (cleanupNow - 6 * 60 * 60 * 1000))).filterMap
            profileImageSet :=
  ⟨(cleanupUnverifiedAccounts_best_effort authScope demoParseUrl cleanupNow
      [staleB, { staleB with id := "sb2", profileImage := some "junk" }]).1 staleB
      (by decide) (by decide),
    (cleanupUnverifiedAccounts_best_effort authScope demoParseUrl cleanupNow
      [staleB, { staleB with id := "sb2", profileImage := some "junk" }]).2⟩

/-! ## Claims on removeProfileImage -/

/-- A string that the `URL` constructor rejects is no URL of the object store. -/
theorem isMinioUrl_unparsable (svc : MinioService) (s : String) (h : svc.parseUrl s = none) :
    isMinioUrl svc (some s) = false := by
  unfold isMinioUrl
  by_cases hs : s = ""
  · simp [hs]
  · simp [hs, h]

/-- C19: `removeProfileImage` never throws; for a missing or empty URL it returns false without
a call to the store; for a non-empty URL that is not of the object store, among them every
string that does not parse as a URL, it returns true without a call to the store; and for a
URL of the object store whose `removeObject` call fails it returns false. -/
theorem removeProfileImage_contract (svc : MinioService) (imageUrl : Option String)
    (calls : List StoreCall) :
    (∃ b, (removeProfileImage svc imageUrl calls).1 = .ok b)
      ∧ (imageUrl = none ∨ imageUrl = some "" →
          removeProfileImage svc imageUrl calls = (.ok false, calls))
      ∧ (∀ s, imageUrl = some s → s ≠ "" → isMinioUrl svc imageUrl = false →
          removeProfileImage svc imageUrl calls = (.ok true, calls))
      ∧ (∀ s, imageUrl = some s → s ≠ "" → svc.parseUrl s = none →
          removeProfileImage svc imageUrl calls = (.ok true, calls))
      ∧ (∀ s url, imageUrl = some s → isMinioUrl svc imageUrl = true →
          svc.parseUrl s = some url →
          svc.removeOk svc.bucketName
              (jsSubstring url.pathname
                (jsIndexOf url.pathname svc.bucketName + svc.bucketName.length + 1)) = false →
          (removeProfileImage svc imageUrl calls).1 = .ok false) := by
  have hforeign : ∀ s, imageUrl = some s → s ≠ "" → isMinioUrl svc imageUrl = false →
      removeProfileImage svc imageUrl calls = (.ok true, calls) := by
    intro s hs hne hm
    subst hs
    simp [removeProfileImage, removeProfileImageTry, hne, hm]
  refine ⟨?_, ?_, hforeign, ?_, ?_⟩
  · unfold removeProfileImage
    rcases removeProfileImageTry svc imageUrl calls with ⟨r, c⟩
    cases r with
    | error e => exact ⟨false, rfl⟩
    | ok b => exact ⟨b, rfl⟩
  · intro h
    rcases h with h | h <;> subst h <;> simp [removeProfileImage, removeProfileImageTry]
  · intro s hs hne hp
    exact hforeign s hs hne (by rw [hs]; exact isMinioUrl_unparsable svc s hp)
  · intro s url hs hm hp hfail
    subst hs
    have hne : s ≠ "" := by
      intro hc
      simp [isMinioUrl, hc] at hm
    simp [removeProfileImage, removeProfileImageTry, hne, hm, hp, hfail]

/-- Instance of the contract of `removeProfileImage`: an empty URL, a foreign URL, a string
that is no URL, and a stored image whose removal the store refuses. -/
theorem removeProfileImage_contract_witness :
    removeProfileImage demoService (some "") [] = (.ok false, [])
      ∧ removeProfileImage demoService (some "https://cdn.example.org/avatar.png") []
        = (.ok true, [])
      ∧ removeProfileImage demoService (some "junk") [] = (.ok true, [])
      ∧ (removeProfileImage { demoService with removeOk := fun _ _ => false }
          (some storedImage) []).1 = .ok false :=
  ⟨(removeProfileImage_contract demoService (some "") []).2.1 (Or.inr rfl),
    (removeProfileImage_contract demoService (some "https://cdn.example.org/avatar.png")
      []).2.2.1 _ rfl (by decide) (by rfl),
    (removeProfileImage_contract demoService (some "junk") []).2.2.2.1 _ rfl (by decide)
      (by rfl),
    (removeProfileImage_contract { demoService with removeOk := fun _ _ => false }
      (some storedImage) []).2.2.2.2 _ _ rfl (by rfl) (by rfl) rfl⟩

/-! ## Claims on checkVIPAccess -/

/-- C20: `checkVIPAccess` returns true exactly when the user is present, is VIP and has no
expiry or an expiry not earlier than `now`; it never returns anything else, and it throws
with statusCode 401 for an absent user, 403 for a user who is not VIP, and 403 for a VIP
user whose expiry is earlier than `now`, whether or not the sweep has demoted the account. -/
theorem checkVIPAccess_spec (now : Nat) (user : Option Account) :
    (checkVIPAccess now user = .ok true ↔
        ∃ u, user = some u ∧ u.isVip = true
          ∧ (u.expires = none ∨ ∃ e, u.expires = some e ∧ now ≤ e))
      ∧ (checkVIPAccess now user = .ok true ∨ ∃ err, checkVIPAccess now user = .error err)
      ∧ (user = none →
          ∃ m, checkVIPAccess now user = .error { statusCode := 401, message := m })
      ∧ (∀ u, user = some u → u.isVip = false →
          ∃ m, checkVIPAccess now user = .error { statusCode := 403, message := m })
      ∧ (∀ u e, user = some u → u.isVip = true → u.expires = some e → e < now →
          ∃ m, checkVIPAccess now user = .error { statusCode := 403, message := m }) := by
  cases user with
  | none => simp [checkVIPAccess]
  | some u =>
    cases hv : u.isVip with
    | false => simp [checkVIPAccess, hv]
    | true =>
      cases he : u.expires with
      | none =>
        have hres : checkVIPAccess now (some u) = .ok true := by
          simp [checkVIPAccess, hv, he]
        refine ⟨⟨fun _ => ⟨u, rfl, hv, Or.inl he⟩, fun _ => hres⟩, Or.inl hres, ?_, ?_, ?_⟩
        · intro hc; cases hc
        · intro x hx hxv
          cases hx
          rw [hv] at hxv
          cases hxv
        · intro x e hx _ hxe
          cases hx
          rw [he] at hxe
          cases hxe
      | some e =>
        by_cases hlt : e < now
        · have hres : checkVIPAccess now (some u) = .error
              { statusCode := 403,
                message := "Your VIP subscription has expired. Please renew to access VIP predictions" } := by
            simp [checkVIPAccess, hv, he, hlt]
          refine ⟨⟨fun hc => ?_, fun hc => ?_⟩, Or.inr ⟨_, hres⟩, ?_, ?_, ?_⟩
          · rw [hres] at hc
            cases hc
          · obtain ⟨x, hx, _, hxe⟩ := hc
            cases hx
            rcases hxe with hxe | ⟨e2, hxe, hle⟩
            · rw [he] at hxe
              cases hxe
            · rw [he] at hxe
              cases hxe
              omega
          · intro hc; cases hc
          · intro x hx hxv
            cases hx
            rw [hv] at hxv
            cases hxv
          · intro x e2 _ _ _ _
            exact ⟨_, hres⟩
        · have hres : checkVIPAccess now (some u) = .ok true := by
            simp [checkVIPAccess, hv, he, hlt]
          refine ⟨⟨fun _ => ⟨u, rfl, hv, Or.inr ⟨e, he, by omega⟩⟩, fun _ => hres⟩,
            Or.inl hres, ?_, ?_, ?_⟩
          · intro hc; cases hc
          · intro x hx hxv
            cases hx
            rw [hv] at hxv
            cases hxv
          · intro x e2 hx _ hxe hlt2
            cases hx
            rw [he] at hxe
            cases hxe
            exact absurd hlt2 hlt

/-- Instance of the access theorem: on 2024-02-01 the expired but not yet demoted `accountA`
is refused with 403, and the soon expiring `accountC` is admitted. -/
theorem checkVIPAccess_spec_witness :
    (∃ m, checkVIPAccess feb1 (some accountA) = .error { statusCode := 403, message := m })
      ∧ checkVIPAccess feb1 (some accountC) = .ok true :=
  ⟨(checkVIPAccess_spec feb1 (some accountA)).2.2.2.2 accountA _ rfl rfl rfl (by decide),
    (checkVIPAccess_spec feb1 (some accountC)).1.mpr
      ⟨accountC, rfl, rfl, Or.inr ⟨_, rfl, by decide⟩⟩⟩

/-! ## Claims on validateFormations -/

theorem isFiveArray_iff (x : JsArg) :
    isFiveArray x = true ↔ ∃ items, x = .array items ∧ items.length = 5 := by
  cases x with
  | array items => simp [isFiveArray]
  | other v => simp [isFiveArray]

/-- C21: `validateFormations` returns true exactly when both arguments are arrays of five
elements and never returns anything else; when the first argument is not such an array it
throws the message about Formation A, whatever the second is, and when the first is and the
second is not it throws the message about Formation B. -/
theorem validateFormations_spec (formationA formationB : JsArg) :
    (validateFormations formationA formationB = .ok true ↔
        (∃ items, formationA = .array items ∧ items.length = 5)
          ∧ ∃ items, formationB = .array items ∧ items.length = 5)
      ∧ ((¬ ∃ items, formationA = .array items ∧ items.length = 5) →
          validateFormations formationA formationB
            = .error "Formation A must contain exactly 5 recent results")
      ∧ ((∃ items, formationA = .array items ∧ items.length = 5) →
          (¬ ∃ items, formationB = .array items ∧ items.length = 5) →
          validateFormations formationA formationB
            = .error "Formation B must contain exactly 5 recent results")
      ∧ validateFormations formationA formationB ≠ .ok false := by
  simp only [← isFiveArray_iff]
  unfold validateFormations
  cases ha : isFiveArray formationA <;> cases hb : isFiveArray formationB <;> simp

/-- Instance of the formation theorem: a first argument that is no array, next to a second
one of four elements, and two arrays of five elements. -/
theorem validateFormations_spec_witness :
    validateFormations (.other (.str "WWDLW")) (.array [.null, .null, .null, .null])
        = .error "Formation A must contain exactly 5 recent results"
      ∧ validateFormations (.array [.null, .null, .null, .null, .null])
          (.array [.null, .null, .null, .null, .null]) = .ok true :=
  ⟨(validateFormations_spec (.other (.str "WWDLW"))
      (.array [.null, .null, .null, .null])).2.1 (by simp),
    (validateFormations_spec (.array [.null, .null, .null, .null, .null])
      (.array [.null, .null, .null, .null, .null])).1.mpr
      ⟨⟨_, rfl, rfl⟩, ⟨_, rfl, rfl⟩⟩⟩

/-! ## Claims on deleteAccount -/

/-- A requester who is neither the target nor an administrator is refused before anything is
touched. -/
theorem deleteAccount_unauthorized (cfg : AuthConfig) (env : Env) (svc : MinioService)
    (deletionDate : String) (reqUser : ReqUser) (paramUserId : Option String) (s : Sys)
    (target : Account)
    (hfound : findById env s.users (.str (requestedId reqUser paramUserId)) = .ok (some target))
    (hother : reqUser.id ≠ target.id) (hadmin : reqUser.isAdmin = false) :
    deleteAccount cfg env svc deletionDate reqUser paramUserId s
      = ({ status := 403, message := "Unauthorized to delete this account", user := none },
         s) := by
  unfold deleteAccount
  simp [hfound, hother, hadmin]

/-- The default admin account is refused by `deleteAccount`, whoever asks. -/
theorem deleteAccount_default_admin (cfg : AuthConfig) (env : Env) (svc : MinioService)
    (deletionDate : String) (reqUser : ReqUser) (paramUserId : Option String) (s : Sys)
    (target : Account)
    (hfound : findById env s.users (.str (requestedId reqUser paramUserId)) = .ok (some target))
    (hdefault : isDefaultAdminEmail cfg target.email = true) :
    (deleteAccount cfg env svc deletionDate reqUser paramUserId s).1.status = 403
      ∧ (deleteAccount cfg env svc deletionDate reqUser paramUserId s).2 = s := by
  unfold deleteAccount
  simp only [hfound]
  split
  · exact ⟨rfl, rfl⟩
  · simp [hdefault]

/-- Whenever `deleteAccount` changes the state, the target was found and the requester is the
target or an administrator, and the target is not the default admin. -/
theorem deleteAccount_changes (cfg : AuthConfig) (env : Env) (svc : MinioService)
    (deletionDate : String) (reqUser : ReqUser) (paramUserId : Option String) (s : Sys)
    (hchg : (deleteAccount cfg env svc deletionDate reqUser paramUserId s).2 ≠ s) :
    ∃ target,
      findById env s.users (.str (requestedId reqUser paramUserId)) = .ok (some target)
        ∧ (reqUser.id = target.id ∨ reqUser.isAdmin = true)
        ∧ isDefaultAdminEmail cfg target.email = false := by
  unfold deleteAccount at hchg
  cases hf : findById env s.users (.str (requestedId reqUser paramUserId)) with
  | error e => simp [hf] at hchg
  | ok o =>
    cases o with
    | none => simp [hf] at hchg
    | some target =>
      simp only [hf] at hchg
      split at hchg
      · exact absurd rfl hchg
      · rename_i hg
        by_cases hd : isDefaultAdminEmail cfg target.email = true
        · simp [hd] at hchg
        · refine ⟨target, rfl, ?_, by simpa using hd⟩
          by_cases hid : reqUser.id = target.id
          · left; exact hid
          · right
            cases ha : reqUser.isAdmin
            · simp [hid, ha] at hg
            · rfl

/-- C23: when the account that the request targets is found and the requester is neither that
account nor an administrator, `deleteAccount` answers 403 and leaves the account collection,
the object store and the outbox as they were; and whenever `deleteAccount` changes any of
them, the requester is the target account or an administrator. -/
theorem deleteAccount_authorized_only (cfg : AuthConfig) (env : Env) (svc : MinioService)
    (deletionDate : String) (reqUser : ReqUser) (paramUserId : Option String) (s : Sys) :
    (∀ target,
        findById env s.users (.str (requestedId reqUser paramUserId)) = .ok (some target) →
        reqUser.id ≠ target.id → reqUser.isAdmin = false →
        deleteAccount cfg env svc deletionDate reqUser paramUserId s
          = ({ status := 403, message := "Unauthorized to delete this account",
               user := none }, s))
      ∧ ((deleteAccount cfg env svc deletionDate reqUser paramUserId s).2 ≠ s →
          ∃ target,
            findById env s.users (.str (requestedId reqUser paramUserId)) = .ok (some target)
              ∧ (reqUser.id = target.id ∨ reqUser.isAdmin = true)) := by
  refine ⟨fun target hf ho ha =>
    deleteAccount_unauthorized cfg env svc deletionDate reqUser paramUserId s target hf ho ha,
    fun hchg => ?_⟩
  obtain ⟨target, hf, hauth, _⟩ :=
    deleteAccount_changes cfg env svc deletionDate reqUser paramUserId s hchg
  exact ⟨target, hf, hauth⟩

/-- Instance of the authorization theorem: `alice`, no administrator, asks for the deletion of
the second administrator; and the second administrator deletes `alice`. -/
theorem deleteAccount_authorized_only_witness :
    deleteAccount demoConfig envOk demoService "2024-02-01" aliceReq (some "adm2") sysAdmins
        = ({ status := 403, message := "Unauthorized to delete this account", user := none },
           sysAdmins)
      ∧ ∃ target,
          findById envOk sysAdmins.users (.str (requestedId otherAdminReq (some "u1")))
              = .ok (some target)
            ∧ (otherAdminReq.id = target.id ∨ otherAdminReq.isAdmin = true) :=
  ⟨(deleteAccount_authorized_only demoConfig envOk demoService "2024-02-01" aliceReq
      (some "adm2") sysAdmins).1 otherAdmin rfl (by decide) rfl,
    (deleteAccount_authorized_only demoConfig envOk demoService "2024-02-01" otherAdminReq
      (some "u1") sysAdmins).2 (by decide)⟩

/-! ## Claims on the default admin account -/

/-- C22: with `ADMIN_EMAIL` set to "admin@example.com" and the default admin registered as
"Admin@Example.com", a bulk deletion by another administrator that lists the id of the
default admin is answered 200 with deletedCount 1, and the default admin account is gone:
the lookup of the default admin compares the stored address with the lower-cased
`ADMIN_EMAIL` letter by letter and finds nobody. -/
theorem bulkDeleteAccounts_deletes_default_admin :
    isDefaultAdminEmail demoConfig rootAdmin.email = true
      ∧ rootAdmin ∈ sysAdmins.users
      ∧ (bulkDeleteAccounts demoConfig envOk demoService "2024-02-01" otherAdminReq
          (some [.str "root"]) sysAdmins).1
        = { status := 200, message := "Bulk deletion completed",
            data := some { deletedCount := 1, failedCount := 0, failedDeletions := none } }
      ∧ (bulkDeleteAccounts demoConfig envOk demoService "2024-02-01" otherAdminReq
          (some [.str "root"]) sysAdmins).2.users = [otherAdmin, alice] :=
  ⟨by decide, by decide, by rfl, by rfl⟩

/-- When the lookup by the lower-cased `ADMIN_EMAIL` finds the default admin and the list
holds its id, the bulk deletion is refused with 403 and nothing is deleted. -/
theorem bulkDeleteAccounts_default_admin_found (cfg : AuthConfig) (env : Env)
    (svc : MinioService) (deletionDate : String) (requestingUser : ReqUser)
    (ids : List JsVal) (s : Sys) (d : Account) (hne : ids ≠ [])
    (hfind : s.users.find? (fun a => decide (a.email = cfg.toLowerCase cfg.adminEmail))
      = some d)
    (hin : JsVal.str d.id ∈ ids) :
    (bulkDeleteAccounts cfg env svc deletionDate requestingUser (some ids) s).1.status = 403
      ∧ (bulkDeleteAccounts cfg env svc deletionDate requestingUser (some ids) s).2 = s := by
  unfold bulkDeleteAccounts
  have hlen : ¬ ids.length = 0 := by
    intro hc
    exact hne (List.length_eq_zero.mp hc)
  simp only [hlen, if_false, hfind]
  cases requestingUser.isAdmin <;> simp [hin]

/-! ## Claims on toggleAdmin -/

/-- What `toggleAdmin` does once both lookups have returned documents. -/
theorem toggleAdmin_found (cfg : AuthConfig) (env : Env) (reqUser : ReqUser)
    (body : AdminBody) (w : World) (b : Bool) (r t : Account)
    (huid : body.userId.truthy = true) (hb : body.makeAdmin = .bool b)
    (hr : findById env w.users (.str reqUser.id) = .ok (some r)) (hadmin : r.isAdmin = true)
    (ht : findById env w.users body.userId = .ok (some t)) :
    toggleAdmin cfg env reqUser body w =
      if isDefaultAdminEmail cfg t.email then
        ({ status := 403, message := "Default admin status cannot be modified", user := none },
         w)
      else if !b && !r.isAuthorized then
        ({ status := 403, message := "Only authorized admin can remove admin privileges",
           user := none }, w)
      else if env.saveOk { t with isAdmin := b } then
        match sendAdminEmail env t.email t.username b w.outbox with
        | (.ok _, outbox) =>
          ({ status := 200
             message := if b then "Admin privileges granted" else "Admin privileges removed"
             user := some { t with isAdmin := b } },
           { users := save w.users { t with isAdmin := b }, outbox := outbox })
        | (.error e, outbox) =>
          ({ status := 500, message := e, user := none },
           { users := save w.users { t with isAdmin := b }, outbox := outbox })
      else
        ({ status := 500, message := "save failed", user := none }, w) := by
  unfold toggleAdmin
  simp [huid, hb, isBoolean_bool, truthy_bool, hr, hadmin, ht]

/-- The refusals of `toggleAdmin` that come before the lookup of the target. -/
theorem toggleAdmin_early (cfg : AuthConfig) (env : Env) (reqUser : ReqUser)
    (body : AdminBody) (w : World) :
    (body.userId.truthy = false ∨ body.makeAdmin.isBoolean = false →
        toggleAdmin cfg env reqUser body w
          = ({ status := 400, message := "Invalid request parameters", user := none }, w))
      ∧ (body.userId.truthy = true → body.makeAdmin.isBoolean = true →
          ∀ e, findById env w.users (.str reqUser.id) = .error e →
          toggleAdmin cfg env reqUser body w
            = ({ status := 500, message := e, user := none }, w))
      ∧ (body.userId.truthy = true → body.makeAdmin.isBoolean = true →
          findById env w.users (.str reqUser.id) = .ok none →
          toggleAdmin cfg env reqUser body w
            = ({ status := 403, message := "Only admins can modify admin privileges",
                 user := none }, w))
      ∧ (body.userId.truthy = true → body.makeAdmin.isBoolean = true →
          ∀ r, findById env w.users (.str reqUser.id) = .ok (some r) → r.isAdmin = false →
          toggleAdmin cfg env reqUser body w
            = ({ status := 403, message := "Only admins can modify admin privileges",
                 user := none }, w))
      ∧ (body.userId.truthy = true → body.makeAdmin.isBoolean = true →
          ∀ r, findById env w.users (.str reqUser.id) = .ok (some r) → r.isAdmin = true →
          (∀ e, findById env w.users body.userId = .error e →
            toggleAdmin cfg env reqUser body w
              = ({ status := 500, message := e, user := none }, w))
          ∧ (findById env w.users body.userId = .ok none →
            toggleAdmin cfg env reqUser body w
              = ({ status := 404, message := "User not found", user := none }, w))) := by
  refine ⟨?_, ?_, ?_, ?_, ?_⟩
  · intro h
    unfold toggleAdmin
    rcases h with h | h <;> simp [h]
  · intro h1 h2 e he
    unfold toggleAdmin
    simp [h1, h2, he]
  · intro h1 h2 he
    unfold toggleAdmin
    simp [h1, h2, he]
  · intro h1 h2 r he hr
    unfold toggleAdmin
    simp [h1, h2, he, hr]
  · intro h1 h2 r he hr
    constructor
    · intro e hte
      unfold toggleAdmin
      simp [h1, h2, he, hr, hte]
    · intro hte
      unfold toggleAdmin
      simp [h1, h2, he, hr, hte]

/-- Whenever `toggleAdmin` changes the state or answers 200, the request is well formed,
the requester is found and is an administrator, the target is found and is not the default
admin, the requester is authorized when `makeAdmin` is false, and the account collection
after the request is the collection before with the `isAdmin` field of the target set to
`makeAdmin` and nothing else changed; and when both lookups return and these conditions do not
all hold, the answer is 400, 403 or 404 and the state is unchanged. -/
theorem toggleAdmin_guarded (cfg : AuthConfig) (env : Env) (reqUser : ReqUser)
    (body : AdminBody) (w : World) :
    ((toggleAdmin cfg env reqUser body w).2 ≠ w
          ∨ (toggleAdmin cfg env reqUser body w).1.status = 200 →
        ∃ b r t, body.userId.truthy = true ∧ body.makeAdmin = .bool b
          ∧ findById env w.users (.str reqUser.id) = .ok (some r) ∧ r.isAdmin = true
          ∧ findById env w.users body.userId = .ok (some t)
          ∧ isDefaultAdminEmail cfg t.email = false
          ∧ (b = false → r.isAuthorized = true)
          ∧ (toggleAdmin cfg env reqUser body w).2.users = save w.users { t with isAdmin := b })
      ∧ (∀ ro tg, findById env w.users (.str reqUser.id) = .ok ro →
          findById env w.users body.userId = .ok tg →
          (¬ ∃ b r t, body.userId.truthy = true ∧ body.makeAdmin = .bool b
              ∧ ro = some r ∧ r.isAdmin = true ∧ tg = some t
              ∧ isDefaultAdminEmail cfg t.email = false
              ∧ (b = false → r.isAuthorized = true)) →
          ((toggleAdmin cfg env reqUser body w).1.status = 400
              ∨ (toggleAdmin cfg env reqUser body w).1.status = 403
              ∨ (toggleAdmin cfg env reqUser body w).1.status = 404)
            ∧ (toggleAdmin cfg env reqUser body w).2 = w) := by
  obtain ⟨hinvalid, hreqErr, hreqNone, hreqNot, htarget⟩ :=
    toggleAdmin_early cfg env reqUser body w
  by_cases hvalid : body.userId.truthy = true ∧ body.makeAdmin.isBoolean = true
  swap
  · have heq := hinvalid (by
      by_cases h1 : body.userId.truthy = true
      · right
        simpa using fun h2 => hvalid ⟨h1, h2⟩
      · left
        simpa using h1)
    rw [heq]
    refine ⟨fun h => ?_, fun _ _ _ _ _ => ⟨Or.inl rfl, rfl⟩⟩
    rcases h with h | h
    · exact absurd rfl h
    · simp at h
  obtain ⟨huid, hbool⟩ := hvalid
  obtain ⟨b, hb⟩ : ∃ b, body.makeAdmin = .bool b := by
    cases hm : body.makeAdmin <;> simp [hm, JsVal.isBoolean] at hbool
    exact ⟨_, rfl⟩
  cases hr : findById env w.users (.str reqUser.id) with
  | error e =>
    rw [hreqErr huid hbool e hr]
    refine ⟨fun h => ?_, fun ro _ hro => by cases hro⟩
    rcases h with h | h
    · exact absurd rfl h
    · simp at h
  | ok ro =>
    cases ro with
    | none =>
      rw [hreqNone huid hbool hr]
      refine ⟨fun h => ?_, fun _ _ _ _ _ => ⟨Or.inr (Or.inl rfl), rfl⟩⟩
      rcases h with h | h
      · exact absurd rfl h
      · simp at h
    | some r =>
      cases hadmin : r.isAdmin with
      | false =>
        rw [hreqNot huid hbool r hr hadmin]
        refine ⟨fun h => ?_, fun _ _ _ _ _ => ⟨Or.inr (Or.inl rfl), rfl⟩⟩
        rcases h with h | h
        · exact absurd rfl h
        · simp at h
      | true =>
        obtain ⟨htErr, htNone⟩ := htarget huid hbool r hr hadmin
        cases ht : findById env w.users body.userId with
        | error e =>
          rw [htErr e ht]
          refine ⟨fun h => ?_, fun _ tg _ htg => by cases htg⟩
          rcases h with h | h
          · exact absurd rfl h
          · simp at h
        | ok tg =>
          cases tg with
          | none =>
            rw [htNone ht]
            refine ⟨fun h => ?_, fun _ _ _ _ _ => ⟨Or.inr (Or.inr rfl), rfl⟩⟩
            rcases h with h | h
            · exact absurd rfl h
            · simp at h
          | some t =>
            rw [toggleAdmin_found cfg env reqUser body w b r t huid hb hr hadmin ht]
            by_cases hdef : isDefaultAdminEmail cfg t.email = true
            · rw [if_pos hdef]
              refine ⟨fun h => ?_, fun _ _ _ _ _ => ⟨Or.inr (Or.inl rfl), rfl⟩⟩
              rcases h with h | h
              · exact absurd rfl h
              · simp at h
            · rw [if_neg hdef]
              by_cases hauth : (!b && !r.isAuthorized) = true
              · rw [if_pos hauth]
                refine ⟨fun h => ?_, fun _ _ _ _ _ => ⟨Or.inr (Or.inl rfl), rfl⟩⟩
                rcases h with h | h
                · exact absurd rfl h
                · simp at h
              · rw [if_neg hauth]
                have hdef2 : isDefaultAdminEmail cfg t.email = false := by simpa using hdef
                have hauth2 : b = false → r.isAuthorized = true := by
                  intro hbf
                  cases hz : r.isAuthorized
                  · simp [hbf, hz] at hauth
                  · rfl
                have hcond : ∀ ro tg, Except.ok (some r) = (Except.ok ro : Except String _) →
                    Except.ok (some t) = (Except.ok tg : Except String _) →
                    ∃ b r t, body.userId.truthy = true ∧ body.makeAdmin = .bool b
                      ∧ ro = some r ∧ r.isAdmin = true ∧ tg = some t
                      ∧ isDefaultAdminEmail cfg t.email = false
                      ∧ (b = false → r.isAuthorized = true) := by
                  intro ro tg hro htg
                  cases hro
                  cases htg
                  exact ⟨b, r, t, huid, hb, rfl, hadmin, rfl, hdef2, hauth2⟩
                by_cases hs : env.saveOk { t with isAdmin := b } = true
                · rw [if_pos hs]
                  rcases sendAdminEmail env t.email t.username b w.outbox with ⟨res, out⟩
                  cases res with
                  | error e =>
                    exact ⟨fun _ => ⟨b, r, t, huid, hb, rfl, hadmin, rfl, hdef2, hauth2, rfl⟩,
                      fun ro tg hro htg hn => absurd (hcond ro tg hro htg) hn⟩
                  | ok v =>
                    exact ⟨fun _ => ⟨b, r, t, huid, hb, rfl, hadmin, rfl, hdef2, hauth2, rfl⟩,
                      fun ro tg hro htg hn => absurd (hcond ro tg hro htg) hn⟩
                · rw [if_neg hs]
                  refine ⟨fun h => ?_,
                    fun ro tg hro htg hn => absurd (hcond ro tg hro htg) hn⟩
                  rcases h with h | h
                  · exact absurd rfl h
                  · simp at h

/-- Instance of the theorem on `toggleAdmin`: the second administrator grants `alice` admin
rights, and `alice` as requester is refused with 403. -/
theorem toggleAdmin_guarded_witness :
    (∃ b r t, (JsVal.str "u1").truthy = true ∧ JsVal.bool true = .bool b
        ∧ findById envOk sysAdmins.users (.str otherAdminReq.id) = .ok (some r)
        ∧ r.isAdmin = true
        ∧ findById envOk sysAdmins.users (.str "u1") = .ok (some t)
        ∧ isDefaultAdminEmail demoConfig t.email = false
        ∧ (b = false → r.isAuthorized = true)
        ∧ (toggleAdmin demoConfig envOk otherAdminReq
            { userId := .str "u1", makeAdmin := .bool true }
            { users := sysAdmins.users, outbox := [] }).2.users
          = save sysAdmins.users { t with isAdmin := b })
      ∧ (((toggleAdmin demoConfig envOk aliceReq
            { userId := .str "adm2", makeAdmin := .bool false }
            { users := sysAdmins.users, outbox := [] }).1.status = 400
          ∨ (toggleAdmin demoConfig envOk aliceReq
            { userId := .str "adm2", makeAdmin := .bool false }
            { users := sysAdmins.users, outbox := [] }).1.status = 403
          ∨ (toggleAdmin demoConfig envOk aliceReq
            { userId := .str "adm2", makeAdmin := .bool false }
            { users := sysAdmins.users, outbox := [] }).1.status = 404)
        ∧ (toggleAdmin demoConfig envOk aliceReq
            { userId := .str "adm2", makeAdmin := .bool false }
            { users := sysAdmins.users, outbox := [] }).2
          = { users := sysAdmins.users, outbox := [] }) :=
  ⟨(toggleAdmin_guarded demoConfig envOk otherAdminReq
      { userId := .str "u1", makeAdmin := .bool true }
      { users := sysAdmins.users, outbox := [] }).1 (Or.inr (by decide)),
    (toggleAdmin_guarded demoConfig envOk aliceReq
      { userId := .str "adm2", makeAdmin := .bool false }
      { users := sysAdmins.users, outbox := [] }).2 (some alice) (some otherAdmin) rfl rfl
      (by
        rintro ⟨b, r, t, _, _, hr, hadm, _⟩
        cases hr
        exact absurd hadm (by decide))⟩

/-- C24 (as stated, refuted): the second administrator asks to make the userId "ghost" an
administrator; no account carries that id and the lookup cannot cast it, and the answer is
500, not 400, 403 or 404. The state is unchanged. -/
theorem toggleAdmin_unknown_id_is_500 :
    (∀ a ∈ sysAdmins.users, JsVal.str a.id ≠ .str "ghost")
      ∧ (toggleAdmin demoConfig (envIdRejected "ghost") otherAdminReq
          { userId := .str "ghost", makeAdmin := .bool true }
          { users := sysAdmins.users, outbox := [] }).1.status = 500
      ∧ (toggleAdmin demoConfig (envIdRejected "ghost") otherAdminReq
          { userId := .str "ghost", makeAdmin := .bool true }
          { users := sysAdmins.users, outbox := [] }).2
        = { users := sysAdmins.users, outbox := [] } := by
  decide

/-- C24 (amended): whenever `toggleAdmin` changes the state or answers 200, the request is
well formed, the requester is found and is an administrator, the target is found and is not
the default admin, the requester is authorized when `makeAdmin` is false, and the account
collection after the request is the collection before with the `isAdmin` field of the target
set to `makeAdmin` and nothing else changed; and in every other case the state is unchanged
and the answer is 400, 403 or 404, or it is 500 and one of the two lookups has thrown. -/
theorem toggleAdmin_guarded_or_500 (cfg : AuthConfig) (env : Env) (reqUser : ReqUser)
    (body : AdminBody) (w : World) :
    ((toggleAdmin cfg env reqUser body w).2 ≠ w
          ∨ (toggleAdmin cfg env reqUser body w).1.status = 200 →
        ∃ b r t, body.userId.truthy = true ∧ body.makeAdmin = .bool b
          ∧ findById env w.users (.str reqUser.id) = .ok (some r) ∧ r.isAdmin = true
          ∧ findById env w.users body.userId = .ok (some t)
          ∧ isDefaultAdminEmail cfg t.email = false
          ∧ (b = false → r.isAuthorized = true)
          ∧ (toggleAdmin cfg env reqUser body w).2.users = save w.users { t with isAdmin := b })
      ∧ ((¬ ∃ b r t, body.userId.truthy = true ∧ body.makeAdmin = .bool b
              ∧ findById env w.users (.str reqUser.id) = .ok (some r) ∧ r.isAdmin = true
              ∧ findById env w.users body.userId = .ok (some t)
              ∧ isDefaultAdminEmail cfg t.email = false
              ∧ (b = false → r.isAuthorized = true)) →
          (toggleAdmin cfg env reqUser body w).2 = w
            ∧ ((toggleAdmin cfg env reqUser body w).1.status = 400
              ∨ (toggleAdmin cfg env reqUser body w).1.status = 403
              ∨ (toggleAdmin cfg env reqUser body w).1.status = 404
              ∨ ((toggleAdmin cfg env reqUser body w).1.status = 500
                ∧ ((∃ e, findById env w.users (.str reqUser.id) = .error e)
                  ∨ ∃ e, findById env w.users body.userId = .error e)))) := by
  refine ⟨(toggleAdmin_guarded cfg env reqUser body w).1, fun hn => ?_⟩
  obtain ⟨hinvalid, hreqErr, hreqNone, hreqNot, htarget⟩ :=
    toggleAdmin_early cfg env reqUser body w
  by_cases hvalid : body.userId.truthy = true ∧ body.makeAdmin.isBoolean = true
  swap
  · have heq := hinvalid (by
      by_cases h1 : body.userId.truthy = true
      · right
        simpa using fun h2 => hvalid ⟨h1, h2⟩
      · left
        simpa using h1)
    rw [heq]
    exact ⟨rfl, Or.inl rfl⟩
  obtain ⟨huid, hbool⟩ := hvalid
  rcases hr : findById env w.users (.str reqUser.id) with e | ro
  · rw [hreqErr huid hbool e hr]
    exact ⟨rfl, Or.inr (Or.inr (Or.inr ⟨rfl, Or.inl ⟨e, rfl⟩⟩))⟩
  · rcases ht : findById env w.users body.userId with e | tg
    · rcases ro with _ | r
      · rw [hreqNone huid hbool hr]
        exact ⟨rfl, Or.inr (Or.inl rfl)⟩
      · cases hadmin : r.isAdmin with
        | false =>
          rw [hreqNot huid hbool r hr hadmin]
          exact ⟨rfl, Or.inr (Or.inl rfl)⟩
        | true =>
          rw [(htarget huid hbool r hr hadmin).1 e ht]
          exact ⟨rfl, Or.inr (Or.inr (Or.inr ⟨rfl, Or.inr ⟨e, rfl⟩⟩))⟩
    · have h := (toggleAdmin_guarded cfg env reqUser body w).2 ro tg hr ht (by
        rintro ⟨b, r, t, h1, h2, h3, h4, h5, h6, h7⟩
        subst h3
        subst h5
        exact hn ⟨b, r, t, h1, h2, hr, h4, ht, h6, h7⟩)
      rcases h with ⟨h400 | h403 | h404, hw⟩
      · exact ⟨hw, Or.inl h400⟩
      · exact ⟨hw, Or.inr (Or.inl h403)⟩
      · exact ⟨hw, Or.inr (Or.inr (Or.inl h404))⟩

/-- Instance of the amended theorem on `toggleAdmin`: the second administrator grants `alice`
admin rights, and the request for the userId "ghost", on which the lookup throws, is answered
500 with the state unchanged. -/
theorem toggleAdmin_guarded_or_500_witness :
    (∃ b r t, (JsVal.str "u1").truthy = true ∧ JsVal.bool true = .bool b
        ∧ findById envOk sysAdmins.users (.str otherAdminReq.id) = .ok (some r)
        ∧ r.isAdmin = true
        ∧ findById envOk sysAdmins.users (.str "u1") = .ok (some t)
        ∧ isDefaultAdminEmail demoConfig t.email = false
        ∧ (b = false → r.isAuthorized = true)
        ∧ (toggleAdmin demoConfig envOk otherAdminReq
            { userId := .str "u1", makeAdmin := .bool true }
            { users := sysAdmins.users, outbox := [] }).2.users
          = save sysAdmins.users { t with isAdmin := b })
      ∧ ((toggleAdmin demoConfig (envIdRejected "ghost") otherAdminReq
            { userId := .str "ghost", makeAdmin := .bool true }
            { users := sysAdmins.users, outbox := [] }).2
          = { users := sysAdmins.users, outbox := [] }
        ∧ ((toggleAdmin demoConfig (envIdRejected "ghost") otherAdminReq
              { userId := .str "ghost", makeAdmin := .bool true }
              { users := sysAdmins.users, outbox := [] }).1.status = 400
          ∨ (toggleAdmin demoConfig (envIdRejected "ghost") otherAdminReq
              { userId := .str "ghost", makeAdmin := .bool true }
              { users := sysAdmins.users, outbox := [] }).1.status = 403
          ∨ (toggleAdmin demoConfig (envIdRejected "ghost") otherAdminReq
              { userId := .str "ghost", makeAdmin := .bool true }
              { users := sysAdmins.users, outbox := [] }).1.status = 404
          ∨ ((toggleAdmin demoConfig (envIdRejected "ghost") otherAdminReq
                { userId := .str "ghost", makeAdmin := .bool true }
                { users := sysAdmins.users, outbox := [] }).1.status = 500
            ∧ ((∃ e, findById (envIdRejected "ghost") sysAdmins.users (.str otherAdminReq.id)
                  = .error e)
              ∨ ∃ e, findById (envIdRejected "ghost") sysAdmins.users (.str "ghost")
                  = .error e)))) :=
  ⟨(toggleAdmin_guarded_or_500 demoConfig envOk otherAdminReq
      { userId := .str "u1", makeAdmin := .bool true }
      { users := sysAdmins.users, outbox := [] }).1 (Or.inr (by decide)),
    (toggleAdmin_guarded_or_500 demoConfig (envIdRejected "ghost") otherAdminReq
      { userId := .str "ghost", makeAdmin := .bool true }
      { users := sysAdmins.users, outbox := [] }).2
      (by
        rintro ⟨b, r, t, _, _, _, _, ht, _⟩
        have h0 : findById (envIdRejected "ghost") sysAdmins.users (.str "ghost")
            = .error "Cast to ObjectId failed" := by rfl
        cases h0.symm.trans ht)⟩

/-! ## Claims on bulkDeleteAccounts -/

theorem findById_error (env : Env) (users : List Account) (v : JsVal) (e : String)
    (h : findById env users v = .error e) : env.idOk v = false := by
  unfold findById at h
  cases hid : env.idOk v
  · rfl
  · simp [hid] at h

theorem mem_findByIdAndDelete (users : List Account) (v : JsVal) (a : Account)
    (h : a ∈ findByIdAndDelete users v) : a ∈ users ∧ JsVal.str a.id ≠ v := by
  unfold findByIdAndDelete at h
  obtain ⟨h1, h2⟩ := List.mem_filter.mp h
  exact ⟨h1, by simpa using h2⟩

/-- One pass of the loop files the id under exactly one of the two arrays, only removes
documents, leaves no document with a well-formed id of the pass, and files the id as deleted
only after removing a document that carried it. -/
theorem bulkDeleteOne_spec (cfg : AuthConfig) (env : Env) (svc : MinioService)
    (deletionDate : String) (v : JsVal) (st : BulkState) :
    (bulkDeleteOne cfg env svc deletionDate v st).sys.users.Sublist st.sys.users
      ∧ (env.idOk v = true →
          ∀ a ∈ (bulkDeleteOne cfg env svc deletionDate v st).sys.users, JsVal.str a.id ≠ v)
      ∧ (((bulkDeleteOne cfg env svc deletionDate v st).deletedUsers = st.deletedUsers ++ [v]
            ∧ (bulkDeleteOne cfg env svc deletionDate v st).failedDeletions
                = st.failedDeletions
            ∧ (∃ a ∈ st.sys.users, JsVal.str a.id = v)
            ∧ ∀ a ∈ (bulkDeleteOne cfg env svc deletionDate v st).sys.users,
                JsVal.str a.id ≠ v)
          ∨ ((bulkDeleteOne cfg env svc deletionDate v st).deletedUsers = st.deletedUsers
            ∧ ∃ e, (bulkDeleteOne cfg env svc deletionDate v st).failedDeletions
                = st.failedDeletions ++ [(v, e)])) := by
  unfold bulkDeleteOne
  cases hf : findById env st.sys.users v with
  | error e =>
    have hid := findById_error env _ v e hf
    refine ⟨List.Sublist.refl _, fun hc => ?_, Or.inr ⟨rfl, e, rfl⟩⟩
    rw [hid] at hc
    cases hc
  | ok o =>
    obtain ⟨_, hfind⟩ := findById_ok env _ v o hf
    cases o with
    | none =>
      refine ⟨List.Sublist.refl _, fun _ a ha hc => ?_, Or.inr ⟨rfl, _, rfl⟩⟩
      have := List.find?_eq_none.mp hfind a ha
      simp [hc] at this
    | some user =>
      have huser : user ∈ st.sys.users := List.mem_of_find?_eq_some hfind
      have hid : JsVal.str user.id = v := by
        simpa using List.find?_some hfind
      have hsub : (findByIdAndDelete st.sys.users v).Sublist st.sys.users :=
        List.filter_sublist _
      have hgone : ∀ a ∈ findByIdAndDelete st.sys.users v, JsVal.str a.id ≠ v :=
        fun a ha => (mem_findByIdAndDelete _ _ _ ha).2
      simp only
      rcases deleteAccountEmail cfg env user.email user.username true true deletionDate
          st.sys.outbox with ⟨res, out⟩
      cases res with
      | error e => exact ⟨hsub, fun _ => hgone, Or.inr ⟨rfl, e, rfl⟩⟩
      | ok u => exact ⟨hsub, fun _ => hgone, Or.inl ⟨rfl, rfl, ⟨user, huser, hid⟩, hgone⟩⟩

/-- The loop files every listed id under exactly one of the two arrays and keeps what the
passes established, whatever the outcome of each pass. -/
theorem bulkDeleteLoop_spec (cfg : AuthConfig) (env : Env) (svc : MinioService)
    (deletionDate : String) (base : List Account) :
    ∀ (ids : List JsVal) (st : BulkState),
      st.sys.users.Sublist base →
      (∀ v ∈ st.deletedUsers,
        (∃ a ∈ base, JsVal.str a.id = v) ∧ ∀ a ∈ st.sys.users, JsVal.str a.id ≠ v) →
      (bulkDeleteLoop cfg env svc deletionDate ids st).sys.users.Sublist st.sys.users
        ∧ ((bulkDeleteLoop cfg env svc deletionDate ids st).deletedUsers
              ++ (bulkDeleteLoop cfg env svc deletionDate ids st).failedDeletions.map
                  Prod.fst).Perm
            ((st.deletedUsers ++ st.failedDeletions.map Prod.fst) ++ ids)
        ∧ (∀ v ∈ (bulkDeleteLoop cfg env svc deletionDate ids st).deletedUsers,
            (∃ a ∈ base, JsVal.str a.id = v)
              ∧ ∀ a ∈ (bulkDeleteLoop cfg env svc deletionDate ids st).sys.users,
                  JsVal.str a.id ≠ v)
        ∧ (∀ v ∈ ids, env.idOk v = true →
            ∀ a ∈ (bulkDeleteLoop cfg env svc deletionDate ids st).sys.users,
              JsVal.str a.id ≠ v)
  | [], st, _, hdel => by
    simp only [bulkDeleteLoop, List.append_nil]
    exact ⟨List.Sublist.refl _, List.Perm.refl _, hdel, fun _ hv => by cases hv⟩
  | id1 :: rest, st, hsub, hdel => by
    obtain ⟨h1sub, h1gone, h1class⟩ := bulkDeleteOne_spec cfg env svc deletionDate id1 st
    have hdel1 : ∀ v ∈ (bulkDeleteOne cfg env svc deletionDate id1 st).deletedUsers,
        (∃ a ∈ base, JsVal.str a.id = v)
          ∧ ∀ a ∈ (bulkDeleteOne cfg env svc deletionDate id1 st).sys.users,
              JsVal.str a.id ≠ v := by
      intro v hv
      rcases h1class with ⟨hd, _, ⟨a, ha, hav⟩, hg⟩ | ⟨hd, _⟩
      · rw [hd, List.mem_append, List.mem_singleton] at hv
        rcases hv with hv | hv
        · exact ⟨(hdel v hv).1, fun a ha => (hdel v hv).2 a (h1sub.subset ha)⟩
        · subst hv
          exact ⟨⟨a, hsub.subset ha, hav⟩, hg⟩
      · rw [hd] at hv
        exact ⟨(hdel v hv).1, fun a ha => (hdel v hv).2 a (h1sub.subset ha)⟩
    obtain ⟨h2sub, h2perm, h2del, h2gone⟩ :=
      bulkDeleteLoop_spec cfg env svc deletionDate base rest
        (bulkDeleteOne cfg env svc deletionDate id1 st) (h1sub.trans hsub) hdel1
    rw [bulkDeleteLoop]
    refine ⟨h2sub.trans h1sub, ?_, h2del, ?_⟩
    · refine h2perm.trans ?_
      rcases h1class with ⟨hd, hfl, _, _⟩ | ⟨hd, e, hfl⟩
      · rw [hd, hfl]
        simp only [List.append_assoc, List.singleton_append]
        refine List.Perm.append_left _ ?_
        exact List.perm_middle.symm
      · rw [hd, hfl]
        simp only [List.map_append, List.map_cons, List.map_nil, List.append_assoc,
          List.singleton_append]
        exact List.Perm.refl _
    · intro v hv hok a ha
      rcases List.mem_cons.mp hv with hv | hv
      · subst hv
        exact h1gone hok a (h2sub.subset ha)
      · exact h2gone v hv hok a ha

/-- C28: for a non-empty list submitted by an administrator that does not trigger the
default-admin rejection, the answer is 200 with the lengths of the two arrays of the loop as
deletedCount and failedCount; the two arrays together hold the listed ids, each as often as
it is listed, so that deletedCount + failedCount is the length of the list; an id is filed as
deleted only if an account carried it and no account carries it afterwards; no account with a
listed well-formed id is left, whatever happened in the passes of the other ids; and no
account is added or changed. -/
theorem bulkDeleteAccounts_classifies (cfg : AuthConfig) (env : Env) (svc : MinioService)
    (deletionDate : String) (requestingUser : ReqUser) (ids : List JsVal) (s : Sys)
    (hne : ids ≠ []) (hadmin : requestingUser.isAdmin = true)
    (hguard : (match s.users.find?
          (fun a => decide (a.email = cfg.toLowerCase cfg.adminEmail)) with
        | some d => decide (JsVal.str d.id ∈ ids)
        | none => false) = false) :
    ∃ st, st = bulkDeleteLoop cfg env svc deletionDate ids
          { sys := s, deletedUsers := [], failedDeletions := [] }
      ∧ bulkDeleteAccounts cfg env svc deletionDate requestingUser (some ids) s
          = ({ status := 200
               message := "Bulk deletion completed"
               data := some
                 { deletedCount := st.deletedUsers.length
                   failedCount := st.failedDeletions.length
                   failedDeletions :=
                     if st.failedDeletions.length > 0 then some st.failedDeletions else none } },
             st.sys)
      ∧ (st.deletedUsers ++ st.failedDeletions.map Prod.fst).Perm ids
      ∧ st.deletedUsers.length + st.failedDeletions.length = ids.length
      ∧ (∀ v ∈ st.deletedUsers,
          (∃ a ∈ s.users, JsVal.str a.id = v) ∧ ∀ a ∈ st.sys.users, JsVal.str a.id ≠ v)
      ∧ (∀ v ∈ ids, env.idOk v = true → ∀ a ∈ st.sys.users, JsVal.str a.id ≠ v)
      ∧ st.sys.users.Sublist s.users := by
  refine ⟨_, rfl, ?_, ?_⟩
  · unfold bulkDeleteAccounts
    have hlen : ¬ ids.length = 0 := fun hc => hne (List.length_eq_zero.mp hc)
    simp only [hlen, if_false, hadmin, hguard]
    rfl
  · obtain ⟨hsub, hperm, hdel, hgone⟩ :=
      bulkDeleteLoop_spec cfg env svc deletionDate s.users ids
        { sys := s, deletedUsers := [], failedDeletions := [] } (List.Sublist.refl _)
        (fun v hv => by cases hv)
    simp only [List.map_nil, List.append_nil, List.nil_append] at hperm
    refine ⟨hperm, ?_, hdel, hgone, hsub⟩
    have := hperm.length_eq
    simpa using this

/-- Instance of the classification theorem: an administrator lists `alice`, an id that nobody
carries, and `alice` once more. -/
theorem bulkDeleteAccounts_classifies_witness :
    ∃ st, st = bulkDeleteLoop demoConfig envOk demoService "2024-02-01"
          [.str "u1", .str "nobody", .str "u1"]
          { sys := { users := [otherAdmin, alice], outbox := [], calls := [] },
            deletedUsers := [], failedDeletions := [] }
      ∧ bulkDeleteAccounts demoConfig envOk demoService "2024-02-01" otherAdminReq
          (some [.str "u1", .str "nobody", .str "u1"])
          { users := [otherAdmin, alice], outbox := [], calls := [] }
          = ({ status := 200
               message := "Bulk deletion completed"
               data := some
                 { deletedCount := st.deletedUsers.length
                   failedCount := st.failedDeletions.length
                   failedDeletions :=
                     if st.failedDeletions.length > 0 then some st.failedDeletions else none } },
             st.sys)
      ∧ (st.deletedUsers ++ st.failedDeletions.map Prod.fst).Perm
          [.str "u1", .str "nobody", .str "u1"]
      ∧ st.deletedUsers.length + st.failedDeletions.length
          = [JsVal.str "u1", JsVal.str "nobody", JsVal.str "u1"].length
      ∧ (∀ v ∈ st.deletedUsers,
          (∃ a ∈ [otherAdmin, alice], JsVal.str a.id = v)
            ∧ ∀ a ∈ st.sys.users, JsVal.str a.id ≠ v)
      ∧ (∀ v ∈ [JsVal.str "u1", JsVal.str "nobody", JsVal.str "u1"], envOk.idOk v = true →
          ∀ a ∈ st.sys.users, JsVal.str a.id ≠ v)
      ∧ st.sys.users.Sublist [otherAdmin, alice] :=
  bulkDeleteAccounts_classifies demoConfig envOk demoService "2024-02-01" otherAdminReq
    [.str "u1", .str "nobody", .str "u1"]
    { users := [otherAdmin, alice], outbox := [], calls := [] } (by decide) rfl (by rfl)

/-- The counts of the witness: `alice` is deleted once, the unknown id and the second listing
of `alice` fail. -/
theorem bulkDeleteAccounts_example :
    (bulkDeleteAccounts demoConfig envOk demoService "2024-02-01" otherAdminReq
        (some [.str "u1", .str "nobody", .str "u1"])
        { users := [otherAdmin, alice], outbox := [], calls := [] }).1
      = { status := 200, message := "Bulk deletion completed",
          data := some
            { deletedCount := 1, failedCount := 2,
              failedDeletions :=
                some [(.str "nobody", "User not found"), (.str "u1", "User not found")] } } := by
  rfl

/-! ## Claims on getPredictions -/

/-- C25: for the category "free" and the date "20240101", a non-empty string without a hyphen
that is no date in either format, `getPredictions` answers 500 with the message of a
TypeError, not 400 with the message on the date format, whatever the runtime, the caller and
the collection are: `parsedDate` is still `undefined` when `getTime` is called on it. No
query is issued. -/
theorem getPredictions_no_hyphen_is_500 (rt : DateRuntime) (now : Nat)
    (user : Option Account) (predictions : List Prediction) :
    getPredictions rt now user (some "free") (some "20240101") predictions
      = ({ status := 500
           message := "Cannot read properties of undefined (reading 'getTime')"
           data := none }, []) := by
  have hp : parsedDate rt "20240101" = none := by
    unfold parsedDate
    have : jsIncludes "20240101" "-" = false := by decide
    simp [this]
  unfold getPredictions
  simp [hp]

/-- A date with a hyphen that the `Date` constructor turns into an Invalid Date is answered
400 with the message on the date format, and no query is issued. -/
theorem getPredictions_invalid_date (rt : DateRuntime) (now : Nat) (user : Option Account)
    (category date : String) (predictions : List Prediction)
    (hc : category ≠ "") (hd : date ≠ "")
    (haccess : category = "vip" → ∃ b, checkVIPAccess now user = .ok b)
    (hinvalid : parsedDate rt date = some none) :
    getPredictions rt now user (some category) (some date) predictions
      = ({ status := 400
           message := "Invalid date format. Please use YYYY-MM-DD or DD-MM-YYYY format"
           data := none }, []) := by
  unfold getPredictions
  by_cases hv : category = "vip"
  · obtain ⟨b, hb⟩ := haccess hv
    simp [hc, hd, hv, hb, hinvalid]
  · simp [hc, hd, hv, hinvalid]

/-- With a `Date` constructor that carries the excess of day 45 and month 13 over, the date
"45-13-2024" is accepted: the answer is 200 and a query for 2025-02-14 is issued. -/
theorem getPredictions_out_of_range_accepted :
    getPredictions demoDates 0 none (some "free") (some "45-13-2024") []
      = ({ status := 200, message := "No predictions found for the given date",
           data := some [] },
         [{ category := "free", startDate := 1739491200000, endDate := 1739577599999 }]) := by
  rfl

/-! ## Claims on sendBulkEmails -/

/-- C26: for the single address "bob@example.com", `sendBulkEmails` issues one `sendMail` call
and answers 200 with the message "Successfully sent emails to 15 recipients" and
recipientCount 15, the number of characters of the address. -/
theorem sendBulkEmails_single_counts_characters :
    sendBulkEmails envOk (fun m => some m.recipient) (.single "bob@example.com")
        "News" "Hello"
      = ({ status := 200, message := "Successfully sent emails to 15 recipients",
           recipientCount := some 15 },
         [.send (newsletterMail "News" "Hello" "bob@example.com")]) := by
  rfl

/-- For an array of addresses that are all delivered, the count in the answer is the number
of addresses. -/
theorem sendBulkEmails_array_example :
    (sendBulkEmails envOk (fun m => some m.recipient)
        (.array ["a@example.com", "b@example.com"]) "News" "Hello").1
      = { status := 200, message := "Successfully sent emails to 2 recipients",
          recipientCount := some 2 } := by
  rfl

/-! ## Claims on sendNewsletterEmails -/

/-- Between the batches of a trace that alternates batches and pauses there is one pause less
than there are batches. -/
theorem intersperse_pause_count (ms : Nat) : ∀ (chunks : List (List Mail)),
    (((chunks.map NewsEvent.batch).intersperse (.pause ms)).filter NewsEvent.isPause).length
      = chunks.length - 1
  | [] => rfl
  | [_] => rfl
  | c :: d :: rest => by
    have ih := intersperse_pause_count ms (d :: rest)
    simp only [List.map_cons, List.intersperse_cons₂, List.filter_cons, NewsEvent.isPause,
      List.length_cons] at ih ⊢
    simp only [Bool.false_eq_true, if_false, if_true, List.length_cons] at ih ⊢
    omega

/-- The loop from index `i` on, with enough fuel and every mail delivered: it returns
normally, and what it appends to the trace are the batches of the remaining addresses, of
one to ten mails each, with one pause between two batches. -/
theorem newsletterLoop_spec (env : Env) (accepted : Mail → Option String)
    (emails : List String) (subject message : String)
    (hok : ∀ e ∈ emails, env.sendOk (newsletterMail subject message e) = true) :
    ∀ (fuel i : Nat) (successful : List String) (trace : List NewsEvent),
      emails.length - i ≤ fuel →
      ∃ (chunks : List (List Mail)) (res : List String),
        newsletterLoop env accepted emails subject message fuel i successful trace
            = (.ok res, trace ++ (chunks.map NewsEvent.batch).intersperse (.pause 10000))
          ∧ chunks.flatten = (emails.drop i).map (newsletterMail subject message)
          ∧ (∀ c ∈ chunks, 0 < c.length ∧ c.length ≤ 10)
          ∧ chunks.length = (emails.length - i + 9) / 10
  | 0, i, successful, trace, hfuel => by
    refine ⟨[], successful, by simp [newsletterLoop], ?_, by simp, ?_⟩
    · have : emails.drop i = [] := List.drop_eq_nil_of_le (by omega)
      simp [this]
    · simp only [List.length_nil]
      omega
  | fuel + 1, i, successful, trace, hfuel => by
    rw [newsletterLoop]
    by_cases hi : i < emails.length
    · simp only [hi, if_true]
      have hall : (List.map (newsletterMail subject message)
          ((emails.drop i).take 10)).all env.sendOk = true := by
        rw [List.all_eq_true]
        intro m hm
        obtain ⟨e, he, rfl⟩ := List.mem_map.mp hm
        exact hok e (List.mem_of_mem_drop (List.mem_of_mem_take he))
      simp only [hall, if_true]
      have hlen : (List.map (newsletterMail subject message)
          ((emails.drop i).take 10)).length = min 10 (emails.length - i) := by
        simp [List.length_take]
      have hflat : List.map (newsletterMail subject message) ((emails.drop i).take 10)
          ++ (emails.drop (i + 10)).map (newsletterMail subject message)
          = (emails.drop i).map (newsletterMail subject message) := by
        rw [← List.map_append]
        congr 1
        have := List.take_append_drop 10 (emails.drop i)
        rw [List.drop_drop] at this
        exact this
      by_cases hmore : i + 10 < emails.length
      · simp only [hmore, if_true]
        obtain ⟨chunks, res, heq, hfl, hsz, hcnt⟩ :=
          newsletterLoop_spec env accepted emails subject message hok fuel (i + 10)
            (successful ++ (List.map (newsletterMail subject message)
              ((emails.drop i).take 10)).filterMap accepted)
            (trace ++ [.batch (List.map (newsletterMail subject message)
              ((emails.drop i).take 10)), .pause 10000]) (by omega)
        cases chunks with
        | nil =>
          simp only [List.length_nil] at hcnt
          omega
        | cons c cs =>
          refine ⟨List.map (newsletterMail subject message) ((emails.drop i).take 10)
            :: c :: cs, res, ?_, ?_, ?_, ?_⟩
          · rw [heq]
            simp [List.intersperse_cons₂]
          · rw [List.flatten_cons, hfl, hflat]
          · intro x hx
            rcases List.mem_cons.mp hx with hx | hx
            · subst hx
              rw [hlen]
              omega
            · exact hsz x hx
          · simp only [List.length_cons] at hcnt ⊢
            omega
      · simp only [hmore, if_false]
        obtain ⟨chunks, res, heq, _, _, hcnt⟩ :=
          newsletterLoop_spec env accepted emails subject message hok fuel (i + 10)
            (successful ++ (List.map (newsletterMail subject message)
              ((emails.drop i).take 10)).filterMap accepted)
            (trace ++ [.batch (List.map (newsletterMail subject message)
              ((emails.drop i).take 10))]) (by omega)
        have hnil : chunks = [] := by
          apply List.length_eq_zero.mp
          rw [hcnt]
          omega
        subst hnil
        refine ⟨[List.map (newsletterMail subject message) ((emails.drop i).take 10)], res,
          ?_, ?_, ?_, ?_⟩
        · rw [heq]
          simp
        · have hrest : emails.drop (i + 10) = [] := List.drop_eq_nil_of_le (by omega)
          rw [hrest] at hflat
          simpa using hflat
        · intro x hx
          rw [List.mem_singleton] at hx
          subst hx
          rw [hlen]
          omega
        · simp only [List.length_singleton]
          omega
    · simp only [hi, if_false]
      refine ⟨[], successful, by simp, ?_, by simp, ?_⟩
      · have : emails.drop i = [] := List.drop_eq_nil_of_le (by omega)
        simp [this]
      · simp only [List.length_nil]
        omega

/-- C27: for an array of n addresses whose mails are all delivered, `sendNewsletterEmails`
returns normally and its trace consists of batches with one pause of ten seconds between two
batches and none before the first or after the last; the batches, read in order, hold
exactly one mail per address in the order of the array; every batch holds between one and ten
mails; there are ceil(n/10) batches and ceil(n/10) - 1 pauses, so for n = 0 nothing is sent
and there is no pause. -/
theorem sendNewsletterEmails_batches (env : Env) (accepted : Mail → Option String)
    (emails : List String) (subject message : String)
    (hok : ∀ e ∈ emails, env.sendOk (newsletterMail subject message e) = true) :
    ∃ (chunks : List (List Mail)) (res : List String),
      sendNewsletterEmails env accepted (.array emails) subject message
          = (.ok res, (chunks.map NewsEvent.batch).intersperse (.pause 10000))
        ∧ chunks.flatten = emails.map (newsletterMail subject message)
        ∧ (∀ c ∈ chunks, 0 < c.length ∧ c.length ≤ 10)
        ∧ chunks.length = (emails.length + 9) / 10
        ∧ (((chunks.map NewsEvent.batch).intersperse (.pause 10000)).filter
            NewsEvent.isPause).length = (emails.length + 9) / 10 - 1 := by
  obtain ⟨chunks, res, heq, hfl, hsz, hcnt⟩ :=
    newsletterLoop_spec env accepted emails subject message hok emails.length 0 [] []
      (by omega)
  refine ⟨chunks, res, ?_, ?_, hsz, ?_, ?_⟩
  · unfold sendNewsletterEmails
    simpa using heq
  · simpa using hfl
  · simpa using hcnt
  · rw [intersperse_pause_count, hcnt]
    simp

/-- Instance of the batching theorem: twelve addresses, sent as a batch of ten, a pause and a
batch of two. -/
theorem sendNewsletterEmails_batches_witness :
    ∃ (chunks : List (List Mail)) (res : List String),
      sendNewsletterEmails envOk (fun m => some m.recipient)
          (.array ["a1@x.org", "a2@x.org", "a3@x.org", "a4@x.org", "a5@x.org", "a6@x.org",
            "a7@x.org", "a8@x.org", "a9@x.org", "a10@x.org", "a11@x.org", "a12@x.org"])
          "News" "Hello"
          = (.ok res, (chunks.map NewsEvent.batch).intersperse (.pause 10000))
        ∧ chunks.flatten
          = ["a1@x.org", "a2@x.org", "a3@x.org", "a4@x.org", "a5@x.org", "a6@x.org",
              "a7@x.org", "a8@x.org", "a9@x.org", "a10@x.org", "a11@x.org", "a12@x.org"].map
              (newsletterMail "News" "Hello")
        ∧ (∀ c ∈ chunks, 0 < c.length ∧ c.length ≤ 10)
        ∧ chunks.length
          = (["a1@x.org", "a2@x.org", "a3@x.org", "a4@x.org", "a5@x.org", "a6@x.org",
              "a7@x.org", "a8@x.org", "a9@x.org", "a10@x.org", "a11@x.org",
              "a12@x.org"].length + 9) / 10
        ∧ (((chunks.map NewsEvent.batch).intersperse (.pause 10000)).filter
            NewsEvent.isPause).length
          = (["a1@x.org", "a2@x.org", "a3@x.org", "a4@x.org", "a5@x.org", "a6@x.org",
              "a7@x.org", "a8@x.org", "a9@x.org", "a10@x.org", "a11@x.org",
              "a12@x.org"].length + 9) / 10 - 1 :=
  sendNewsletterEmails_batches envOk (fun m => some m.recipient)
    ["a1@x.org", "a2@x.org", "a3@x.org", "a4@x.org", "a5@x.org", "a6@x.org", "a7@x.org",
      "a8@x.org", "a9@x.org", "a10@x.org", "a11@x.org", "a12@x.org"]
    "News" "Hello" (fun _ _ => rfl)

/-! ## Claims on getRevenueAnalytics -/

theorem foldl_add_sum {α β : Type} [AddCommMonoid β] (f : α → β) :
    ∀ (l : List α) (init : β), l.foldl (fun acc curr => acc + f curr) init
      = init + (l.map f).sum
  | [], init => by simp
  | a :: l, init => by
    rw [List.foldl_cons, foldl_add_sum f l, List.map_cons, List.sum_cons, add_assoc]

theorem updateAt_length (g : MonthData → MonthData) :
    ∀ (m : Nat) (l : List MonthData), (updateAt g m l).length = l.length
  | m, [] => by cases m <;> simp [updateAt]
  | 0, _ :: _ => rfl
  | m + 1, _ :: ds => by simp [updateAt, updateAt_length g m ds]

/-- An update that adds `c` to a quantity of one entry adds `c` to the sum of that quantity
over the array. -/
theorem updateAt_sum {β : Type} [AddCommMonoid β] (f : MonthData → β)
    (g : MonthData → MonthData) (c : β) (hg : ∀ d, f (g d) = f d + c) :
    ∀ (m : Nat) (l : List MonthData), m < l.length →
      ((updateAt g m l).map f).sum = (l.map f).sum + c
  | _, [], h => by simp at h
  | 0, d :: ds, _ => by
    simp only [updateAt, List.map_cons, List.sum_cons, hg]
    rw [add_right_comm]
  | m + 1, d :: ds, h => by
    have hm : m < ds.length := by simpa using h
    simp only [updateAt, List.map_cons, List.sum_cons, updateAt_sum f g c hg m ds hm]
    rw [add_assoc]

theorem updateAt_getElem (g : MonthData → MonthData) :
    ∀ (m k : Nat) (l : List MonthData),
      (updateAt g m l)[k]? = (l[k]?).map (fun d => if k = m then g d else d)
  | _, _, [] => by simp [updateAt]
  | 0, 0, d :: ds => by simp [updateAt]
  | 0, k + 1, d :: ds => by
    simp only [updateAt, List.getElem?_cons_succ]
    cases ds[k]? <;> simp
  | m + 1, 0, d :: ds => by simp [updateAt]
  | m + 1, k + 1, d :: ds => by
    simp only [updateAt, List.getElem?_cons_succ, updateAt_getElem g m k ds]
    cases ds[k]? <;> simp

theorem zip_getElem {α β : Type} : ∀ (l1 : List α) (l2 : List β) (k : Nat) (a : α) (b : β),
    l1[k]? = some a → l2[k]? = some b → (l1.zip l2)[k]? = some (a, b)
  | [], _, _, _, _, h1, _ => by simp at h1
  | _ :: _, [], _, _, _, _, h2 => by simp at h2
  | x :: l1, y :: l2, 0, a, b, h1, h2 => by
    simp only [List.getElem?_cons_zero, Option.some.injEq] at h1 h2
    simp [h1, h2]
  | x :: l1, y :: l2, k + 1, a, b, h1, h2 => by
    simp only [List.getElem?_cons_succ] at h1 h2
    simpa using zip_getElem l1 l2 k a b h1 h2

/-- The leading digit of a number below `2^(k+1)` is at position `k` at most. -/
theorem leadingBitFuel_le : ∀ (fuel n k : Nat), n < 2 ^ (k + 1) → leadingBitFuel fuel n ≤ k
  | 0, _, _, _ => Nat.zero_le _
  | fuel + 1, n, k, h => by
    simp only [leadingBitFuel]
    split
    · rename_i h2
      cases k with
      | zero => simp at h; omega
      | succ k =>
        have hhalf : n / 2 < 2 ^ (k + 1) := by
          apply Nat.div_lt_of_lt_mul
          rw [← pow_succ']
          exact h
        have := leadingBitFuel_le fuel (n / 2) k hhalf
        omega
    · exact Nat.zero_le _

/-- Rounding leaves a whole number of at most 53 binary digits, scaled by a power of two,
as it is. -/
theorem roundToGrid_mul_pow (z u : Nat) (hz : z < 2 ^ 53) :
    roundToGrid (z * 2 ^ u) 1 = z * 2 ^ u := by
  have hlt : z * 2 ^ u < 2 ^ (52 + u + 1) := by
    have h2 : 2 ^ (52 + u + 1) = 2 ^ 53 * 2 ^ u := by
      rw [← pow_add]
      congr 1
      omega
    rw [h2]
    exact Nat.mul_lt_mul_of_pos_right hz (Nat.two_pow_pos u)
  have hk : leadingBit (z * 2 ^ u) - 52 ≤ u := by
    have := leadingBitFuel_le (z * 2 ^ u) (z * 2 ^ u) (52 + u) hlt
    unfold leadingBit
    omega
  have hdvd : 2 ^ (leadingBit (z * 2 ^ u) - 52) ∣ z * 2 ^ u :=
    Dvd.dvd.mul_left (pow_dvd_pow 2 hk) z
  unfold roundToGrid
  simp only [Nat.div_one, one_mul]
  rw [Nat.mod_eq_zero_of_dvd hdvd, if_pos (Or.inl (by positivity))]
  exact Nat.div_mul_cancel hdvd

theorem scaled_lt (n u v : Nat) (h : n < 2 ^ 53) (huv : 53 + u ≤ v) : n * 2 ^ u < 2 ^ v := by
  have h1 : n * 2 ^ u < 2 ^ 53 * 2 ^ u := Nat.mul_lt_mul_of_pos_right h (Nat.two_pow_pos u)
  have h2 : 2 ^ (53 + u) ≤ 2 ^ v := Nat.pow_le_pow_right (by decide) huv
  rw [pow_add] at h2
  exact lt_of_lt_of_le h1 h2

theorem scaled_eq_zero (n u : Nat) (h : n * 2 ^ u = 0) : n = 0 := by
  rcases Nat.mul_eq_zero.mp h with h | h
  · exact h
  · exact absurd h (Nat.ne_of_gt (Nat.two_pow_pos u))

/-- A whole amount below 2^53 is a number exactly. -/
theorem JsNumber.ofNat_exact (n : Nat) (h : n < 2 ^ 53) :
    JsNumber.ofNat n = .finite false (n * 2 ^ 1074) := by
  have hlt : n * 2 ^ 1074 < 2 ^ 2098 := scaled_lt n 1074 2098 h (by decide)
  unfold JsNumber.ofNat JsNumber.ofRatio
  rw [roundToGrid_mul_pow n 1074 h, if_pos hlt]

/-- The sum of two finite numbers that are not negative. -/
theorem JsNumber.add_finite (m1 m2 : Nat) :
    (JsNumber.finite false m1).add (.finite false m2)
      = if m1 + m2 = 0 then .finite false 0 else .ofRatio false (m1 + m2) 1 := by
  simp only [JsNumber.add, Bool.false_eq_true, if_false, Bool.and_self]
  by_cases hx : m1 + m2 = 0
  · have hx2 : (m1 : Int) + (m2 : Int) = 0 := by exact_mod_cast hx
    rw [if_pos hx, if_pos hx2]
  · have hx2 : ¬ (m1 : Int) + (m2 : Int) = 0 := by
      intro hc
      exact hx (by exact_mod_cast hc)
    have hnn : ¬ (m1 : Int) + (m2 : Int) < 0 := by omega
    have habs : ((m1 : Int) + (m2 : Int)).natAbs = m1 + m2 := by
      rw [← Nat.cast_add, Int.natAbs_ofNat]
    rw [if_neg hx, if_neg hx2, decide_eq_false hnn, habs]

/-- The sum of two whole amounts below 2^53 is the number of their sum, rounded. -/
theorem JsNumber.add_ofNat (a b : Nat) (ha : a < 2 ^ 53) (hb : b < 2 ^ 53) :
    (JsNumber.ofNat a).add (JsNumber.ofNat b) = JsNumber.ofNat (a + b) := by
  rw [JsNumber.ofNat_exact a ha, JsNumber.ofNat_exact b hb, JsNumber.add_finite,
    ← Nat.add_mul]
  by_cases hx : (a + b) * 2 ^ 1074 = 0
  · rw [if_pos hx]
    have hab : a + b = 0 := scaled_eq_zero (a + b) 1074 hx
    rw [hab, JsNumber.ofNat_exact 0 (Nat.two_pow_pos 53), Nat.zero_mul]
  · rw [if_neg hx]
    rfl

/-- Adding whole amounts one after the other is exact while the sum stays below 2^53. -/
theorem JsNumber.foldl_add_ofNat : ∀ (l : List Nat) (acc : Nat), acc + l.sum < 2 ^ 53 →
    (l.map JsNumber.ofNat).foldl JsNumber.add (JsNumber.ofNat acc) = JsNumber.ofNat (acc + l.sum)
  | [], acc, _ => by simp
  | a :: l, acc, h => by
    rw [List.sum_cons] at h
    rw [List.map_cons, List.foldl_cons, JsNumber.add_ofNat acc a (by omega) (by omega),
      JsNumber.foldl_add_ofNat l (acc + a) (by omega), List.sum_cons, add_assoc]

/-- The array after the `forEach`: it keeps its twelve entries, its counters grow by the
number of records, and each entry grows by the records of its month, taken in their order. -/
theorem monthlyFold_spec (getMonth : Nat → Fin 12) :
    ∀ (records : List PaymentRecord) (md0 : List MonthData), md0.length = 12 →
      (records.foldl (fun md r => updateAt (addPayment r) (getMonth r.activation).val md)
          md0).length = 12
        ∧ ((records.foldl (fun md r => updateAt (addPayment r) (getMonth r.activation).val md)
            md0).map MonthData.subscriptions).sum
          = (md0.map MonthData.subscriptions).sum + records.length
        ∧ ((records.foldl (fun md r => updateAt (addPayment r) (getMonth r.activation).val md)
            md0).map (fun d => d.weeklyPlans + d.monthlyPlans)).sum
          = (md0.map (fun d => d.weeklyPlans + d.monthlyPlans)).sum + records.length
        ∧ ∀ k : Fin 12, ∃ d0 d, md0[k.val]? = some d0
            ∧ (records.foldl
                (fun md r => updateAt (addPayment r) (getMonth r.activation).val md)
                md0)[k.val]? = some d
            ∧ d.revenue
              = ((records.filter (fun r => decide (getMonth r.activation = k))).map
                  PaymentRecord.payment).foldl JsNumber.add d0.revenue
            ∧ d.subscriptions = d0.subscriptions
                + (records.filter (fun r => decide (getMonth r.activation = k))).length
  | [], md0, h0 => by
    refine ⟨h0, by simp, by simp, fun k => ?_⟩
    have hk : k.val < md0.length := by rw [h0]; exact k.isLt
    exact ⟨md0[k.val], md0[k.val], by simp [hk], by simp [hk], by simp, by simp⟩
  | r :: rest, md0, h0 => by
    have hm : (getMonth r.activation).val < md0.length := by
      rw [h0]; exact (getMonth r.activation).isLt
    have h1 : (updateAt (addPayment r) (getMonth r.activation).val md0).length = 12 := by
      rw [updateAt_length, h0]
    obtain ⟨hlen, hsub, hplan, hent⟩ := monthlyFold_spec getMonth rest _ h1
    simp only [List.foldl_cons]
    refine ⟨hlen, ?_, ?_, fun k => ?_⟩
    · rw [hsub, updateAt_sum MonthData.subscriptions (addPayment r) 1 (fun _ => rfl) _ _ hm]
      simp only [List.length_cons]
      omega
    · rw [hplan, updateAt_sum (fun d => d.weeklyPlans + d.monthlyPlans) (addPayment r) 1
        (fun d => by
          simp only [addPayment]
          split <;> omega) _ _ hm]
      simp only [List.length_cons]
      omega
    · obtain ⟨d1, d, hd1, hd, hdr, hds⟩ := hent k
      rw [updateAt_getElem] at hd1
      have hk : k.val < md0.length := by rw [h0]; exact k.isLt
      have h0k : md0[k.val]? = some md0[k.val] := by simp [hk]
      rw [h0k] at hd1
      simp only [Option.map_some', Option.some.injEq] at hd1
      refine ⟨md0[k.val], d, h0k, hd, ?_, ?_⟩
      · rw [hdr, ← hd1]
        by_cases hkm : k = getMonth r.activation
        · subst hkm
          simp [addPayment]
        · have hne : ¬ k.val = (getMonth r.activation).val := fun hc => hkm (Fin.ext hc)
          have hne2 : ¬ getMonth r.activation = k := fun hc => hkm hc.symm
          simp [hne, hne2]
      · rw [hds, ← hd1]
        by_cases hkm : k = getMonth r.activation
        · subst hkm
          simp [addPayment]
          omega
        · have hne : ¬ k.val = (getMonth r.activation).val := fun hc => hkm (Fin.ext hc)
          have hne2 : ¬ getMonth r.activation = k := fun hc => hkm hc.symm
          simp [hne, hne2]

/-- An update by a whole amount keeps the revenues whole while their sum stays below 2^53. -/
theorem updateAt_exact (r : PaymentRecord) (a : Nat) (hp : r.payment = .ofNat a) :
    ∀ (m : Nat) (md : List MonthData) (vs : List Nat), m < md.length →
      md.map MonthData.revenue = vs.map JsNumber.ofNat → vs.sum + a < 2 ^ 53 →
      ∃ ws : List Nat, (updateAt (addPayment r) m md).map MonthData.revenue = ws.map JsNumber.ofNat
        ∧ ws.sum = vs.sum + a
  | _, [], _, h, _, _ => by simp at h
  | _, _ :: _, [], _, hmap, _ => by simp at hmap
  | 0, d :: ds, v :: vs, _, hmap, hlt => by
    simp only [List.map_cons, List.cons.injEq] at hmap
    rw [List.sum_cons] at hlt
    refine ⟨(v + a) :: vs, ?_, by rw [List.sum_cons, List.sum_cons]; omega⟩
    simp only [updateAt, List.map_cons, addPayment, hmap.1, hmap.2, hp]
    rw [JsNumber.add_ofNat v a (by omega) (by omega)]
  | m + 1, d :: ds, v :: vs, h, hmap, hlt => by
    simp only [List.map_cons, List.cons.injEq] at hmap
    rw [List.sum_cons] at hlt
    have hm : m < ds.length := by simpa using h
    obtain ⟨ws, hws, hsum⟩ := updateAt_exact r a hp m ds vs hm hmap.2 (by omega)
    refine ⟨v :: ws, ?_, by rw [List.sum_cons, List.sum_cons, hsum]; omega⟩
    simp only [updateAt, List.map_cons, hmap.1, hws]

/-- The `forEach` over records of whole amounts keeps the revenues whole, and their sum grows
by the sum of the amounts, while the sum stays below 2^53. -/
theorem monthlyFold_exact (getMonth : Nat → Fin 12) (amount : PaymentRecord → Nat) :
    ∀ (records : List PaymentRecord) (md0 : List MonthData) (vs0 : List Nat),
      md0.length = 12 → md0.map MonthData.revenue = vs0.map JsNumber.ofNat →
      (∀ r ∈ records, r.payment = .ofNat (amount r)) →
      vs0.sum + (records.map amount).sum < 2 ^ 53 →
      ∃ vs : List Nat,
        (records.foldl (fun md r => updateAt (addPayment r) (getMonth r.activation).val md)
          md0).map MonthData.revenue = vs.map JsNumber.ofNat
        ∧ vs.sum = vs0.sum + (records.map amount).sum
  | [], md0, vs0, _, hmap, _, _ => ⟨vs0, hmap, by simp⟩
  | r :: rest, md0, vs0, h0, hmap, hpay, hlt => by
    rw [List.map_cons, List.sum_cons] at hlt
    have hm : (getMonth r.activation).val < md0.length := by
      rw [h0]; exact (getMonth r.activation).isLt
    obtain ⟨ws, hws, hsum⟩ := updateAt_exact r (amount r)
      (hpay r (List.mem_cons_self _ _)) _ md0 vs0 hm hmap (by omega)
    have h1 : (updateAt (addPayment r) (getMonth r.activation).val md0).length = 12 := by
      rw [updateAt_length, h0]
    obtain ⟨vs, hvs, hsum2⟩ := monthlyFold_exact getMonth amount rest _ ws h1 hws
      (fun x hx => hpay x (List.mem_cons_of_mem _ hx)) (by omega)
    refine ⟨vs, ?_, ?_⟩
    · simpa only [List.foldl_cons] using hvs
    · rw [hsum2, hsum, List.map_cons, List.sum_cons]
      omega

/-- C29 (amended): for the payment records that the query returned, totalSubscriptions is
their number; the entry of every month holds the number of the records whose activation falls
in that month and, as revenue, their payments added in double precision in the order of the
records; totalRevenue is the twelve monthly revenues added in double precision in the order
of the months; it is the number of the exact sum of the payments when these are whole numbers
whose sum is below 2^53, without any rounding; and totalWeeklyPlans + totalMonthlyPlans is
totalSubscriptions. -/
theorem getRevenueAnalytics_rounded_totals (getMonth : Nat → Fin 12)
    (vipPayments : List PaymentRecord) :
    (getRevenueAnalytics getMonth vipPayments).totalSubscriptions = vipPayments.length
      ∧ (∀ k : Fin 12, ∃ name d,
          (getRevenueAnalytics getMonth vipPayments).monthlyData[k.val]? = some (name, d)
            ∧ d.revenue
              = ((vipPayments.filter (fun r => decide (getMonth r.activation = k))).map
                  PaymentRecord.payment).foldl JsNumber.add .zero
            ∧ d.subscriptions
              = (vipPayments.filter (fun r => decide (getMonth r.activation = k))).length)
      ∧ (getRevenueAnalytics getMonth vipPayments).totalRevenue
        = ((List.finRange 12).map (fun k =>
            ((vipPayments.filter (fun r => decide (getMonth r.activation = k))).map
              PaymentRecord.payment).foldl JsNumber.add .zero)).foldl JsNumber.add .zero
      ∧ (∀ amount : PaymentRecord → Nat,
          (∀ r ∈ vipPayments, r.payment = .ofNat (amount r)) →
          (vipPayments.map amount).sum < 2 ^ 53 →
          (getRevenueAnalytics getMonth vipPayments).totalRevenue
              = .ofNat (vipPayments.map amount).sum
            ∧ JsNumber.ofNat (vipPayments.map amount).sum
              = .finite false ((vipPayments.map amount).sum * 2 ^ 1074))
      ∧ (getRevenueAnalytics getMonth vipPayments).totalWeeklyPlans
          + (getRevenueAnalytics getMonth vipPayments).totalMonthlyPlans
        = (getRevenueAnalytics getMonth vipPayments).totalSubscriptions := by
  obtain ⟨hlen, hsub, hplan, hent⟩ :=
    monthlyFold_spec getMonth vipPayments
      (List.replicate 12
        { revenue := .zero, subscriptions := 0, weeklyPlans := 0, monthlyPlans := 0 })
      (by simp)
  have hsub0 : ((List.replicate 12
      ({ revenue := .zero, subscriptions := 0, weeklyPlans := 0, monthlyPlans := 0 } :
        MonthData)).map MonthData.subscriptions).sum = 0 := by rfl
  have hplan0 : ((List.replicate 12
      ({ revenue := .zero, subscriptions := 0, weeklyPlans := 0, monthlyPlans := 0 } :
        MonthData)).map (fun d => d.weeklyPlans + d.monthlyPlans)).sum
      = 0 := by rfl
  rw [hsub0, zero_add] at hsub
  rw [hplan0, zero_add] at hplan
  have hentry : ∀ k : Fin 12, ∃ d,
      (monthlyDataOf getMonth vipPayments)[k.val]? = some d
        ∧ d.revenue
          = ((vipPayments.filter (fun r => decide (getMonth r.activation = k))).map
              PaymentRecord.payment).foldl JsNumber.add .zero
        ∧ d.subscriptions
          = (vipPayments.filter (fun r => decide (getMonth r.activation = k))).length := by
    intro k
    obtain ⟨d0, d, hd0, hd, hdr, hds⟩ := hent k
    have hz : d0
        = ({ revenue := .zero, subscriptions := 0, weeklyPlans := 0, monthlyPlans := 0 } :
            MonthData) := by
      have hk : k.val < 12 := k.isLt
      rw [List.getElem?_replicate, if_pos hk] at hd0
      exact (Option.some.inj hd0).symm
    subst hz
    exact ⟨d, hd, hdr, by simpa using hds⟩
  have htotalSub : (getRevenueAnalytics getMonth vipPayments).totalSubscriptions
      = vipPayments.length := by
    simp only [getRevenueAnalytics, monthlyDataOf]
    rw [foldl_add_sum MonthData.subscriptions, zero_add, hsub]
  have htotal : (getRevenueAnalytics getMonth vipPayments).totalRevenue
      = ((monthlyDataOf getMonth vipPayments).map MonthData.revenue).foldl JsNumber.add
          .zero := by
    simp only [getRevenueAnalytics]
    rw [List.foldl_map]
  refine ⟨htotalSub, fun k => ?_, ?_, ?_, ?_⟩
  · obtain ⟨d, hd, hdr, hds⟩ := hentry k
    have hname : ∃ name, (["Jan", "Feb", "Mar", "Apr", "May", "Jun", "Jul", "Aug", "Sep",
        "Oct", "Nov", "Dec"] : List String)[k.val]? = some name := by
      have hk : k.val < (["Jan", "Feb", "Mar", "Apr", "May", "Jun", "Jul", "Aug", "Sep",
        "Oct", "Nov", "Dec"] : List String).length := k.isLt
      exact ⟨_, List.getElem?_eq_getElem hk⟩
    obtain ⟨name, hn⟩ := hname
    refine ⟨name, d, ?_, hdr, hds⟩
    simp only [getRevenueAnalytics]
    exact zip_getElem _ _ _ _ _ hn hd
  · rw [htotal]
    congr 1
    apply List.ext_getElem?
    intro n
    by_cases hn : n < 12
    · obtain ⟨d, hd, hdr, _⟩ := hentry ⟨n, hn⟩
      simp only at hd
      rw [List.getElem?_map, hd, Option.map_some', hdr, List.getElem?_map,
        List.getElem?_eq_getElem (by simpa using hn), Option.map_some']
      simp
    · have h1 : ((monthlyDataOf getMonth vipPayments).map MonthData.revenue).length ≤ n := by
        rw [List.length_map]
        unfold monthlyDataOf
        rw [hlen]
        omega
      rw [List.getElem?_eq_none h1, List.getElem?_eq_none (by simpa using hn)]
  · intro amount hpay hlt
    refine ⟨?_, JsNumber.ofNat_exact _ hlt⟩
    obtain ⟨vs, hvs, hsum⟩ := monthlyFold_exact getMonth amount vipPayments
      (List.replicate 12
        { revenue := .zero, subscriptions := 0, weeklyPlans := 0, monthlyPlans := 0 })
      (List.replicate 12 0) (by simp)
      (by
        simp only [List.map_replicate]
        rw [JsNumber.ofNat_exact 0 (Nat.two_pow_pos 53), Nat.zero_mul]
        rfl)
      hpay (by simpa using hlt)
    have hs0 : (List.replicate 12 0).sum = 0 := by rfl
    rw [hs0, zero_add] at hsum
    rw [htotal]
    unfold monthlyDataOf
    rw [hvs]
    have hz : JsNumber.zero = JsNumber.ofNat 0 := by
      rw [JsNumber.ofNat_exact 0 (Nat.two_pow_pos 53), Nat.zero_mul]
      rfl
    rw [hz, JsNumber.foldl_add_ofNat vs 0 (by omega), zero_add, hsum]
  · rw [htotalSub]
    simp only [getRevenueAnalytics, monthlyDataOf]
    rw [foldl_add_sum MonthData.weeklyPlans, foldl_add_sum MonthData.monthlyPlans, zero_add,
      zero_add, ← hplan, List.sum_map_add]

/-- Instance of the revenue theorem: the three payments of `demoPayments` for the entries and
the monthly totals, and the two payments of 25 of `wholePayments` for the exact total 50. -/
theorem getRevenueAnalytics_rounded_totals_witness :
    (getRevenueAnalytics demoMonth demoPayments).totalSubscriptions = demoPayments.length
      ∧ (getRevenueAnalytics demoMonth demoPayments).totalRevenue
        = ((List.finRange 12).map (fun k =>
            ((demoPayments.filter (fun r => decide (demoMonth r.activation = k))).map
              PaymentRecord.payment).foldl JsNumber.add .zero)).foldl JsNumber.add .zero
      ∧ ((getRevenueAnalytics demoMonth wholePayments).totalRevenue
          = .ofNat (wholePayments.map (fun _ => 25)).sum
        ∧ JsNumber.ofNat (wholePayments.map (fun _ => 25)).sum
          = .finite false ((wholePayments.map (fun _ => 25)).sum * 2 ^ 1074)) :=
  ⟨(getRevenueAnalytics_rounded_totals demoMonth demoPayments).1,
    (getRevenueAnalytics_rounded_totals demoMonth demoPayments).2.2.1,
    (getRevenueAnalytics_rounded_totals demoMonth wholePayments).2.2.2.1 (fun _ => 25)
      (by
        intro r hr
        simp only [wholePayments, List.mem_cons, List.mem_singleton, List.not_mem_nil,
          or_false] at hr
        rcases hr with h | h <;> rw [h])
      (by
        have h : (wholePayments.map (fun _ => 25)).sum = 50 := by rfl
        rw [h]
        exact Nat.lt_of_lt_of_le (by decide : 50 < 2 ^ 6)
          (Nat.pow_le_pow_right (by decide) (by decide)))⟩

set_option maxRecDepth 100000
set_option exponentiation.threshold 4000

/-- C29 (as stated, refuted): for the payments 4.99 in the first month and 9.99 and 10 in the
second, all selected by the query, totalRevenue is 24.980000000000004: the first month holds
4.99, the second 19.990000000000002, and their sum is rounded again. The payments added in the
order of the records give 24.98, and the exact sum of the three payments is not the total
either. -/
theorem getRevenueAnalytics_total_is_not_the_sum :
    (∀ r ∈ demoPayments, vipPaymentQuery 0 r = true ∧ r.payment.isDouble = true)
      ∧ demoPayments.map PaymentRecord.payment
        = [.finite false (2809120267572347 * 2 ^ 1025),
           .finite false (5623870034678907 * 2 ^ 1025), .finite false (5 * 2 ^ 1075)]
      ∧ (getRevenueAnalytics demoMonth demoPayments).totalRevenue
        = .finite false (1757811229558047 * 2 ^ 1028)
      ∧ (getRevenueAnalytics demoMonth demoPayments).totalRevenue
        = .ofDecimal 24980000000000004 15
      ∧ (demoPayments.map PaymentRecord.payment).foldl JsNumber.add .zero
        = .ofDecimal 2498 2
      ∧ JsNumber.ofDecimal 24980000000000004 15 ≠ .ofDecimal 2498 2
      ∧ 1757811229558047 * 2 ^ 1028
        ≠ 2809120267572347 * 2 ^ 1025 + 5623870034678907 * 2 ^ 1025 + 5 * 2 ^ 1075 := by
  refine ⟨by decide, by decide, by decide, by decide, by decide, by decide, by decide⟩

/-- The answer for the two whole payments of 25: total 50, two subscriptions, both monthly,
and the average 50 / 12 rounded to 4.166666666666667. -/
theorem getRevenueAnalytics_example :
    (getRevenueAnalytics demoMonth wholePayments).totalRevenue = .ofNat 50
      ∧ (getRevenueAnalytics demoMonth wholePayments).totalSubscriptions = 2
      ∧ (getRevenueAnalytics demoMonth wholePayments).totalMonthlyPlans = 2
      ∧ (getRevenueAnalytics demoMonth wholePayments).averageRevenuePerMonth
        = .ofDecimal 4166666666666667 15 := by
  refine ⟨by decide, by decide, by decide, by decide⟩

end Tip90
